import Mathlib

/-!
# Decoding core of `generators`: greedy / beam search state machines and logits processors

Shallow embedding of `src/src/search.cpp`.

Conventions of the embedding
* `ScoreType` (a C++ `float`) is an abstract type `α`; each function asks only for the
  operations the source applies to scores (comparison, `+`, `*`, `/`).  Rounding is not modelled.
* token ids, sizes and loop counters are `Nat`; `not_done_count_` (an `int` that is
  decremented) is an `Int`.
* flat buffers (`std::span`) are `List`s; `buf[i]` is `buf.getD i default`, `buf[i] = v` is
  `buf.set i v`.
* `params_` is immutable after construction and is passed explicitly as `p`.
-/

namespace Generators

/-- The fields of `SearchParams` that `search.cpp` reads (`length_penalty` and `early_stopping`
are consumed by the beam scorer only). -/
structure SearchParams where
  num_beams : Nat
  batch_size : Nat
  sequence_length : Nat
  max_length : Nat
  pad_token_id : Nat
  eos_token_id : Nat
  vocab_size : Nat
  input_ids : List Nat

/-- `SearchParams::BatchBeamSize`. -/
def SearchParams.BatchBeamSize (p : SearchParams) : Nat :=
  p.num_beams * p.batch_size

/-- Modelled from the spec: the `Sequences` buffer (`Sequences.h` is not part of the sources).
`rows` holds, for each of the `BatchBeamSize` rows, its valid prefix of `current_length`
tokens. -/
structure Sequences where
  rows : List (List Nat)
  current_length : Nat
  max_length : Nat

/-- Modelled from the spec: construction of `Sequences` from the prompt, every batch row of
`input_ids` duplicated `num_beams` times, `current_length` starting at `sequence_length`. -/
def Sequences.new (p : SearchParams) : Sequences :=
  { rows := (List.range p.BatchBeamSize).map fun i =>
      (p.input_ids.drop ((i / p.num_beams) * p.sequence_length)).take p.sequence_length
    current_length := p.sequence_length
    max_length := p.max_length }

/-- Modelled from the spec: `Sequences::GetSequenceLength`. -/
def Sequences.GetSequenceLength (q : Sequences) : Nat :=
  q.current_length

/-- Modelled from the spec: `Sequences::GetSequence(beam_index)`, the history of one row. -/
def Sequences.GetSequence (q : Sequences) (beam_index : Nat) : List Nat :=
  q.rows.getD beam_index []

/-- Modelled from the spec: greedy `append_next_tokens`, writes column `current_length` of
each row and increments `current_length`. -/
def Sequences.AppendNextTokenToSequences (q : Sequences) (next_tokens : List Nat) : Sequences :=
  { q with
    rows := (List.range q.rows.length).map fun i => q.rows.getD i [] ++ [next_tokens.getD i 0]
    current_length := q.current_length + 1 }

/-- Modelled from the spec: beam `append_next_tokens`, row `i` receives the history of row
`next_indices[i]` followed by `next_tokens[i]`. -/
def Sequences.AppendNextTokenToSequencesBeam (q : Sequences) (next_indices next_tokens : List Nat) :
    Sequences :=
  { q with
    rows := (List.range q.rows.length).map fun i =>
      q.rows.getD (next_indices.getD i 0) [] ++ [next_tokens.getD i 0]
    current_length := q.current_length + 1 }

/-- The members of `Search` that `search.cpp` uses. -/
structure Search (α : Type) where
  sequences_ : Sequences
  next_token_scores_ : List α
  done_ : Bool

/-- The state of `GreedySearch`. -/
structure GreedySearch (α : Type) extends Search α where
  next_tokens_ : List Nat
  eos_seen_ : List Bool
  not_done_count_ : Int

/-- Modelled from the spec: `Search::IsDone` (declared in `search.h`), the `done_` flag. -/
def Search.IsDone {α : Type} (s : Search α) : Bool :=
  s.done_

/-- `Search::GetSequenceLength`. -/
def Search.GetSequenceLength {α : Type} (s : Search α) : Nat :=
  s.sequences_.GetSequenceLength

/-- `Search::GetScores(batch_beam_index)`: the row view
`next_token_scores_.subspan(batch_beam_index * vocab_size, vocab_size)`. -/
def Search.GetScores {α : Type} (p : SearchParams) (s : Search α) (batch_beam_index : Nat) :
    List α :=
  (s.next_token_scores_.drop (batch_beam_index * p.vocab_size)).take p.vocab_size

/-- `Search::Search` followed by `GreedySearch::GreedySearch` (lines 9-29): zeroed score table,
zeroed `next_tokens_` and `eos_seen_`.  The member initialisers are in `search.h`, which is not
part of the sources; as the spec states, `done_` starts false and `not_done_count_` starts at
`batch_size`. -/
def GreedySearch.new {α : Type} [Zero α] (p : SearchParams) : GreedySearch α :=
  { sequences_ := Sequences.new p
    next_token_scores_ := List.replicate (p.BatchBeamSize * p.vocab_size) 0
    done_ := false
    next_tokens_ := List.replicate p.batch_size 0
    eos_seen_ := List.replicate p.batch_size false
    not_done_count_ := p.batch_size }

section Greedy

variable {α : Type} [LinearOrder α] [Inhabited α]

/-- One iteration of the inner loop of `SelectTop1` (lines 157-162): `acc` is
`(best_token, best_score)`, `base` the scores pointer. -/
def SelectTop1.scan (base : List α) (acc : Nat × α) (token : Nat) : Nat × α :=
  if base.getD token default > acc.2 then (token, base.getD token default) else acc

/-- Lines 155-162 of `SelectTop1`: the argmax scan over `vocab_size` scores starting at the
pointer `next_token_scores` (offset `off` into the score table). -/
def SelectTop1.best_token (scores : List α) (off vocab_size : Nat) : Nat :=
  ((List.range' 1 (vocab_size - 1)).foldl (SelectTop1.scan (scores.drop off))
    (0, (scores.drop off).getD 0 default)).1

/-- The body of the `batch_id` loop of `SelectTop1` (lines 148-170).  The loop state is the
search together with the offset of the pointer `next_token_scores` into the score table; the
`continue` of line 152 leaves that pointer where it is. -/
def SelectTop1.body (p : SearchParams) (st : GreedySearch α × Nat) (batch_id : Nat) :
    GreedySearch α × Nat :=
  let s := st.1
  let off := st.2
  if s.eos_seen_.getD batch_id false then
    ({ s with next_tokens_ := s.next_tokens_.set batch_id p.pad_token_id }, off)
  else
    let best := SelectTop1.best_token s.next_token_scores_ off p.vocab_size
    let s1 : GreedySearch α := { s with next_tokens_ := s.next_tokens_.set batch_id best }
    if best = p.eos_token_id then
      ({ s1 with
          eos_seen_ := s1.eos_seen_.set batch_id true
          not_done_count_ := s1.not_done_count_ - 1
          done_ := if s1.not_done_count_ - 1 = 0 then true else s1.done_ },
        off + p.vocab_size)
    else
      (s1, off + p.vocab_size)

/-- The `batch_id` loop of `SelectTop1` (lines 147-171) run for `n` iterations, the pointer
`next_token_scores` starting at the head of the score table (line 145). -/
def SelectTop1.loop (p : SearchParams) (s : GreedySearch α) (n : Nat) : GreedySearch α × Nat :=
  (List.range n).foldl (SelectTop1.body p) (s, 0)

/-- `GreedySearch::AppendNextTokensToSequences` (lines 176-181). -/
def GreedySearch.AppendNextTokensToSequences (p : SearchParams) (s : GreedySearch α) :
    GreedySearch α :=
  let sequences := s.sequences_.AppendNextTokenToSequences s.next_tokens_
  { s with
    sequences_ := sequences
    done_ := if sequences.GetSequenceLength = p.max_length then true else s.done_ }

/-- `GreedySearch::SelectTop1` (lines 144-174). -/
def GreedySearch.SelectTop1 (p : SearchParams) (s : GreedySearch α) : GreedySearch α :=
  GreedySearch.AppendNextTokensToSequences p (SelectTop1.loop p s p.batch_size).1

/-- One round of the driver loop on a greedy search: the score table is replaced (by
`SetLogits` and the processors) with `scores`, then `SelectTop1` runs. -/
def GreedySearch.step (p : SearchParams) (s : GreedySearch α) (scores : List α) :
    GreedySearch α :=
  GreedySearch.SelectTop1 p { s with next_token_scores_ := scores }

/-- Successive rounds of the driver loop, one score table per round. -/
def GreedySearch.run (p : SearchParams) (s : GreedySearch α) (tables : List (List α)) :
    GreedySearch α :=
  tables.foldl (GreedySearch.step p) s

end Greedy

/-- Row `b` selects `eos_token_id` during the rounds `tables` run from state `s`: at some round
the row is not yet finished (`eos_seen_[b]` is false) and the token the round stores in
`next_tokens_[b]` is `eos_token_id`. -/
def GreedySearch.selected_eos {α : Type} [LinearOrder α] [Inhabited α] (p : SearchParams)
    (s : GreedySearch α) (tables : List (List α)) (b : Nat) : Bool :=
  (List.range tables.length).any fun k =>
    !(GreedySearch.run p s (tables.take k)).eos_seen_.getD b false &&
      decide ((GreedySearch.run p s (tables.take (k + 1))).next_tokens_.getD b 0
        = p.eos_token_id)

section Beam

/-- The element type of the candidate queue of `SelectTopK` (lines 97-102). -/
structure ScoreIndex (α : Type) where
  score : α
  index : Nat

/-- `ScoreIndex::operator<` (line 101): candidates are compared by score only. -/
def ScoreIndex.lt {α : Type} [LT α] (a v : ScoreIndex α) : Prop :=
  a.score < v.score

/-- The interface of `std::priority_queue<ScoreIndex>` that `SelectTopK` uses.  The container
belongs to the C++ standard library; it is a parameter of the embedding. -/
structure PriorityQueue (E : Type) where
  Q : Type
  empty : Q
  push : Q → E → Q
  top : Q → E
  pop : Q → Q
  size : Q → Nat

/-- Modelled from the spec: the interface of `BeamSearchScorer` (`beam_search_scorer.h` is not
part of the sources) that `search.cpp` calls, with `IsDone` reporting that all batch rows are
done. -/
structure BeamSearchScorer (α : Type) where
  S : Type
  create : SearchParams → S
  Process : S → Sequences → List α → List Nat → List Nat → S
  GetNextScores : S → List α
  GetNextTokens : S → List Nat
  GetNextIndicesCPU : S → List Nat
  IsDone : S → Bool

/-- The state of `BeamSearch`. -/
structure BeamSearch (α : Type) (S : Type) extends Search α where
  beam_scorer_ : S
  next_tokens_ : List Nat

variable {α : Type}

/-- `Search::Search` followed by `BeamSearch::BeamSearch` (lines 31-35); the assertion
`num_beams > 1` is the failure case. -/
def BeamSearch.new [Zero α] (sc : BeamSearchScorer α) (p : SearchParams) :
    Option (BeamSearch α sc.S) :=
  if 1 < p.num_beams then
    some
      { sequences_ := Sequences.new p
        next_token_scores_ := List.replicate (p.BatchBeamSize * p.vocab_size) 0
        done_ := false
        beam_scorer_ := sc.create p
        next_tokens_ := [] }
  else none

/-- Lines 84-92 of `SelectTopK`: the beam score of row `i * num_beams + j` is added to every
score of that row.  The running counters `offset` and `batch_beam_index` are written in closed
form. -/
def SelectTopK.add_beam_scores [Add α] [Inhabited α] (p : SearchParams) (beam_scores : List α)
    (scores : List α) : List α :=
  (List.range p.batch_size).foldl (fun acc i =>
    (List.range p.num_beams).foldl (fun acc j =>
      (List.range p.vocab_size).foldl (fun acc k =>
        let offset := (i * p.num_beams + j) * p.vocab_size + k
        let batch_beam_index := i * p.num_beams + j
        acc.set offset (acc.getD offset default + beam_scores.getD batch_beam_index default))
        acc) acc) scores

/-- Lines 114-118 of `SelectTopK`: every flat index of the batch row is pushed with its
score. -/
def SelectTopK.fill_queue [Inhabited α] (pq : PriorityQueue (ScoreIndex α))
    (token_scores_sub : List α) (size : Nat) : pq.Q :=
  (List.range size).foldl (fun q i => pq.push q ⟨token_scores_sub.getD i default, i⟩) pq.empty

/-- Lines 123-129 of `SelectTopK`: `top_k` times, read the top of the queue and pop it.  The
result lists the candidates `v` in the order they are emitted. -/
def SelectTopK.pop_top (pq : PriorityQueue (ScoreIndex α)) : Nat → pq.Q → List (ScoreIndex α)
  | 0, _ => []
  | n + 1, q => pq.top q :: SelectTopK.pop_top pq n (pq.pop q)

/-- Lines 113-130 of `SelectTopK` for one `batch_index`: the emitted candidates. -/
def SelectTopK.candidates [Inhabited α] (pq : PriorityQueue (ScoreIndex α)) (p : SearchParams)
    (scores : List α) (batch_index : Nat) : List (ScoreIndex α) :=
  SelectTopK.pop_top pq (2 * p.num_beams)
    (SelectTopK.fill_queue pq
      ((scores.drop (batch_index * p.num_beams * p.vocab_size)).take (p.num_beams * p.vocab_size))
      (p.num_beams * p.vocab_size))

/-- `BeamSearch::AppendNextTokensToSequences` (lines 183-188). -/
def BeamSearch.AppendNextTokensToSequences (sc : BeamSearchScorer α) (p : SearchParams)
    (s : BeamSearch α sc.S) : BeamSearch α sc.S :=
  let sequences := s.sequences_.AppendNextTokenToSequencesBeam
    (sc.GetNextIndicesCPU s.beam_scorer_) (sc.GetNextTokens s.beam_scorer_)
  { s with
    sequences_ := sequences
    done_ := if sequences.GetSequenceLength = p.max_length then true else s.done_ }

/-- `BeamSearch::SelectTopK` (lines 79-142).  `next_scores`, `next_tokens` and `next_indices`
are the three `batch_size × 2·num_beams` arrays handed to the scorer. -/
def BeamSearch.SelectTopK [Add α] [Inhabited α] (pq : PriorityQueue (ScoreIndex α))
    (sc : BeamSearchScorer α) (p : SearchParams) (s : BeamSearch α sc.S) : BeamSearch α sc.S :=
  let beam_scores := sc.GetNextScores s.beam_scorer_
  let scores := SelectTopK.add_beam_scores p beam_scores s.next_token_scores_
  let emitted := (List.range p.batch_size).map (SelectTopK.candidates pq p scores)
  let next_scores := (emitted.map fun row => row.map fun v => v.score).flatten
  let next_indices := (emitted.map fun row => row.map fun v => v.index / p.vocab_size).flatten
  let next_tokens := (emitted.map fun row => row.map fun v => v.index % p.vocab_size).flatten
  let scorer := sc.Process s.beam_scorer_ s.sequences_ next_scores next_tokens next_indices
  BeamSearch.AppendNextTokensToSequences sc p
    { s with
      next_token_scores_ := scores
      beam_scorer_ := scorer
      next_tokens_ := sc.GetNextTokens scorer }

/-- One round of the driver loop on a beam search: the score table is replaced with `scores`,
then `SelectTopK` runs. -/
def BeamSearch.step [Add α] [Inhabited α] (pq : PriorityQueue (ScoreIndex α))
    (sc : BeamSearchScorer α) (p : SearchParams) (s : BeamSearch α sc.S) (scores : List α) :
    BeamSearch α sc.S :=
  BeamSearch.SelectTopK pq sc p { s with next_token_scores_ := scores }

/-- Successive rounds of the driver loop on a beam search. -/
def BeamSearch.run [Add α] [Inhabited α] (pq : PriorityQueue (ScoreIndex α))
    (sc : BeamSearchScorer α) (p : SearchParams) (s : BeamSearch α sc.S)
    (tables : List (List α)) : BeamSearch α sc.S :=
  tables.foldl (BeamSearch.step pq sc p) s

/-- A list-backed priority queue: `top` is the first pushed among the elements of greatest
score, `pop` removes that element. -/
def listQueue [LinearOrder α] [Inhabited α] : PriorityQueue (ScoreIndex α) :=
  { Q := List (ScoreIndex α)
    empty := []
    push := fun q e => q ++ [e]
    top := fun q => q.foldl (fun best e => if best.score < e.score then e else best)
      (q.headD ⟨default, 0⟩)
    pop := fun q =>
      let t := q.foldl (fun best e => if best.score < e.score then e else best)
        (q.headD ⟨default, 0⟩)
      q.eraseP fun e => decide (e.score = t.score) && decide (e.index = t.index)
    size := fun q => q.length }

/-- A beam scorer in the state in which every batch row is done: it reports `IsDone` and pads
the next-beam slots with `(0, pad_token_id, first beam of the batch)`, as the spec describes for
done batch rows. -/
def doneScorer [Zero α] (p : SearchParams) : BeamSearchScorer α :=
  { S := Unit
    create := fun _ => ()
    Process := fun _ _ _ _ _ => ()
    GetNextScores := fun _ => List.replicate p.BatchBeamSize 0
    GetNextTokens := fun _ => List.replicate p.BatchBeamSize p.pad_token_id
    GetNextIndicesCPU := fun _ =>
      (List.range p.BatchBeamSize).map fun i => (i / p.num_beams) * p.num_beams
    IsDone := fun _ => true }

end Beam


section Logits

variable {α : Type}

/-- `copy(source, target)`: the elements of `source` are written to the buffer from offset
`off` on; a write past the end of the buffer is dropped. -/
def copy : List α → List α → Nat → List α
  | [], buf, _ => buf
  | v :: vs, buf, off => copy vs (buf.set off v) (off + 1)

/-- The body of the row loop of `SetLogits` (lines 54-59).  The loop state is the score table
together with the offset of the pointer `current_logits` into `logits`; `log_softmax`
(`softmax.h`, not part of the sources) is a parameter and rewrites the target row in place. -/
def SetLogits.body (log_softmax : List α → List α) (p : SearchParams) (logits : List α)
    (input_length : Nat) (st : List α × Nat) (i : Nat) : List α × Nat :=
  let source := (logits.drop st.2).take p.vocab_size
  let copied := copy source st.1 (i * p.vocab_size)
  let target := (copied.drop (i * p.vocab_size)).take p.vocab_size
  (copy (log_softmax target) copied (i * p.vocab_size), st.2 + input_length * p.vocab_size)

/-- `Search::SetLogits` (lines 39-61).  `none` stands for the division by zero of line 44 and
for the failed assertion of line 45.  `input_length` is a `size_t`, so `input_length - 1` wraps
to `2^64 - 1` when `input_length` is zero. -/
def Search.SetLogits (log_softmax : List α → List α) (p : SearchParams) (s : Search α)
    (logits : List α) : Option (Search α) :=
  let batch_beam_size := p.BatchBeamSize
  if batch_beam_size * p.vocab_size = 0 then none
  else
    let input_length := logits.length / (batch_beam_size * p.vocab_size)
    if logits.length % (batch_beam_size * p.vocab_size) ≠ 0 then none
    else
      let current_logits :=
        (if input_length = 0 then 2 ^ 64 - 1 else input_length - 1) * p.vocab_size
      some { s with
        next_token_scores_ :=
          ((List.range batch_beam_size).foldl (SetLogits.body log_softmax p logits input_length)
            (s.next_token_scores_, current_logits)).1 }

/-- Modelled from the spec: `log_softmax` (`softmax.h` is not part of the sources), the row-wise
transformation `x → x − max(x) − log Σ exp(x − max(x))`, in exact real arithmetic. -/
noncomputable def log_softmax (x : List ℝ) : List ℝ :=
  let m := x.foldl max (x.headD 0)
  let sum := (x.map fun v => Real.exp (v - m)).sum
  x.map fun v => v - m - Real.log sum

/-- `Processors::MinLength` (lines 219-228).  `lowest` is
`std::numeric_limits<ScoreType>::lowest()`. -/
def Processors.MinLength (lowest : α) (p : SearchParams) (s : Search α) (min_length : Nat) :
    Search α :=
  if s.sequences_.GetSequenceLength ≥ min_length then s
  else
    { s with
      next_token_scores_ :=
        (List.range p.BatchBeamSize).foldl
          (fun scores i => scores.set (i * p.vocab_size + p.eos_token_id) lowest)
          s.next_token_scores_ }

/-- The right-hand side of line 247 of `RepetitionPenalty`:
`score < 0 ? score * penalty : score / penalty`. -/
def RepetitionPenalty.rescale [Zero α] [LT α] [DecidableRel (LT.lt : α → α → Prop)] [Mul α]
    [Div α] (penalty score : α) : α :=
  if score < 0 then score * penalty else score / penalty

/-- Lines 242-248 of `RepetitionPenalty`: the score of one word id of row `i` is rescaled. -/
def RepetitionPenalty.penalize [Zero α] [LT α] [DecidableRel (LT.lt : α → α → Prop)] [Mul α]
    [Div α] [Inhabited α] (p : SearchParams) (penalty : α) (i : Nat) (scores : List α)
    (word_id : Nat) : List α :=
  let score := scores.getD (i * p.vocab_size + word_id) default
  scores.set (i * p.vocab_size + word_id) (RepetitionPenalty.rescale penalty score)

/-- `Processors::RepetitionPenalty` (lines 230-250).  The `std::unordered_set` of the word ids
of the row is the duplicate-free list `sequence.dedup`; its iteration order is unspecified in
C++. -/
def Processors.RepetitionPenalty [Zero α] [LT α] [DecidableRel (LT.lt : α → α → Prop)] [Mul α]
    [Div α] [Inhabited α] (p : SearchParams) (s : Search α) (penalty : α) : Search α :=
  { s with
    next_token_scores_ :=
      (List.range p.BatchBeamSize).foldl
        (fun scores i =>
          let sequence := s.sequences_.GetSequence i
          let unique_word_ids := sequence.dedup
          unique_word_ids.foldl (RepetitionPenalty.penalize p penalty i) scores)
        s.next_token_scores_ }

/-- The values of a `float` other than NaN and `+∞`: `⊥` is `−∞`, every other value is a
rational number. -/
abbrev FloatValue : Type := WithBot ℚ

/-- The value of `std::numeric_limits<float>::lowest()`: `−(2 − 2⁻²³)·2¹²⁷`, the most negative
finite `float`. -/
def FloatValue.lowest : FloatValue := ((-(2 ^ 128 - 2 ^ 104) : ℚ) : WithBot ℚ)

end Logits


section Examples

/-- Example parameters: two batch rows over a vocabulary of two tokens, token 0 being EOS. -/
def exampleParams : SearchParams :=
  { num_beams := 1, batch_size := 2, sequence_length := 1, max_length := 5, pad_token_id := 9,
    eos_token_id := 0, vocab_size := 2, input_ids := [3, 4] }

/-- Example score table for `exampleParams`: row 0 is `[5, 1]`, row 1 is `[1, 5]`. -/
def exampleScores : List Int := [5, 1, 1, 5]

/-- Example parameters of a beam search: one batch row, two beams, a vocabulary of two tokens. -/
def exampleBeamParams : SearchParams :=
  { num_beams := 2, batch_size := 1, sequence_length := 1, max_length := 5, pad_token_id := 9,
    eos_token_id := 0, vocab_size := 2, input_ids := [3] }

/-- Example score table for `exampleBeamParams`. -/
def exampleBeamScores : List Int := [1, 2, 3, 4]

/-- Example parameters for the logits intake: two rows over a vocabulary of three tokens, with a
prompt of two tokens per row. -/
def exampleLogitsParams : SearchParams :=
  { num_beams := 1, batch_size := 2, sequence_length := 2, max_length := 5, pad_token_id := 9,
    eos_token_id := 1, vocab_size := 3, input_ids := [0, 2, 1, 1] }

/-- Example search state for `exampleLogitsParams`, with rows `[0, 2]` and `[1, 1]` in the
sequence buffer and the score table `[[-1, 5, -3], [4, -1, 7]]`. -/
def exampleSearch : Search Int :=
  { sequences_ := Sequences.new exampleLogitsParams
    next_token_scores_ := [-1, 5, -3, 4, -1, 7]
    done_ := false }

/-- Example search state over `FloatValue` scores for `exampleLogitsParams`. -/
def exampleFloatSearch : Search FloatValue :=
  { sequences_ := Sequences.new exampleLogitsParams
    next_token_scores_ := [0, 0, 0, 0, 0, 0]
    done_ := false }

end Examples

section GreedyRuns

variable {α : Type} [LinearOrder α] [Inhabited α]

/-- The argmax scan of `SelectTop1` applied to row `b` of a score table, the row being the view
`GetScores(b)`: entries `b * vocab_size .. (b + 1) * vocab_size - 1`. -/
def GreedySearch.row_argmax (p : SearchParams) (scores : List α) (b : Nat) : Nat :=
  SelectTop1.best_token ((scores.drop (b * p.vocab_size)).take p.vocab_size) 0 p.vocab_size

/-- One round of the driver loop with the `MinLength` processor: the score table is replaced with
`scores`, `Processors::MinLength` is applied to it, then `SelectTop1` runs. -/
def GreedySearch.step_min_length (lowest : α) (p : SearchParams) (min_length : Nat)
    (s : GreedySearch α) (scores : List α) : GreedySearch α :=
  GreedySearch.SelectTop1 p
    { s with
      toSearch :=
        Processors.MinLength lowest p { s.toSearch with next_token_scores_ := scores } min_length }

/-- Successive rounds of the driver loop with the `MinLength` processor. -/
def GreedySearch.run_min_length (lowest : α) (p : SearchParams) (min_length : Nat)
    (s : GreedySearch α) (tables : List (List α)) : GreedySearch α :=
  tables.foldl (GreedySearch.step_min_length lowest p min_length) s

end GreedyRuns

section GreedyRunExamples

/-- Example parameters of a greedy run: two prompts of four tokens, generation up to length ten,
a vocabulary of four tokens with token 0 as EOS. -/
def exampleRunParams : SearchParams :=
  { num_beams := 1, batch_size := 2, sequence_length := 4, max_length := 10, pad_token_id := 0,
    eos_token_id := 0, vocab_size := 4, input_ids := [0, 0, 0, 2, 0, 0, 1, 3] }

/-- Example score tables for `exampleRunParams`: row 0 prefers token 2 at every round, row 1
prefers token 3 at the first round and token 1 afterwards. -/
def exampleRunTables : List (List Int) :=
  [[0, 0, 1, 0, 0, 0, 0, 1], [0, 0, 1, 0, 0, 1, 0, 0], [0, 0, 1, 0, 0, 1, 0, 0],
    [0, 0, 1, 0, 0, 1, 0, 0], [0, 0, 1, 0, 0, 1, 0, 0], [0, 0, 1, 0, 0, 1, 0, 0]]

end GreedyRunExamples

section MinLengthRunExamples

/-- Example parameters of a greedy run with a minimum length: one prompt of two tokens,
generation up to length ten, a vocabulary of three tokens with token 1 as EOS. -/
def exampleMinLengthParams : SearchParams :=
  { num_beams := 1, batch_size := 1, sequence_length := 2, max_length := 10, pad_token_id := 0,
    eos_token_id := 1, vocab_size := 3, input_ids := [2, 2] }

/-- Example score table for `exampleMinLengthParams` in which EOS has the greatest score. -/
def exampleEosStrongest : List Int := [0, 9, 3]

end MinLengthRunExamples

section BeamReindexExamples

/-- A beam scorer whose next-beam arrays are fixed: parents `[1, 0]`, tokens `[7, 8]`. -/
def exampleReindexScorer : BeamSearchScorer Int :=
  { S := Unit
    create := fun _ => ()
    Process := fun _ _ _ _ _ => ()
    GetNextScores := fun _ => [0, 0]
    GetNextTokens := fun _ => [7, 8]
    GetNextIndicesCPU := fun _ => [1, 0]
    IsDone := fun _ => false }

/-- Example beam search over `exampleBeamParams` whose two rows have the histories `[3, 4]` and
`[5, 6]`. -/
def exampleBeamState : BeamSearch Int exampleReindexScorer.S :=
  { sequences_ := { rows := [[3, 4], [5, 6]], current_length := 2, max_length := 5 }
    next_token_scores_ := [1, 2, 3, 4]
    done_ := false
    beam_scorer_ := ()
    next_tokens_ := [] }

end BeamReindexExamples

section Roaming

variable {T : Type}

/-- `RoamingArray<T>` (`python.cpp`, lines 156-196).  A `std::span` is modelled by the list of
the elements it views; the empty span is `[]`.  The owners of the lazily allocated copies hold
the allocations only and are left out. -/
structure RoamingArray (T : Type) where
  device_memory_ : List T
  cpu_memory_ : List T

/-- A default-constructed `RoamingArray`: both spans are empty. -/
def RoamingArray.new : RoamingArray T :=
  { device_memory_ := [], cpu_memory_ := [] }

/-- `cudaMemcpy(dst, src, count)`: the first `count` elements of `dst` are replaced by those of
`src`. -/
def cudaMemcpy (dst src : List T) (count : Nat) : List T :=
  src.take count ++ dst.drop count

/-- `RoamingArray::SetCPU` (lines 157-160). -/
def RoamingArray.SetCPU (_r : RoamingArray T) (cpu : List T) : RoamingArray T :=
  { cpu_memory_ := cpu, device_memory_ := [] }

/-- `RoamingArray::SetGPU` (lines 162-165). -/
def RoamingArray.SetGPU (_r : RoamingArray T) (device : List T) : RoamingArray T :=
  { device_memory_ := device, cpu_memory_ := [] }

/-- `RoamingArray::GetCPUArray` (lines 167-174): the state after the call and the span it
returns.  `CudaMallocHostArray` yields a fresh buffer of `device_memory_.size()` elements, of
unspecified contents (`default`). -/
def RoamingArray.GetCPUArray [Inhabited T] (r : RoamingArray T) : RoamingArray T × List T :=
  if r.cpu_memory_.isEmpty && !r.device_memory_.isEmpty then
    let allocated : List T := List.replicate r.device_memory_.length default
    let cpu := cudaMemcpy allocated r.device_memory_ allocated.length
    ({ r with cpu_memory_ := cpu }, cpu)
  else (r, r.cpu_memory_)

/-- `RoamingArray::GetGPUArray` (lines 182-188): the state after the call and the span it
returns. -/
def RoamingArray.GetGPUArray [Inhabited T] (r : RoamingArray T) : RoamingArray T × List T :=
  if r.device_memory_.isEmpty && !r.cpu_memory_.isEmpty then
    let allocated : List T := List.replicate r.cpu_memory_.length default
    let device := cudaMemcpy allocated r.cpu_memory_ allocated.length
    ({ r with device_memory_ := device }, device)
  else (r, r.device_memory_)

/-- The four operations on a `RoamingArray`. -/
inductive RoamingOp (T : Type) where
  | set_host (cpu : List T)
  | set_device (device : List T)
  | as_host
  | as_device

/-- The state after one operation. -/
def RoamingArray.apply [Inhabited T] (r : RoamingArray T) : RoamingOp T → RoamingArray T
  | .set_host cpu => r.SetCPU cpu
  | .set_device device => r.SetGPU device
  | .as_host => r.GetCPUArray.1
  | .as_device => r.GetGPUArray.1

/-- The state after a sequence of operations on a default-constructed `RoamingArray`. -/
def RoamingArray.run [Inhabited T] (ops : List (RoamingOp T)) : RoamingArray T :=
  ops.foldl RoamingArray.apply RoamingArray.new

/-- The span most recently declared by `set_host` or `set_device` in a sequence of operations,
if any. -/
def RoamingOp.declared (ops : List (RoamingOp T)) : Option (List T) :=
  ops.foldl
    (fun acc op =>
      match op with
      | .set_host cpu => some cpu
      | .set_device device => some device
      | .as_host => acc
      | .as_device => acc)
    none

end Roaming

section GptInputs

/-- The three buffers that `Gpt::CreateInputsInternal` (`gpt.cpp`) fills: the data of
`attention_mask_` and `position_ids_`, both of the shape of `input_ids`, and the span
`sequence_lengths`. -/
structure GptInputs where
  attention_mask : List Nat
  position_ids : List Nat
  sequence_lengths : List Nat

/-- The body of the column loop of `CreateInputsInternal` (lines 125-138) for row `i`.  The loop
state is the buffers together with `abs_position`; the pointers `word_id`, `mask` and `position`
advance together, so all three are at flat index `i * sequence_length + j`.  `attn_mask_value`
is always null (line 105). -/
def CreateInputsInternal.column (p : SearchParams) (sequence_length : Nat) (word_id : List Nat)
    (i : Nat) (st : GptInputs × Nat) (j : Nat) : GptInputs × Nat :=
  if word_id.getD (i * sequence_length + j) 0 = p.pad_token_id then
    ({ st.1 with
        attention_mask := st.1.attention_mask.set (i * sequence_length + j) 0
        position_ids := st.1.position_ids.set (i * sequence_length + j) 0 },
      st.2)
  else
    ({ st.1 with
        attention_mask := st.1.attention_mask.set (i * sequence_length + j) 1
        position_ids := st.1.position_ids.set (i * sequence_length + j) st.2 },
      st.2 + 1)

/-- The body of the row loop of `CreateInputsInternal` (lines 123-143): `abs_position` starts at
zero, the columns are filled, then the `num_beams` sequence lengths of the row are written. -/
def CreateInputsInternal.row (p : SearchParams) (sequence_length : Nat) (word_id : List Nat)
    (st : GptInputs) (i : Nat) : GptInputs :=
  let r := (List.range sequence_length).foldl
    (CreateInputsInternal.column p sequence_length word_id i) (st, 0)
  { r.1 with
    sequence_lengths :=
      (List.range p.num_beams).foldl (fun sl k => sl.set (i * p.num_beams + k) r.2)
        r.1.sequence_lengths }

/-- Lines 116-143 of `Gpt::CreateInputsInternal`: the attention mask, the position ids and the
sequence lengths are computed from the prompt `word_id` of shape
`(batch_size, sequence_length)`.  `init` holds the freshly allocated buffers. -/
def Gpt.CreateInputsInternal (p : SearchParams) (batch_size sequence_length : Nat)
    (word_id : List Nat) (init : GptInputs) : GptInputs :=
  (List.range batch_size).foldl (CreateInputsInternal.row p sequence_length word_id) init

/-- The attention mask the spec prescribes at position `(i, j)`: 1 for a non-pad token, 0 for
the pad token. -/
def Gpt.attention_mask_spec (p : SearchParams) (sequence_length : Nat) (word_id : List Nat)
    (i j : Nat) : Nat :=
  if word_id.getD (i * sequence_length + j) 0 ≠ p.pad_token_id then 1 else 0

/-- The position id the spec prescribes at position `(i, j)`: for a non-pad token the number of
non-pad tokens of row `i` at the columns before `j`, for the pad token 0. -/
def Gpt.position_ids_spec (p : SearchParams) (sequence_length : Nat) (word_id : List Nat)
    (i j : Nat) : Nat :=
  if word_id.getD (i * sequence_length + j) 0 ≠ p.pad_token_id then
    (List.range j).countP fun c => decide (word_id.getD (i * sequence_length + c) 0 ≠ p.pad_token_id)
  else 0

end GptInputs

section GptInputsExamples

/-- Example parameters for the model inputs: token 0 is the pad token. -/
def exampleGptParams : SearchParams :=
  { num_beams := 1, batch_size := 2, sequence_length := 4, max_length := 10, pad_token_id := 0,
    eos_token_id := 0, vocab_size := 10, input_ids := [0, 0, 5, 6, 7, 0, 8, 9] }

/-- Freshly allocated buffers for a prompt of shape `(2, 4)`, with arbitrary contents. -/
def exampleGptBuffers : GptInputs :=
  { attention_mask := [7, 7, 7, 7, 7, 7, 7, 7]
    position_ids := [7, 7, 7, 7, 7, 7, 7, 7]
    sequence_lengths := [7, 7] }

end GptInputsExamples

section QueueLaws

variable {α : Type}

/-- The contract of `std::priority_queue` with the default comparison `std::less`, which for
`ScoreIndex` is `operator<`: relative to the multiset `elems` of the elements a queue holds,
the empty queue holds nothing, `push` adds its argument, `top` is an element of the queue than
which no element is greater, and `pop` removes that element. -/
def PriorityQueue.Lawful [LT α] (pq : PriorityQueue (ScoreIndex α))
    (elems : pq.Q → Multiset (ScoreIndex α)) : Prop :=
  elems pq.empty = 0 ∧
  (∀ q e, elems (pq.push q e) = e ::ₘ elems q) ∧
  (∀ q, elems q ≠ 0 → pq.top q ∈ elems q ∧ ∀ e, e ∈ elems q → ¬ ScoreIndex.lt (pq.top q) e) ∧
  (∀ q, elems q ≠ 0 → elems q = pq.top q ::ₘ elems (pq.pop q))

/-- `std::__push_heap` of libstdc++ (`stl_heap.h`): the hole moves up while its parent is less
than `value`, then `value` is stored in it.  `fuel` bounds the number of iterations. -/
def stdHeap.push_heap [LT α] [DecidableRel (LT.lt : α → α → Prop)] :
    Nat → List (ScoreIndex α) → Nat → Nat → ScoreIndex α → List (ScoreIndex α)
  | 0, first, holeIndex, _, value => first.set holeIndex value
  | fuel + 1, first, holeIndex, topIndex, value =>
    let parent := (holeIndex - 1) / 2
    if holeIndex > topIndex ∧ (first.getD parent value).score < value.score then
      stdHeap.push_heap fuel (first.set holeIndex (first.getD parent value)) parent topIndex value
    else first.set holeIndex value

/-- The first loop of `std::__adjust_heap` of libstdc++: while the hole has two children it
moves down to the right child, or to the left child when the right one is less than the left
one.  The result is the array with the final `holeIndex` and `secondChild`. -/
def stdHeap.sift_down [LT α] [DecidableRel (LT.lt : α → α → Prop)] :
    Nat → List (ScoreIndex α) → Nat → Nat → Nat → ScoreIndex α → List (ScoreIndex α) × Nat × Nat
  | 0, first, holeIndex, secondChild, _, _ => (first, holeIndex, secondChild)
  | fuel + 1, first, holeIndex, secondChild, len, value =>
    if secondChild < (len - 1) / 2 then
      let right := 2 * (secondChild + 1)
      let child :=
        if (first.getD right value).score < (first.getD (right - 1) value).score then right - 1
        else right
      stdHeap.sift_down fuel (first.set holeIndex (first.getD child value)) child child len value
    else (first, holeIndex, secondChild)

/-- `std::__adjust_heap` of libstdc++ (`stl_heap.h`). -/
def stdHeap.adjust_heap [LT α] [DecidableRel (LT.lt : α → α → Prop)]
    (first : List (ScoreIndex α)) (holeIndex len : Nat) (value : ScoreIndex α) :
    List (ScoreIndex α) :=
  let topIndex := holeIndex
  let r := stdHeap.sift_down len first holeIndex holeIndex len value
  if len % 2 = 0 ∧ r.2.2 = (len - 2) / 2 then
    let secondChild := 2 * (r.2.2 + 1)
    stdHeap.push_heap len (r.1.set r.2.1 (r.1.getD (secondChild - 1) value)) (secondChild - 1)
      topIndex value
  else stdHeap.push_heap len r.1 r.2.1 topIndex value

/-- `std::priority_queue<ScoreIndex>` over a `std::vector`, with the binary-heap algorithms
`std::push_heap` and `std::pop_heap` of libstdc++: `push` appends and sifts up, `top` is the front
of the vector, `pop` moves the front to the back, restores the heap on the rest and drops the
back. -/
def stdHeapQueue [LT α] [DecidableRel (LT.lt : α → α → Prop)] [Inhabited α] :
    PriorityQueue (ScoreIndex α) :=
  { Q := List (ScoreIndex α)
    empty := []
    push := fun c x => stdHeap.push_heap c.length (c ++ [x]) c.length 0 x
    top := fun c => c.headD ⟨default, 0⟩
    pop := fun c =>
      if c.length > 1 then
        let value := c.getD (c.length - 1) ⟨default, 0⟩
        let moved := c.set (c.length - 1) (c.headD ⟨default, 0⟩)
        (stdHeap.adjust_heap moved 0 (c.length - 1) value).take (c.length - 1)
      else []
    size := fun c => c.length }

end QueueLaws

section TopKExamples

/-- Example parameters of a beam search: one batch row, two beams, a vocabulary of three
tokens, so six flat indices of which four are emitted. -/
def exampleTopKParams : SearchParams :=
  { num_beams := 2, batch_size := 1, sequence_length := 1, max_length := 5, pad_token_id := 9,
    eos_token_id := 0, vocab_size := 3, input_ids := [3] }

/-- Example score table for `exampleTopKParams` with six different scores. -/
def exampleTopKScores : List Int := [5, 1, 7, 3, 9, 2]

/-- Example score table for `exampleTopKParams` in which all six scores are equal. -/
def exampleTieScores : List Int := [0, 0, 0, 0, 0, 0]

end TopKExamples

section TopKQueue
variable {α : Type}

/-- The candidate queue of `SelectTopK` at the start of round `i` of the loop of lines 123-129:
the `i` earlier rounds have popped one element each. -/
def SelectTopK.pop_queue (pq : PriorityQueue (ScoreIndex α)) : Nat → pq.Q → pq.Q
  | 0, q => q
  | n + 1, q => SelectTopK.pop_queue pq n (pq.pop q)

end TopKQueue

section LogitsReads

/-- The indices into `logits` that `Search::SetLogits` (lines 39-61) reads, in the order of the
reads: in round `i` of the row loop `copy(source, target)` reads the `vocab_size` elements of
`source`, the span that starts at `current_logits`.  The running pointer `current_logits` is
written in closed form; `none` and the wrapped `input_length - 1` are as in
`Search.SetLogits`. -/
def SetLogits.source_indices (p : SearchParams) (logits_size : Nat) : Option (List Nat) :=
  let batch_beam_size := p.BatchBeamSize
  if batch_beam_size * p.vocab_size = 0 then none
  else
    let input_length := logits_size / (batch_beam_size * p.vocab_size)
    if logits_size % (batch_beam_size * p.vocab_size) ≠ 0 then none
    else
      let current_logits :=
        (if input_length = 0 then 2 ^ 64 - 1 else input_length - 1) * p.vocab_size
      some ((List.range batch_beam_size).map fun i =>
        (List.range p.vocab_size).map fun k =>
          current_logits + i * (input_length * p.vocab_size) + k).flatten

end LogitsReads

section GptExpansion

/-- The data of the tensors `expanded_input_ids_`, `expanded_position_ids_` and
`expanded_attention_mask_` of `Gpt` (`gpt.cpp`). -/
structure GptExpandedInputs where
  expanded_input_ids : List Nat
  expanded_position_ids : List Nat
  expanded_attention_mask : List Nat

/-- Lines 145-158 of `Gpt::CreateInputsInternal`: with `num_beams == 1` the three tensors are
moved into their expanded counterparts; otherwise line 151 is `assert(false)`, for which `none`
stands, and the calls of `ExpandInputs` after it are compiled out (`#if 0`), so no expanded
tensor is produced. -/
def CreateInputsInternal.expand (p : SearchParams)
    (input_ids position_ids attention_mask : List Nat) : Option GptExpandedInputs :=
  if p.num_beams = 1 then
    some { expanded_input_ids := input_ids
           expanded_position_ids := position_ids
           expanded_attention_mask := attention_mask }
  else none

/-- `Gpt::CreateInputsInternal` up to its end: `input_ids_` is a copy of the prompt tensor
`word_id` (lines 95-98), `position_ids_` and `attention_mask_` are filled by lines 116-143, then
the three are expanded (lines 145-158). -/
def Gpt.CreateExpandedInputs (p : SearchParams) (batch_size sequence_length : Nat)
    (word_id : List Nat) (init : GptInputs) : Option GptExpandedInputs :=
  let input_ids := word_id
  let filled := Gpt.CreateInputsInternal p batch_size sequence_length word_id init
  CreateInputsInternal.expand p input_ids filled.position_ids filled.attention_mask

/-- Example parameters for the model inputs of a beam search with two beams. -/
def exampleGptBeamParams : SearchParams :=
  { num_beams := 2, batch_size := 2, sequence_length := 4, max_length := 10, pad_token_id := 0,
    eos_token_id := 0, vocab_size := 10, input_ids := [0, 0, 5, 6, 7, 0, 8, 9] }

/-- Freshly allocated buffers for a prompt of shape `(2, 4)` and two beams. -/
def exampleGptBeamBuffers : GptInputs :=
  { attention_mask := [7, 7, 7, 7, 7, 7, 7, 7]
    position_ids := [7, 7, 7, 7, 7, 7, 7, 7]
    sequence_lengths := [7, 7, 7, 7] }

end GptExpansion

section Float16

/-- The `float` values that `float16::AsFloat32` can return: a signed zero, a finite value (kept
exact, as a rational), a signed infinity, or a NaN. -/
inductive Float32Value where
  | zero (negative : Bool)
  | finite (value : ℚ)
  | infinity (negative : Bool)
  | nan

/-- The rationals that are values of IEEE-754 binary32: `m * 2^e` with a significand `m` of at
most 24 bits and `2^e` between the least subnormal `2^-149` and the unit in the last place
`2^104` of the greatest finite value. -/
def Float32Value.representable (q : ℚ) : Prop :=
  ∃ m e : ℤ, |m| < 2 ^ 24 ∧ -149 ≤ e ∧ e ≤ 104 ∧ q = (m : ℚ) * (2 : ℚ) ^ e

/-- `std::ldexp(x, exp)` on `float`: `x * 2^exp`, rounded to `float` by `round`. -/
def ldexp (round : ℚ → ℚ) (x : ℚ) (exp : ℤ) : ℚ :=
  round (x * (2 : ℚ) ^ exp)

/-- `float16::AsFloat32` (`python.cpp`, lines 37-67) for the 16-bit pattern `v_`.  `round` is
the rounding of `float` arithmetic: the conversion of `fraction` to `float` and every `float`
operation yield `round` of the exact result; the constants `1.0f`, `-1.0f` and `1024.0f` are
exact. -/
def float16.AsFloat32 (round : ℚ → ℚ) (v_ : Nat) : Float32Value :=
  let sign := (v_ &&& 0x8000) >>> 15
  let exponent := (v_ &&& 0x7C00) >>> 10
  let fraction := v_ &&& 0x03FF
  if exponent = 0 then
    if fraction = 0 then
      if sign ≠ 0 then Float32Value.zero true else Float32Value.zero false
    else
      Float32Value.finite
        (ldexp round
          (round (round ((if sign ≠ 0 then -1 else 1) * round (fraction : ℚ)) / 1024)) (-14))
  else if exponent = 31 then
    if fraction = 0 then
      if sign ≠ 0 then Float32Value.infinity true else Float32Value.infinity false
    else
      Float32Value.nan
  else
    Float32Value.finite
      (ldexp round
        (round ((if sign ≠ 0 then -1 else 1) * round (1 + round (round (fraction : ℚ) / 1024))))
        ((exponent : ℤ) - 15))

/-- The value IEEE-754 binary16 assigns to the pattern with sign bit `s`, exponent field `e`
and fraction field `f`: `(-1)^s * 2^(e-15) * (1 + f/1024)` for `1 ≤ e ≤ 30`,
`(-1)^s * 2^(-14) * f/1024` for `e = 0` (a signed zero when `f = 0`), a signed infinity for
`e = 31` and `f = 0`, and a NaN for `e = 31` and `f ≠ 0`. -/
def binary16_value (s e f : Nat) : Float32Value :=
  if e = 0 then
    if f = 0 then Float32Value.zero (decide (s = 1))
    else Float32Value.finite ((-1 : ℚ) ^ s * (2 : ℚ) ^ (-14 : ℤ) * ((f : ℚ) / 1024))
  else if e = 31 then
    if f = 0 then Float32Value.infinity (decide (s = 1)) else Float32Value.nan
  else Float32Value.finite ((-1 : ℚ) ^ s * (2 : ℚ) ^ ((e : ℤ) - 15) * (1 + (f : ℚ) / 1024))

end Float16

/-! ## Theorems -/

section GreedyLemmas
variable {α : Type} [LinearOrder α] [Inhabited α]

theorem SelectTop1.body_next_tokens (p : SearchParams) (st : GreedySearch α × Nat) (i : Nat) :
    (SelectTop1.body p st i).1.next_tokens_ =
      st.1.next_tokens_.set i (if st.1.eos_seen_.getD i false = true then p.pad_token_id
        else SelectTop1.best_token st.1.next_token_scores_ st.2 p.vocab_size) := by
  unfold SelectTop1.body
  dsimp only
  split_ifs <;> rfl

theorem SelectTop1.body_eos_seen (p : SearchParams) (st : GreedySearch α × Nat) (i : Nat) :
    (SelectTop1.body p st i).1.eos_seen_ =
      if st.1.eos_seen_.getD i false = false ∧
          SelectTop1.best_token st.1.next_token_scores_ st.2 p.vocab_size = p.eos_token_id
      then st.1.eos_seen_.set i true else st.1.eos_seen_ := by
  unfold SelectTop1.body
  dsimp only
  cases h1 : st.1.eos_seen_.getD i false
  · by_cases h2 : SelectTop1.best_token st.1.next_token_scores_ st.2 p.vocab_size = p.eos_token_id
    · simp only [h2, if_true, Bool.false_eq_true, if_false, true_and, and_self]
    · simp only [h2, if_true, Bool.false_eq_true, if_false, true_and, and_false, false_and]
  · simp only [if_true, Bool.true_eq_false, false_and, if_false]

theorem SelectTop1.body_not_done_count (p : SearchParams) (st : GreedySearch α × Nat) (i : Nat) :
    (SelectTop1.body p st i).1.not_done_count_ =
      if st.1.eos_seen_.getD i false = false ∧
          SelectTop1.best_token st.1.next_token_scores_ st.2 p.vocab_size = p.eos_token_id
      then st.1.not_done_count_ - 1 else st.1.not_done_count_ := by
  unfold SelectTop1.body
  dsimp only
  cases h1 : st.1.eos_seen_.getD i false
  · by_cases h2 : SelectTop1.best_token st.1.next_token_scores_ st.2 p.vocab_size = p.eos_token_id
    · simp only [h2, if_true, Bool.false_eq_true, if_false, true_and, and_self]
    · simp only [h2, if_true, Bool.false_eq_true, if_false, true_and, and_false, false_and]
  · simp only [if_true, Bool.true_eq_false, false_and, if_false]

theorem SelectTop1.body_done (p : SearchParams) (st : GreedySearch α × Nat) (i : Nat) :
    (SelectTop1.body p st i).1.done_ =
      if (st.1.eos_seen_.getD i false = false ∧
          SelectTop1.best_token st.1.next_token_scores_ st.2 p.vocab_size = p.eos_token_id) ∧
          st.1.not_done_count_ - 1 = 0
      then true else st.1.done_ := by
  unfold SelectTop1.body
  dsimp only
  cases h1 : st.1.eos_seen_.getD i false
  · by_cases h2 : SelectTop1.best_token st.1.next_token_scores_ st.2 p.vocab_size = p.eos_token_id
    · simp only [h2, if_true, Bool.false_eq_true, if_false, true_and, and_self]
    · simp only [h2, if_true, Bool.false_eq_true, if_false, true_and, and_false, false_and]
  · simp only [if_true, Bool.true_eq_false, false_and, if_false]

theorem SelectTop1.body_sequences (p : SearchParams) (st : GreedySearch α × Nat) (i : Nat) :
    (SelectTop1.body p st i).1.sequences_ = st.1.sequences_ := by
  unfold SelectTop1.body
  dsimp only
  split_ifs <;> rfl

theorem SelectTop1.body_scores (p : SearchParams) (st : GreedySearch α × Nat) (i : Nat) :
    (SelectTop1.body p st i).1.next_token_scores_ = st.1.next_token_scores_ := by
  unfold SelectTop1.body
  dsimp only
  split_ifs <;> rfl

theorem SelectTop1.body_offset (p : SearchParams) (st : GreedySearch α × Nat) (i : Nat) :
    (SelectTop1.body p st i).2 =
      if st.1.eos_seen_.getD i false = true then st.2 else st.2 + p.vocab_size := by
  unfold SelectTop1.body
  dsimp only
  split_ifs <;> rfl

theorem SelectTop1.body_eos_seen_length (p : SearchParams) (st : GreedySearch α × Nat) (i : Nat) :
    (SelectTop1.body p st i).1.eos_seen_.length = st.1.eos_seen_.length := by
  rw [SelectTop1.body_eos_seen]
  split_ifs <;> simp

theorem SelectTop1.body_next_tokens_length (p : SearchParams) (st : GreedySearch α × Nat)
    (i : Nat) :
    (SelectTop1.body p st i).1.next_tokens_.length = st.1.next_tokens_.length := by
  rw [SelectTop1.body_next_tokens]
  simp

theorem SelectTop1.body_eos_seen_mono (p : SearchParams) (st : GreedySearch α × Nat) (i b : Nat)
    (h : st.1.eos_seen_.getD b false = true) :
    (SelectTop1.body p st i).1.eos_seen_.getD b false = true := by
  rw [SelectTop1.body_eos_seen]
  split_ifs with h1
  · by_cases hib : i = b
    · subst hib
      rw [h] at h1
      exact absurd h1.1 (by decide)
    · simpa [List.getD_eq_getElem?_getD, List.getElem?_set, hib] using h
  · exact h

theorem SelectTop1.body_other (p : SearchParams) (st : GreedySearch α × Nat) (i b : Nat)
    (h : i ≠ b) :
    (SelectTop1.body p st i).1.eos_seen_.getD b false = st.1.eos_seen_.getD b false ∧
    (SelectTop1.body p st i).1.next_tokens_.getD b 0 = st.1.next_tokens_.getD b 0 := by
  rw [SelectTop1.body_eos_seen, SelectTop1.body_next_tokens]
  split_ifs <;> simp [List.getD_eq_getElem?_getD, List.getElem?_set, h]

theorem SelectTop1.body_pad (p : SearchParams) (st : GreedySearch α × Nat) (i : Nat)
    (hi : i < st.1.next_tokens_.length) (h : st.1.eos_seen_.getD i false = true) :
    (SelectTop1.body p st i).1.next_tokens_.getD i 0 = p.pad_token_id := by
  rw [SelectTop1.body_next_tokens, if_pos h]
  simp [List.getD_eq_getElem?_getD, List.getElem?_set, hi]

theorem SelectTop1.body_eos (p : SearchParams) (st : GreedySearch α × Nat) (i : Nat)
    (hi : i < st.1.next_tokens_.length) (hi2 : i < st.1.eos_seen_.length)
    (h : (SelectTop1.body p st i).1.next_tokens_.getD i 0 = p.eos_token_id) :
    (SelectTop1.body p st i).1.eos_seen_.getD i false = true := by
  rw [SelectTop1.body_next_tokens] at h
  rw [SelectTop1.body_eos_seen]
  by_cases h1 : st.1.eos_seen_.getD i false = true
  · have : ¬ (st.1.eos_seen_.getD i false = false ∧
        SelectTop1.best_token st.1.next_token_scores_ st.2 p.vocab_size = p.eos_token_id) := by
      rw [h1]; simp
    rw [if_neg this]; exact h1
  · rw [if_neg h1] at h
    have hb : SelectTop1.best_token st.1.next_token_scores_ st.2 p.vocab_size = p.eos_token_id := by
      simpa [List.getD_eq_getElem?_getD, List.getElem?_set, hi] using h
    have h0 : st.1.eos_seen_.getD i false = false := by simpa using h1
    rw [if_pos ⟨h0, hb⟩]
    simp [List.getD_eq_getElem?_getD, List.getElem?_set, hi2]

/-- A row that was not finished before the loop body and is finished after it selected EOS. -/
theorem SelectTop1.body_fresh (p : SearchParams) (st : GreedySearch α × Nat) (i : Nat)
    (hi : i < st.1.next_tokens_.length)
    (h0 : st.1.eos_seen_.getD i false = false)
    (h : (SelectTop1.body p st i).1.eos_seen_.getD i false = true) :
    (SelectTop1.body p st i).1.next_tokens_.getD i 0 = p.eos_token_id := by
  rw [SelectTop1.body_eos_seen] at h
  rw [SelectTop1.body_next_tokens]
  split_ifs at h with h1
  · have h2 : ¬ (st.1.eos_seen_.getD i false = true) := by rw [h0]; decide
    rw [if_neg h2]
    simpa [List.getD_eq_getElem?_getD, List.getElem?_set, hi] using h1.2
  · rw [h0] at h; exact absurd h (by decide)

end GreedyLemmas

section GreedyLoop
variable {α : Type} [LinearOrder α] [Inhabited α]

theorem SelectTop1.loop_zero (p : SearchParams) (s : GreedySearch α) :
    SelectTop1.loop p s 0 = (s, 0) := rfl

theorem SelectTop1.loop_succ (p : SearchParams) (s : GreedySearch α) (n : Nat) :
    SelectTop1.loop p s (n + 1) = SelectTop1.body p (SelectTop1.loop p s n) n := by
  simp [SelectTop1.loop, List.range_succ, List.foldl_append]

theorem SelectTop1.loop_lengths (p : SearchParams) (s : GreedySearch α) (n : Nat) :
    (SelectTop1.loop p s n).1.eos_seen_.length = s.eos_seen_.length ∧
    (SelectTop1.loop p s n).1.next_tokens_.length = s.next_tokens_.length := by
  induction n with
  | zero => exact ⟨rfl, rfl⟩
  | succ n ih =>
    rw [SelectTop1.loop_succ, SelectTop1.body_eos_seen_length, SelectTop1.body_next_tokens_length]
    exact ih

theorem SelectTop1.loop_sequences (p : SearchParams) (s : GreedySearch α) (n : Nat) :
    (SelectTop1.loop p s n).1.sequences_ = s.sequences_ := by
  induction n with
  | zero => rfl
  | succ n ih => rw [SelectTop1.loop_succ, SelectTop1.body_sequences, ih]

theorem SelectTop1.loop_scores (p : SearchParams) (s : GreedySearch α) (n : Nat) :
    (SelectTop1.loop p s n).1.next_token_scores_ = s.next_token_scores_ := by
  induction n with
  | zero => rfl
  | succ n ih => rw [SelectTop1.loop_succ, SelectTop1.body_scores, ih]

theorem SelectTop1.loop_untouched (p : SearchParams) (s : GreedySearch α) (n b : Nat)
    (h : n ≤ b) :
    (SelectTop1.loop p s n).1.eos_seen_.getD b false = s.eos_seen_.getD b false ∧
    (SelectTop1.loop p s n).1.next_tokens_.getD b 0 = s.next_tokens_.getD b 0 := by
  induction n with
  | zero => exact ⟨rfl, rfl⟩
  | succ n ih =>
    rw [SelectTop1.loop_succ]
    have hne : n ≠ b := by omega
    have := SelectTop1.body_other p (SelectTop1.loop p s n) n b hne
    rw [this.1, this.2]
    exact ih (by omega)

theorem SelectTop1.loop_mono (p : SearchParams) (s : GreedySearch α) (n b : Nat)
    (h : s.eos_seen_.getD b false = true) :
    (SelectTop1.loop p s n).1.eos_seen_.getD b false = true := by
  induction n with
  | zero => exact h
  | succ n ih =>
    rw [SelectTop1.loop_succ]
    exact SelectTop1.body_eos_seen_mono p _ n b ih

theorem SelectTop1.loop_pad (p : SearchParams) (s : GreedySearch α) (n b : Nat)
    (hb : b < n) (hlen : b < s.next_tokens_.length) (h : s.eos_seen_.getD b false = true) :
    (SelectTop1.loop p s n).1.next_tokens_.getD b 0 = p.pad_token_id := by
  induction n with
  | zero => omega
  | succ n ih =>
    rw [SelectTop1.loop_succ]
    by_cases hbn : n = b
    · subst hbn
      apply SelectTop1.body_pad
      · rw [(SelectTop1.loop_lengths p s n).2]; exact hlen
      · exact SelectTop1.loop_mono p s n n h
    · rw [(SelectTop1.body_other p _ n b hbn).2]
      exact ih (by omega)

theorem SelectTop1.loop_eos (p : SearchParams) (s : GreedySearch α) (n b : Nat)
    (hb : b < n) (hlen : b < s.next_tokens_.length) (hlen2 : b < s.eos_seen_.length)
    (h : (SelectTop1.loop p s n).1.next_tokens_.getD b 0 = p.eos_token_id) :
    (SelectTop1.loop p s n).1.eos_seen_.getD b false = true := by
  induction n with
  | zero => omega
  | succ n ih =>
    rw [SelectTop1.loop_succ] at h ⊢
    by_cases hbn : n = b
    · subst hbn
      apply SelectTop1.body_eos
      · rw [(SelectTop1.loop_lengths p s n).2]; exact hlen
      · rw [(SelectTop1.loop_lengths p s n).1]; exact hlen2
      · exact h
    · rw [(SelectTop1.body_other p _ n b hbn).2] at h
      exact SelectTop1.body_eos_seen_mono p _ n b (ih (by omega) h)

theorem SelectTop1.loop_fresh (p : SearchParams) (s : GreedySearch α) (n b : Nat)
    (hlen : b < s.next_tokens_.length)
    (h0 : s.eos_seen_.getD b false = false)
    (h : (SelectTop1.loop p s n).1.eos_seen_.getD b false = true) :
    (SelectTop1.loop p s n).1.next_tokens_.getD b 0 = p.eos_token_id := by
  induction n with
  | zero => rw [SelectTop1.loop_zero] at h; rw [h0] at h; exact absurd h (by decide)
  | succ n ih =>
    rw [SelectTop1.loop_succ] at h ⊢
    by_cases hbn : n = b
    · subst hbn
      apply SelectTop1.body_fresh
      · rw [(SelectTop1.loop_lengths p s n).2]; exact hlen
      · rw [(SelectTop1.loop_untouched p s n n le_rfl).1]; exact h0
      · exact h
    · rw [(SelectTop1.body_other p _ n b hbn).1] at h
      rw [(SelectTop1.body_other p _ n b hbn).2]
      exact ih h

end GreedyLoop

section GreedySteps
variable {α : Type} [LinearOrder α] [Inhabited α]

theorem GreedySearch.step_eos_seen (p : SearchParams) (s : GreedySearch α) (scores : List α) :
    (GreedySearch.step p s scores).eos_seen_ =
      (SelectTop1.loop p { s with next_token_scores_ := scores } p.batch_size).1.eos_seen_ := rfl

theorem GreedySearch.step_next_tokens (p : SearchParams) (s : GreedySearch α) (scores : List α) :
    (GreedySearch.step p s scores).next_tokens_ =
      (SelectTop1.loop p { s with next_token_scores_ := scores } p.batch_size).1.next_tokens_ := rfl

theorem GreedySearch.step_lengths (p : SearchParams) (s : GreedySearch α) (scores : List α) :
    (GreedySearch.step p s scores).eos_seen_.length = s.eos_seen_.length ∧
    (GreedySearch.step p s scores).next_tokens_.length = s.next_tokens_.length := by
  rw [GreedySearch.step_eos_seen, GreedySearch.step_next_tokens]
  exact SelectTop1.loop_lengths p _ _

theorem GreedySearch.greedy_step_current_length (p : SearchParams) (s : GreedySearch α)
    (scores : List α) :
    (GreedySearch.step p s scores).sequences_.current_length = s.sequences_.current_length + 1 := by
  show ((SelectTop1.loop p _ p.batch_size).1.sequences_.AppendNextTokenToSequences _).current_length
    = _
  rw [SelectTop1.loop_sequences]
  rfl

theorem GreedySearch.greedy_step_done (p : SearchParams) (s : GreedySearch α) (scores : List α) :
    (GreedySearch.step p s scores).done_ =
      if s.sequences_.current_length + 1 = p.max_length then true
      else (SelectTop1.loop p { s with next_token_scores_ := scores } p.batch_size).1.done_ := by
  show (if ((SelectTop1.loop p _ p.batch_size).1.sequences_.AppendNextTokenToSequences
    _).GetSequenceLength = p.max_length then true else _) = _
  rw [SelectTop1.loop_sequences]
  rfl

theorem GreedySearch.step_mono (p : SearchParams) (s : GreedySearch α) (scores : List α) (b : Nat)
    (h : s.eos_seen_.getD b false = true) :
    (GreedySearch.step p s scores).eos_seen_.getD b false = true := by
  rw [GreedySearch.step_eos_seen]
  exact SelectTop1.loop_mono p _ _ b h

theorem GreedySearch.run_nil (p : SearchParams) (s : GreedySearch α) :
    GreedySearch.run p s [] = s := rfl

theorem GreedySearch.run_cons (p : SearchParams) (s : GreedySearch α) (t : List α)
    (ts : List (List α)) :
    GreedySearch.run p s (t :: ts) = GreedySearch.run p (GreedySearch.step p s t) ts := rfl

theorem GreedySearch.run_append (p : SearchParams) (s : GreedySearch α) (ts us : List (List α)) :
    GreedySearch.run p s (ts ++ us) = GreedySearch.run p (GreedySearch.run p s ts) us := by
  simp [GreedySearch.run, List.foldl_append]

theorem GreedySearch.run_concat (p : SearchParams) (s : GreedySearch α) (ts : List (List α))
    (t : List α) :
    GreedySearch.run p s (ts ++ [t]) = GreedySearch.step p (GreedySearch.run p s ts) t := by
  rw [GreedySearch.run_append]; rfl

theorem GreedySearch.run_lengths (p : SearchParams) (s : GreedySearch α) (ts : List (List α)) :
    (GreedySearch.run p s ts).eos_seen_.length = s.eos_seen_.length ∧
    (GreedySearch.run p s ts).next_tokens_.length = s.next_tokens_.length := by
  induction ts generalizing s with
  | nil => exact ⟨rfl, rfl⟩
  | cons t ts ih =>
    rw [GreedySearch.run_cons]
    rw [(ih _).1, (ih _).2]
    exact GreedySearch.step_lengths p s t

theorem GreedySearch.run_current_length (p : SearchParams) (s : GreedySearch α)
    (ts : List (List α)) :
    (GreedySearch.run p s ts).sequences_.current_length =
      s.sequences_.current_length + ts.length := by
  induction ts generalizing s with
  | nil => rfl
  | cons t ts ih =>
    rw [GreedySearch.run_cons, ih, GreedySearch.greedy_step_current_length, List.length_cons]
    omega

theorem GreedySearch.run_mono (p : SearchParams) (s : GreedySearch α) (ts : List (List α))
    (b : Nat) (h : s.eos_seen_.getD b false = true) :
    (GreedySearch.run p s ts).eos_seen_.getD b false = true := by
  induction ts generalizing s with
  | nil => exact h
  | cons t ts ih =>
    rw [GreedySearch.run_cons]
    exact ih _ (GreedySearch.step_mono p s t b h)

theorem GreedySearch.run_pad (p : SearchParams) (s : GreedySearch α) (ts : List (List α))
    (b : Nat) (hb : b < p.batch_size) (hlen : b < s.next_tokens_.length)
    (h : s.eos_seen_.getD b false = true) (hne : ts ≠ []) :
    (GreedySearch.run p s ts).next_tokens_.getD b 0 = p.pad_token_id := by
  induction ts using List.reverseRecOn with
  | nil => exact absurd rfl hne
  | append_singleton ts t _ =>
    rw [GreedySearch.run_concat, GreedySearch.step_next_tokens]
    apply SelectTop1.loop_pad p _ _ b hb
    · show b < (GreedySearch.run p s ts).next_tokens_.length
      rw [(GreedySearch.run_lengths p s ts).2]; exact hlen
    · exact GreedySearch.run_mono p s ts b h

end GreedySteps

section GreedyDone
variable {α : Type} [LinearOrder α] [Inhabited α]

theorem GreedySearch.step_eos (p : SearchParams) (s : GreedySearch α) (scores : List α) (b : Nat)
    (hb : b < p.batch_size) (hlen : b < s.next_tokens_.length) (hlen2 : b < s.eos_seen_.length)
    (h : (GreedySearch.step p s scores).next_tokens_.getD b 0 = p.eos_token_id) :
    (GreedySearch.step p s scores).eos_seen_.getD b false = true := by
  rw [GreedySearch.step_next_tokens] at h
  rw [GreedySearch.step_eos_seen]
  exact SelectTop1.loop_eos p _ _ b hb hlen hlen2 h

theorem GreedySearch.step_fresh (p : SearchParams) (s : GreedySearch α) (scores : List α)
    (b : Nat) (hlen : b < s.next_tokens_.length) (h0 : s.eos_seen_.getD b false = false)
    (h : (GreedySearch.step p s scores).eos_seen_.getD b false = true) :
    (GreedySearch.step p s scores).next_tokens_.getD b 0 = p.eos_token_id := by
  rw [GreedySearch.step_eos_seen] at h
  rw [GreedySearch.step_next_tokens]
  exact SelectTop1.loop_fresh p _ _ b hlen h0 h

theorem GreedySearch.selected_eos_iff (p : SearchParams) (s : GreedySearch α)
    (tables : List (List α)) (b : Nat) :
    GreedySearch.selected_eos p s tables b = true ↔
      ∃ k, k < tables.length ∧
        (GreedySearch.run p s (tables.take k)).eos_seen_.getD b false = false ∧
        (GreedySearch.run p s (tables.take (k + 1))).next_tokens_.getD b 0 = p.eos_token_id := by
  unfold GreedySearch.selected_eos
  rw [List.any_eq_true]
  constructor
  · rintro ⟨k, hk, h⟩
    rw [Bool.and_eq_true, Bool.not_eq_true', decide_eq_true_eq] at h
    exact ⟨k, List.mem_range.1 hk, h.1, h.2⟩
  · rintro ⟨k, hk, h1, h2⟩
    refine ⟨k, List.mem_range.2 hk, ?_⟩
    rw [Bool.and_eq_true, Bool.not_eq_true', decide_eq_true_eq]
    exact ⟨h1, h2⟩

/-- The flag `eos_seen_[b]` records exactly that row `b` has selected EOS in some round. -/
theorem GreedySearch.eos_seen_iff_selected (p : SearchParams) (s : GreedySearch α)
    (tables : List (List α)) (b : Nat) (hb : b < p.batch_size)
    (hlen : b < s.next_tokens_.length) (hlen2 : b < s.eos_seen_.length)
    (h0 : s.eos_seen_.getD b false = false) :
    (GreedySearch.run p s tables).eos_seen_.getD b false = true ↔
      GreedySearch.selected_eos p s tables b = true := by
  rw [GreedySearch.selected_eos_iff]
  induction tables using List.reverseRecOn with
  | nil =>
    constructor
    · intro h; rw [GreedySearch.run_nil, h0] at h; exact absurd h (by decide)
    · rintro ⟨k, hk, _⟩; simp at hk
  | append_singleton ts t ih =>
    constructor
    · intro h
      cases hprev : (GreedySearch.run p s ts).eos_seen_.getD b false
      · refine ⟨ts.length, by simp, ?_, ?_⟩
        · rw [List.take_append_of_le_length le_rfl, List.take_length]; exact hprev
        · have : (ts ++ [t]).take (ts.length + 1) = ts ++ [t] := by
            apply List.take_of_length_le; simp
          rw [this]
          rw [GreedySearch.run_concat] at h ⊢
          apply GreedySearch.step_fresh p _ t b _ hprev h
          rw [(GreedySearch.run_lengths p s ts).2]; exact hlen
      · obtain ⟨k, hk, h1, h2⟩ := ih.1 hprev
        refine ⟨k, by simp; omega, ?_, ?_⟩
        · rw [List.take_append_of_le_length (by omega)]; exact h1
        · rw [List.take_append_of_le_length (by omega)]; exact h2
    · rintro ⟨k, hk, h1, h2⟩
      have hk' : k + 1 ≤ (ts ++ [t]).length := by omega
      have hsplit : ts ++ [t] = (ts ++ [t]).take (k + 1) ++ (ts ++ [t]).drop (k + 1) :=
        (List.take_append_drop _ _).symm
      rw [hsplit, GreedySearch.run_append]
      apply GreedySearch.run_mono
      have hk1 : (ts ++ [t]).take (k + 1) = (ts ++ [t]).take k ++ [(ts ++ [t])[k]] := by
        rw [List.take_succ, List.getElem?_eq_getElem hk]; rfl
      rw [hk1, GreedySearch.run_concat] at h2 ⊢
      apply GreedySearch.step_eos p _ _ b hb _ _ h2
      · rw [(GreedySearch.run_lengths p s _).2]; exact hlen
      · rw [(GreedySearch.run_lengths p s _).1]; exact hlen2

theorem List.count_false_set_true (l : List Bool) (i : Nat) (hi : i < l.length)
    (h : l.getD i false = false) :
    ((l.set i true).count false : Int) = (l.count false : Int) - 1 := by
  have hli : l[i] = false := by
    rw [List.getD_eq_getElem l false hi] at h; exact h
  have hpos : 0 < l.count false := by
    rw [List.count_pos_iff]
    rw [← hli]; exact List.getElem_mem hi
  rw [List.count_set true false l i hi]
  simp [hli]
  omega

theorem SelectTop1.body_inv (p : SearchParams) (L : Prop) (st : GreedySearch α × Nat) (i : Nat)
    (hi : i < st.1.eos_seen_.length)
    (hc : st.1.not_done_count_ = (st.1.eos_seen_.count false : Int))
    (hd : st.1.done_ = true ↔ st.1.eos_seen_.count false = 0 ∨ L) :
    (SelectTop1.body p st i).1.not_done_count_ =
      ((SelectTop1.body p st i).1.eos_seen_.count false : Int) ∧
    ((SelectTop1.body p st i).1.done_ = true ↔
      (SelectTop1.body p st i).1.eos_seen_.count false = 0 ∨ L) := by
  rw [SelectTop1.body_not_done_count, SelectTop1.body_eos_seen, SelectTop1.body_done]
  by_cases hf : st.1.eos_seen_.getD i false = false ∧
      SelectTop1.best_token st.1.next_token_scores_ st.2 p.vocab_size = p.eos_token_id
  · have hcnt := List.count_false_set_true st.1.eos_seen_ i hi hf.1
    simp only [hf, and_self, if_true, true_and]
    refine ⟨by rw [hcnt, hc], ?_⟩
    by_cases hz : st.1.not_done_count_ - 1 = 0
    · simp only [hz, if_true, true_iff]
      left
      rw [hc] at hz
      rw [← hcnt] at hz
      exact_mod_cast hz
    · simp only [hz, if_false]
      have hnz : ¬ (st.1.eos_seen_.set i true).count false = 0 := by
        intro h0
        apply hz
        rw [hc, ← hcnt, h0]; rfl
      have hnz0 : ¬ st.1.eos_seen_.count false = 0 := by
        intro h0
        rw [h0] at hcnt
        have : (0 : Int) ≤ ((st.1.eos_seen_.set i true).count false : Int) := Int.natCast_nonneg _
        omega
      rw [hd]
      simp [hnz, hnz0]
  · simp only [hf, if_false, false_and]
    exact ⟨hc, hd⟩

theorem SelectTop1.loop_inv (p : SearchParams) (L : Prop) (s : GreedySearch α) (n : Nat)
    (hn : n ≤ s.eos_seen_.length)
    (hc : s.not_done_count_ = (s.eos_seen_.count false : Int))
    (hd : s.done_ = true ↔ s.eos_seen_.count false = 0 ∨ L) :
    (SelectTop1.loop p s n).1.not_done_count_ =
      ((SelectTop1.loop p s n).1.eos_seen_.count false : Int) ∧
    ((SelectTop1.loop p s n).1.done_ = true ↔
      (SelectTop1.loop p s n).1.eos_seen_.count false = 0 ∨ L) := by
  induction n with
  | zero => exact ⟨hc, hd⟩
  | succ n ih =>
    rw [SelectTop1.loop_succ]
    have := ih (by omega)
    apply SelectTop1.body_inv p L _ n _ this.1 this.2
    rw [(SelectTop1.loop_lengths p s n).1]; omega

theorem GreedySearch.step_inv (p : SearchParams) (s : GreedySearch α) (scores : List α)
    (hn : p.batch_size ≤ s.eos_seen_.length)
    (hc : s.not_done_count_ = (s.eos_seen_.count false : Int))
    (hd : s.done_ = true ↔
      s.eos_seen_.count false = 0 ∨ p.max_length ≤ s.sequences_.current_length) :
    (GreedySearch.step p s scores).not_done_count_ =
      ((GreedySearch.step p s scores).eos_seen_.count false : Int) ∧
    ((GreedySearch.step p s scores).done_ = true ↔
      (GreedySearch.step p s scores).eos_seen_.count false = 0 ∨
        p.max_length ≤ (GreedySearch.step p s scores).sequences_.current_length) := by
  have := SelectTop1.loop_inv p (p.max_length ≤ s.sequences_.current_length)
    { s with next_token_scores_ := scores } p.batch_size hn hc hd
  refine ⟨this.1, ?_⟩
  rw [GreedySearch.greedy_step_done, GreedySearch.greedy_step_current_length, GreedySearch.step_eos_seen]
  by_cases hm : s.sequences_.current_length + 1 = p.max_length
  · simp only [hm, if_true, true_iff]
    right; exact le_rfl
  · simp only [hm, if_false]
    rw [this.2]
    constructor
    · rintro (h | h)
      · exact Or.inl h
      · right; omega
    · rintro (h | h)
      · exact Or.inl h
      · right; omega

end GreedyDone

section GreedyClaims
variable {α : Type} [LinearOrder α] [Inhabited α]

theorem List.count_false_eq_zero_iff (l : List Bool) :
    l.count false = 0 ↔ ∀ b, b < l.length → l.getD b false = true := by
  rw [List.count_eq_zero]
  constructor
  · intro h b hb
    rw [List.getD_eq_getElem l false hb]
    cases hx : l[b]
    · exact absurd (hx ▸ List.getElem_mem hb) h
    · rfl
  · intro h hmem
    obtain ⟨b, hb, hx⟩ := List.getElem_of_mem hmem
    have := h b hb
    rw [List.getD_eq_getElem l false hb, hx] at this
    exact absurd this (by decide)

theorem GreedySearch.run_inv (p : SearchParams) (s : GreedySearch α) (tables : List (List α))
    (hn : p.batch_size ≤ s.eos_seen_.length)
    (hc : s.not_done_count_ = (s.eos_seen_.count false : Int))
    (hd : s.done_ = true ↔
      s.eos_seen_.count false = 0 ∨ p.max_length ≤ s.sequences_.current_length) :
    (GreedySearch.run p s tables).done_ = true ↔
      (GreedySearch.run p s tables).eos_seen_.count false = 0 ∨
        p.max_length ≤ (GreedySearch.run p s tables).sequences_.current_length := by
  induction tables generalizing s with
  | nil => exact hd
  | cons t ts ih =>
    rw [GreedySearch.run_cons]
    have h := GreedySearch.step_inv p s t hn hc hd
    apply ih _ _ h.1 h.2
    rw [(GreedySearch.step_lengths p s t).1]; exact hn

/-- C1 (evaluation at the failing input).  With `exampleParams` and the table `[[5, 1], [1, 5]]`
in two successive rounds, row 0 selects EOS in the first round; in the second round row 1, which
has not seen EOS, receives token 0 although in row 1 of the score table token 0 scores less than
token 1: the scan of row 1 read row 0. -/
theorem greedy_select_top_scans_wrong_row :
    (GreedySearch.step exampleParams (GreedySearch.new exampleParams) exampleScores).eos_seen_
        = [true, false] ∧
      (GreedySearch.run exampleParams (GreedySearch.new exampleParams)
        [exampleScores, exampleScores]).next_tokens_ = [9, 0] ∧
      (Search.GetScores exampleParams (GreedySearch.run exampleParams
        (GreedySearch.new exampleParams) [exampleScores, exampleScores]).toSearch 1).getD 0 0 <
      (Search.GetScores exampleParams (GreedySearch.run exampleParams
        (GreedySearch.new exampleParams) [exampleScores, exampleScores]).toSearch 1).getD 1 0 := by
  decide

/-- C2.  Once the token stored for row `b` by a round of `SelectTop1` is `eos_token_id`, the flag
`eos_seen_[b]` is true after that round and after every later round, and every later round
stores `pad_token_id` in `next_tokens_[b]`. -/
theorem greedy_eos_row_stays_padded (p : SearchParams) (s : GreedySearch α) (scores : List α)
    (later : List (List α)) (b : Nat) (hb : b < p.batch_size)
    (hlen : b < s.next_tokens_.length) (hlen2 : b < s.eos_seen_.length)
    (hsel : (GreedySearch.step p s scores).next_tokens_.getD b 0 = p.eos_token_id) :
    (GreedySearch.run p (GreedySearch.step p s scores) later).eos_seen_.getD b false = true ∧
      (later ≠ [] →
        (GreedySearch.run p (GreedySearch.step p s scores) later).next_tokens_.getD b 0
          = p.pad_token_id) := by
  have hseen := GreedySearch.step_eos p s scores b hb hlen hlen2 hsel
  refine ⟨GreedySearch.run_mono p _ later b hseen, fun hne => ?_⟩
  apply GreedySearch.run_pad p _ later b hb _ hseen hne
  rw [(GreedySearch.step_lengths p s scores).2]; exact hlen

theorem greedy_eos_row_stays_padded_witness :
    (GreedySearch.step exampleParams (GreedySearch.new exampleParams)
        exampleScores).next_tokens_.getD 0 0 = exampleParams.eos_token_id ∧
      (GreedySearch.run exampleParams
        (GreedySearch.step exampleParams (GreedySearch.new exampleParams) exampleScores)
        [exampleScores, exampleScores]).eos_seen_.getD 0 false = true ∧
      (GreedySearch.run exampleParams
        (GreedySearch.step exampleParams (GreedySearch.new exampleParams) exampleScores)
        [exampleScores, exampleScores]).next_tokens_.getD 0 0 = exampleParams.pad_token_id :=
  ⟨by decide,
    (greedy_eos_row_stays_padded exampleParams (GreedySearch.new exampleParams) exampleScores
      [exampleScores, exampleScores] 0 (by decide) (by decide) (by decide) (by decide)).1,
    (greedy_eos_row_stays_padded exampleParams (GreedySearch.new exampleParams) exampleScores
      [exampleScores, exampleScores] 0 (by decide) (by decide) (by decide) (by decide)).2
      (by decide)⟩

/-- C3.  For a greedy search constructed with at least one batch row and
`sequence_length < max_length`, after any number of rounds `IsDone` is true if and only if
every batch row has selected `eos_token_id` in some round or `current_length` has reached
`max_length`. -/
theorem greedy_is_done_iff [Zero α] (p : SearchParams) (hbatch : 0 < p.batch_size)
    (hlt : p.sequence_length < p.max_length) (tables : List (List α)) :
    (GreedySearch.run p (GreedySearch.new p) tables).toSearch.IsDone = true ↔
      (∀ b, b < p.batch_size →
        GreedySearch.selected_eos p (GreedySearch.new p) tables b = true) ∨
        p.max_length ≤ (GreedySearch.run p (GreedySearch.new p) tables).toSearch.GetSequenceLength
    := by
  have hlen1 : (GreedySearch.new p : GreedySearch α).eos_seen_.length = p.batch_size := by
    simp [GreedySearch.new]
  have hlen2 : (GreedySearch.new p : GreedySearch α).next_tokens_.length = p.batch_size := by
    simp [GreedySearch.new]
  have hinv := GreedySearch.run_inv p (GreedySearch.new p : GreedySearch α) tables
    (by rw [hlen1]) (by simp [GreedySearch.new]) (by
      simp only [GreedySearch.new, List.count_replicate_self, Sequences.new]
      constructor
      · intro h; exact absurd h (by decide)
      · rintro (h | h) <;> omega)
  show (GreedySearch.run p (GreedySearch.new p) tables).done_ = true ↔ _
  rw [hinv, List.count_false_eq_zero_iff, (GreedySearch.run_lengths p _ tables).1, hlen1]
  apply or_congr _ Iff.rfl
  apply forall_congr'
  intro b
  apply imp_congr_right
  intro hb
  apply GreedySearch.eos_seen_iff_selected p _ tables b hb
  · rw [hlen2]; exact hb
  · rw [hlen1]; exact hb
  · simp [GreedySearch.new, List.getD_eq_getElem?_getD, List.getElem?_replicate, hb]

theorem greedy_is_done_iff_witness :
    (GreedySearch.run exampleParams (GreedySearch.new exampleParams)
        [exampleScores, exampleScores]).toSearch.IsDone = true ↔
      (∀ b, b < exampleParams.batch_size →
        GreedySearch.selected_eos exampleParams (GreedySearch.new exampleParams)
          [exampleScores, exampleScores] b = true) ∨
        exampleParams.max_length ≤ (GreedySearch.run exampleParams
          (GreedySearch.new exampleParams) [exampleScores, exampleScores]).toSearch.GetSequenceLength :=
  greedy_is_done_iff exampleParams (by decide) (by decide) [exampleScores, exampleScores]

end GreedyClaims

section Termination
variable {α : Type}

theorem SelectTop1.loop_done_mono [LinearOrder α] [Inhabited α] (p : SearchParams)
    (s : GreedySearch α) (n : Nat) (h : s.done_ = true) :
    (SelectTop1.loop p s n).1.done_ = true := by
  induction n with
  | zero => exact h
  | succ n ih =>
    rw [SelectTop1.loop_succ, SelectTop1.body_done, ih]
    split_ifs <;> rfl

theorem GreedySearch.greedy_run_done_of_length [LinearOrder α] [Inhabited α] (p : SearchParams)
    (tables : List (List α)) (s : GreedySearch α)
    (h : s.done_ = true ∨ (s.sequences_.current_length < p.max_length ∧
      p.max_length - s.sequences_.current_length ≤ tables.length)) :
    (GreedySearch.run p s tables).done_ = true := by
  induction tables generalizing s with
  | nil =>
    rcases h with h | ⟨h1, h2⟩
    · exact h
    · simp at h2; omega
  | cons t ts ih =>
    rw [GreedySearch.run_cons]
    apply ih
    by_cases hm : s.sequences_.current_length + 1 = p.max_length
    · left; rw [GreedySearch.greedy_step_done, if_pos hm]
    · rcases h with h | ⟨h1, h2⟩
      · left
        rw [GreedySearch.greedy_step_done, if_neg hm]
        exact SelectTop1.loop_done_mono p _ _ h
      · right
        rw [GreedySearch.greedy_step_current_length]
        simp only [List.length_cons] at h2
        omega

theorem BeamSearch.beam_step_current_length [Add α] [Inhabited α]
    (pq : PriorityQueue (ScoreIndex α)) (sc : BeamSearchScorer α) (p : SearchParams)
    (s : BeamSearch α sc.S) (scores : List α) :
    (BeamSearch.step pq sc p s scores).sequences_.current_length =
      s.sequences_.current_length + 1 := rfl

theorem BeamSearch.SelectTopK_done [Add α] [Inhabited α]
    (pq : PriorityQueue (ScoreIndex α)) (sc : BeamSearchScorer α) (p : SearchParams)
    (s : BeamSearch α sc.S) :
    (BeamSearch.SelectTopK pq sc p s).done_ =
      if s.sequences_.current_length + 1 = p.max_length then true else s.done_ := rfl

theorem BeamSearch.beam_step_done [Add α] [Inhabited α]
    (pq : PriorityQueue (ScoreIndex α)) (sc : BeamSearchScorer α) (p : SearchParams)
    (s : BeamSearch α sc.S) (scores : List α) :
    (BeamSearch.step pq sc p s scores).done_ =
      if s.sequences_.current_length + 1 = p.max_length then true else s.done_ := rfl

theorem BeamSearch.beam_run_done_of_length [Add α] [Inhabited α]
    (pq : PriorityQueue (ScoreIndex α)) (sc : BeamSearchScorer α) (p : SearchParams)
    (tables : List (List α)) (s : BeamSearch α sc.S)
    (h : s.done_ = true ∨ (s.sequences_.current_length < p.max_length ∧
      p.max_length - s.sequences_.current_length ≤ tables.length)) :
    (BeamSearch.run pq sc p s tables).done_ = true := by
  induction tables generalizing s with
  | nil =>
    rcases h with h | ⟨h1, h2⟩
    · exact h
    · simp at h2; omega
  | cons t ts ih =>
    show (BeamSearch.run pq sc p (BeamSearch.step pq sc p s t) ts).done_ = true
    apply ih
    by_cases hm : s.sequences_.current_length + 1 = p.max_length
    · left; rw [BeamSearch.beam_step_done, if_pos hm]
    · rcases h with h | ⟨h1, h2⟩
      · left
        rw [BeamSearch.beam_step_done, if_neg hm]
        exact h
      · right
        rw [BeamSearch.beam_step_current_length]
        simp only [List.length_cons] at h2
        omega

/-- C4.  For a greedy search and for a beam search (any scorer, any candidate queue) constructed
with `sequence_length < max_length`, `IsDone` is true after every run of at least
`max_length - sequence_length` rounds: it has become true within that many rounds and stays
true. -/
theorem search_done_within_length_budget [LinearOrder α] [Inhabited α] [Zero α] [Add α]
    (p : SearchParams) (hlt : p.sequence_length < p.max_length) :
    (∀ tables : List (List α), p.max_length - p.sequence_length ≤ tables.length →
      (GreedySearch.run p (GreedySearch.new p) tables).toSearch.IsDone = true) ∧
    (∀ (pq : PriorityQueue (ScoreIndex α)) (sc : BeamSearchScorer α) (s : BeamSearch α sc.S)
      (tables : List (List α)), BeamSearch.new sc p = some s →
      p.max_length - p.sequence_length ≤ tables.length →
      (BeamSearch.run pq sc p s tables).toSearch.IsDone = true) := by
  constructor
  · intro tables hlen
    exact GreedySearch.greedy_run_done_of_length p tables _ (Or.inr ⟨hlt, hlen⟩)
  · intro pq sc s tables hnew hlen
    apply BeamSearch.beam_run_done_of_length pq sc p tables s
    right
    unfold BeamSearch.new at hnew
    split_ifs at hnew
    cases hnew
    exact ⟨hlt, hlen⟩

theorem search_done_within_length_budget_witness :
    (GreedySearch.run exampleParams (GreedySearch.new exampleParams)
        [[1, 5, 1, 5], [1, 5, 1, 5], [1, 5, 1, 5], [(1 : Int), 5, 1, 5]]).toSearch.IsDone = true ∧
      ((BeamSearch.new (doneScorer exampleBeamParams : BeamSearchScorer Int)
        exampleBeamParams).map fun s =>
          (BeamSearch.run listQueue (doneScorer exampleBeamParams) exampleBeamParams s
            [exampleBeamScores, exampleBeamScores, exampleBeamScores,
              exampleBeamScores]).toSearch.IsDone) = some true :=
  ⟨(search_done_within_length_budget exampleParams (by decide)).1 _ (by decide),
    congrArg some ((search_done_within_length_budget exampleBeamParams (by decide)).2
      listQueue (doneScorer exampleBeamParams) _
      [exampleBeamScores, exampleBeamScores, exampleBeamScores, exampleBeamScores] rfl
      (by decide))⟩

/-- C5 (counterexample).  A beam search over `exampleBeamParams` whose scorer reports that all
batch rows are done: after `SelectTopK` the scorer reports done, `current_length` is 2, below
`max_length = 5`, and `IsDone` is false. -/
theorem beam_scorer_done_not_surfaced :
    ((BeamSearch.new (doneScorer exampleBeamParams : BeamSearchScorer Int)
      exampleBeamParams).map fun s =>
        ((doneScorer exampleBeamParams : BeamSearchScorer Int).IsDone
            (BeamSearch.step listQueue (doneScorer exampleBeamParams) exampleBeamParams s
              exampleBeamScores).beam_scorer_,
          (BeamSearch.step listQueue (doneScorer exampleBeamParams) exampleBeamParams s
              exampleBeamScores).toSearch.GetSequenceLength,
          (BeamSearch.step listQueue (doneScorer exampleBeamParams) exampleBeamParams s
              exampleBeamScores).toSearch.IsDone)) = some (true, 2, false) := by
  decide

/-- C5 (amended).  After `SelectTopK`, `IsDone` is true exactly when it was true before the call
or `current_length` has reached `max_length`, whatever the scorer reports. -/
theorem beam_is_done_only_by_length [Add α] [Inhabited α]
    (pq : PriorityQueue (ScoreIndex α)) (sc : BeamSearchScorer α) (p : SearchParams)
    (s : BeamSearch α sc.S) :
    (BeamSearch.SelectTopK pq sc p s).toSearch.IsDone =
      (s.toSearch.IsDone ||
        decide ((BeamSearch.SelectTopK pq sc p s).toSearch.GetSequenceLength = p.max_length)) := by
  show (BeamSearch.SelectTopK pq sc p s).done_ = (s.done_ || decide (_ = p.max_length))
  rw [BeamSearch.SelectTopK_done]
  have : (BeamSearch.SelectTopK pq sc p s).toSearch.GetSequenceLength
      = s.sequences_.current_length + 1 := rfl
  rw [this]
  by_cases hm : s.sequences_.current_length + 1 = p.max_length
  · simp [hm]
  · simp [hm]

end Termination

section SetLogitsLemmas
variable {α : Type}

theorem length_copy (vs buf : List α) (off : Nat) : (copy vs buf off).length = buf.length := by
  induction vs generalizing buf off with
  | nil => rfl
  | cons v vs ih => rw [copy, ih, List.length_set]

theorem getElem?_copy (vs buf : List α) (off j : Nat) :
    (copy vs buf off)[j]? =
      if off ≤ j ∧ j < off + vs.length ∧ j < buf.length then vs[j - off]? else buf[j]? := by
  induction vs generalizing buf off with
  | nil =>
    have : ¬ (off ≤ j ∧ j < off + ([] : List α).length ∧ j < buf.length) := by
      simp only [List.length_nil]; omega
    rw [if_neg this]; rfl
  | cons v vs ih =>
    rw [copy, ih, List.length_set, List.getElem?_set]
    by_cases h1 : off = j
    · subst h1
      have hn : ¬ (off + 1 ≤ off ∧ off < off + 1 + vs.length ∧ off < buf.length) := by omega
      rw [if_neg hn, if_pos rfl]
      by_cases h2 : off < buf.length
      · have hp : off ≤ off ∧ off < off + (v :: vs).length ∧ off < buf.length := by
          simp only [List.length_cons]; omega
        rw [if_pos h2, if_pos hp]; simp
      · have hp : ¬ (off ≤ off ∧ off < off + (v :: vs).length ∧ off < buf.length) := by omega
        rw [if_neg h2, if_neg hp]
        exact (List.getElem?_eq_none (by omega)).symm
    · rw [if_neg h1]
      by_cases h3 : off + 1 ≤ j ∧ j < off + 1 + vs.length ∧ j < buf.length
      · have hp : off ≤ j ∧ j < off + (v :: vs).length ∧ j < buf.length := by
          simp only [List.length_cons]; omega
        rw [if_pos h3, if_pos hp]
        have : j - off = (j - (off + 1)) + 1 := by omega
        rw [this, List.getElem?_cons_succ]
      · have hp : ¬ (off ≤ j ∧ j < off + (v :: vs).length ∧ j < buf.length) := by
          simp only [List.length_cons]; omega
        rw [if_neg h3, if_neg hp]

theorem row_copy_self (vs buf : List α) (off : Nat) (h : off + vs.length ≤ buf.length) :
    ((copy vs buf off).drop off).take vs.length = vs := by
  apply List.ext_getElem?
  intro t
  rw [List.getElem?_take]
  by_cases ht : t < vs.length
  · rw [if_pos ht, List.getElem?_drop, getElem?_copy]
    have hp : off ≤ off + t ∧ off + t < off + vs.length ∧ off + t < buf.length := by omega
    rw [if_pos hp]
    congr 1; omega
  · rw [if_neg ht]
    exact (List.getElem?_eq_none (by omega)).symm

theorem row_copy_other (vs buf : List α) (off off' n : Nat)
    (h : off' + n ≤ off ∨ off + vs.length ≤ off') :
    ((copy vs buf off).drop off').take n = (buf.drop off').take n := by
  apply List.ext_getElem?
  intro t
  rw [List.getElem?_take, List.getElem?_take]
  by_cases ht : t < n
  · rw [if_pos ht, if_pos ht, List.getElem?_drop, List.getElem?_drop, getElem?_copy]
    have hp : ¬ (off ≤ off' + t ∧ off' + t < off + vs.length ∧ off' + t < buf.length) := by
      omega
    rw [if_neg hp]
  · rw [if_neg ht, if_neg ht]

theorem SetLogits.body_spec (log_softmax : List α → List α)
    (hls : ∀ r, (log_softmax r).length = r.length) (p : SearchParams) (logits : List α)
    (input_length : Nat) (st : List α × Nat) (i : Nat)
    (hsrc : st.2 + p.vocab_size ≤ logits.length)
    (hdst : i * p.vocab_size + p.vocab_size ≤ st.1.length) :
    (SetLogits.body log_softmax p logits input_length st i).1.length = st.1.length ∧
    (SetLogits.body log_softmax p logits input_length st i).2
      = st.2 + input_length * p.vocab_size ∧
    (((SetLogits.body log_softmax p logits input_length st i).1.drop
        (i * p.vocab_size)).take p.vocab_size
      = log_softmax ((logits.drop st.2).take p.vocab_size)) ∧
    ∀ j, j ≠ i →
      ((SetLogits.body log_softmax p logits input_length st i).1.drop
          (j * p.vocab_size)).take p.vocab_size
        = (st.1.drop (j * p.vocab_size)).take p.vocab_size := by
  have hsl : ((logits.drop st.2).take p.vocab_size).length = p.vocab_size := by
    rw [List.length_take, List.length_drop]; omega
  have hcopied : ((copy ((logits.drop st.2).take p.vocab_size) st.1 (i * p.vocab_size)).drop
      (i * p.vocab_size)).take p.vocab_size = (logits.drop st.2).take p.vocab_size := by
    have := row_copy_self ((logits.drop st.2).take p.vocab_size) st.1 (i * p.vocab_size)
      (by rw [hsl]; exact hdst)
    rw [hsl] at this
    exact this
  unfold SetLogits.body
  dsimp only
  rw [hcopied]
  have hll : (log_softmax ((logits.drop st.2).take p.vocab_size)).length = p.vocab_size := by
    rw [hls, hsl]
  refine ⟨by rw [length_copy, length_copy], rfl, ?_, ?_⟩
  · have := row_copy_self (log_softmax ((logits.drop st.2).take p.vocab_size))
      (copy ((logits.drop st.2).take p.vocab_size) st.1 (i * p.vocab_size)) (i * p.vocab_size)
      (by rw [hll, length_copy]; exact hdst)
    rw [hll] at this
    exact this
  · intro j hj
    have hdis : j * p.vocab_size + p.vocab_size ≤ i * p.vocab_size ∨
        i * p.vocab_size + p.vocab_size ≤ j * p.vocab_size := by
      rcases Nat.lt_or_gt_of_ne hj with h | h
      · left
        calc j * p.vocab_size + p.vocab_size = (j + 1) * p.vocab_size := by ring
          _ ≤ i * p.vocab_size := Nat.mul_le_mul_right _ h
      · right
        calc i * p.vocab_size + p.vocab_size = (i + 1) * p.vocab_size := by ring
          _ ≤ j * p.vocab_size := Nat.mul_le_mul_right _ h
    rw [row_copy_other, row_copy_other]
    · rw [hsl]; exact hdis
    · rw [hll]; exact hdis

theorem SetLogits.rows_loop_spec (log_softmax : List α → List α)
    (hls : ∀ r, (log_softmax r).length = r.length) (p : SearchParams) (logits : List α)
    (input_length : Nat) (scores : List α) (cur n : Nat)
    (hsrc : cur + (n - 1) * (input_length * p.vocab_size) + p.vocab_size ≤ logits.length)
    (hdst : n * p.vocab_size ≤ scores.length) :
    ((List.range n).foldl (SetLogits.body log_softmax p logits input_length)
        (scores, cur)).1.length = scores.length ∧
    ((List.range n).foldl (SetLogits.body log_softmax p logits input_length)
        (scores, cur)).2 = cur + n * (input_length * p.vocab_size) ∧
    ∀ i, i < n →
      (((List.range n).foldl (SetLogits.body log_softmax p logits input_length)
          (scores, cur)).1.drop (i * p.vocab_size)).take p.vocab_size
        = log_softmax ((logits.drop (cur + i * (input_length * p.vocab_size))).take
            p.vocab_size) := by
  induction n with
  | zero => exact ⟨rfl, by simp, fun i hi => absurd hi (by omega)⟩
  | succ n ih =>
    rw [List.range_succ, List.foldl_append]
    have hmono : (n - 1) * (input_length * p.vocab_size) ≤ n * (input_length * p.vocab_size) :=
      Nat.mul_le_mul_right _ (by omega)
    have hn1 : n + 1 - 1 = n := by omega
    rw [hn1] at hsrc
    have hs : (n + 1) * p.vocab_size = n * p.vocab_size + p.vocab_size := by ring
    obtain ⟨ih1, ih2, ih3⟩ := ih (by omega) (by omega)
    simp only [List.foldl_cons, List.foldl_nil]
    obtain ⟨b1, b2, b3, b4⟩ := SetLogits.body_spec log_softmax hls p logits input_length
      ((List.range n).foldl (SetLogits.body log_softmax p logits input_length) (scores, cur)) n
      (by rw [ih2]; exact hsrc) (by rw [ih1]; omega)
    refine ⟨by rw [b1, ih1], by rw [b2, ih2]; ring, ?_⟩
    intro i hi
    by_cases hin : i = n
    · subst hin
      rw [b3, ih2]
    · rw [b4 i hin]
      exact ih3 i (by omega)

end SetLogitsLemmas

section SetLogitsClaims
variable {α : Type}

theorem Search.SetLogits_row (log_softmax : List α → List α)
    (hls : ∀ r, (log_softmax r).length = r.length) (p : SearchParams) (s : Search α)
    (logits : List α) (input_length : Nat) (h1 : 1 ≤ input_length) (hv : 0 < p.vocab_size)
    (hshape : logits.length = p.BatchBeamSize * input_length * p.vocab_size)
    (htable : s.next_token_scores_.length = p.BatchBeamSize * p.vocab_size)
    (i : Nat) (hi : i < p.BatchBeamSize) :
    ∃ s', Search.SetLogits log_softmax p s logits = some s' ∧
      Search.GetScores p s' i =
        log_softmax ((logits.drop ((i * input_length + input_length - 1) * p.vocab_size)).take
          p.vocab_size) := by
  obtain ⟨k, rfl⟩ : ∃ k, input_length = k + 1 := ⟨input_length - 1, by omega⟩
  obtain ⟨m, hm⟩ : ∃ m, p.BatchBeamSize = m + 1 := ⟨p.BatchBeamSize - 1, by omega⟩
  have hpos : 0 < p.BatchBeamSize * p.vocab_size := Nat.mul_pos (by omega) hv
  have hlen : logits.length = (k + 1) * (p.BatchBeamSize * p.vocab_size) := by
    rw [hshape]; ring
  have hdiv : logits.length / (p.BatchBeamSize * p.vocab_size) = k + 1 := by
    rw [hlen, Nat.mul_div_cancel _ hpos]
  have hmod : logits.length % (p.BatchBeamSize * p.vocab_size) = 0 := by
    rw [hlen, Nat.mul_mod_left]
  have hsrc : k * p.vocab_size + (p.BatchBeamSize - 1) * ((k + 1) * p.vocab_size)
      + p.vocab_size ≤ logits.length := by
    rw [hshape, hm, Nat.add_sub_cancel]
    apply le_of_eq; ring
  obtain ⟨_, _, hrow⟩ := SetLogits.rows_loop_spec log_softmax hls p logits (k + 1)
    s.next_token_scores_ (k * p.vocab_size) p.BatchBeamSize hsrc (by rw [htable])
  have hs : Search.SetLogits log_softmax p s logits = some
      { s with
        next_token_scores_ :=
          ((List.range p.BatchBeamSize).foldl (SetLogits.body log_softmax p logits (k + 1))
            (s.next_token_scores_, k * p.vocab_size)).1 } := by
    unfold Search.SetLogits
    dsimp only
    rw [if_neg (by omega), hdiv, if_neg (by rw [hmod]; simp), if_neg (by omega),
      Nat.add_sub_cancel]
  refine ⟨_, hs, ?_⟩
  unfold Search.GetScores
  dsimp only
  rw [hrow i hi]
  congr 3
  have : i * (k + 1) + (k + 1) - 1 = i * (k + 1) + k := by omega
  rw [this]; ring

/-- C6.  For a logits buffer of shape `(BatchBeamSize, input_length, vocab_size)` with
`input_length ≥ 1`, `SetLogits` succeeds and row `i` of the new score table is `log_softmax` of
the last-position slice of row `i`, whose element `t` is the source element at offset
`(i * input_length + input_length - 1) * vocab_size + t`; with `input_length = 1` the slice is
source row `i`. -/
theorem set_logits_takes_last_position (log_softmax : List α → List α)
    (hls : ∀ r, (log_softmax r).length = r.length) (p : SearchParams) (s : Search α)
    (logits : List α) (input_length : Nat) (h1 : 1 ≤ input_length) (hv : 0 < p.vocab_size)
    (hshape : logits.length = p.BatchBeamSize * input_length * p.vocab_size)
    (htable : s.next_token_scores_.length = p.BatchBeamSize * p.vocab_size)
    (i : Nat) (hi : i < p.BatchBeamSize) :
    ∃ s', Search.SetLogits log_softmax p s logits = some s' ∧
      Search.GetScores p s' i =
        log_softmax ((logits.drop ((i * input_length + input_length - 1) * p.vocab_size)).take
          p.vocab_size) ∧
      (∀ t, t < p.vocab_size →
        ((logits.drop ((i * input_length + input_length - 1) * p.vocab_size)).take
          p.vocab_size)[t]? = logits[(i * input_length + input_length - 1) * p.vocab_size + t]?) ∧
      (input_length = 1 →
        Search.GetScores p s' i =
          log_softmax ((logits.drop (i * p.vocab_size)).take p.vocab_size)) := by
  obtain ⟨s', hs, hrow⟩ := Search.SetLogits_row log_softmax hls p s logits input_length h1 hv
    hshape htable i hi
  refine ⟨s', hs, hrow, ?_, ?_⟩
  · intro t ht
    rw [List.getElem?_take, if_pos ht, List.getElem?_drop]
  · intro h
    subst h
    rw [hrow]
    congr 3
    simp

theorem set_logits_takes_last_position_witness :
    ∃ s', Search.SetLogits (fun r => r.map (· + 100)) exampleLogitsParams exampleSearch
        [1, 2, 3, 4, 5, 6, 7, 8, 9, 10, 11, 12] = some s' ∧
      Search.GetScores exampleLogitsParams s' 0 = [104, 105, 106] ∧
      Search.GetScores exampleLogitsParams s' 1 = [110, 111, 112] := by
  obtain ⟨s', h, h0, -, -⟩ := set_logits_takes_last_position (fun r => r.map (· + 100))
    (fun r => by simp) exampleLogitsParams exampleSearch [1, 2, 3, 4, 5, 6, 7, 8, 9, 10, 11, 12]
    2 (by decide) (by decide) (by decide) (by decide) 0 (by decide)
  obtain ⟨s'', h', h1, -, -⟩ := set_logits_takes_last_position (fun r => r.map (· + 100))
    (fun r => by simp) exampleLogitsParams exampleSearch [1, 2, 3, 4, 5, 6, 7, 8, 9, 10, 11, 12]
    2 (by decide) (by decide) (by decide) (by decide) 1 (by decide)
  rw [h] at h'
  cases h'
  exact ⟨s', h, by rw [h0]; decide, by rw [h1]; decide⟩

end SetLogitsClaims

section MinLengthClaims
variable {α : Type}

theorem MinLength.eos_loop_spec (lowest : α) (v e : Nat) (scores : List α) (n : Nat) :
    ((List.range n).foldl (fun sc i => sc.set (i * v + e) lowest) scores).length
      = scores.length ∧
    ∀ j, ((List.range n).foldl (fun sc i => sc.set (i * v + e) lowest) scores)[j]? =
      if (∃ i, i < n ∧ j = i * v + e) ∧ j < scores.length then some lowest else scores[j]? := by
  induction n with
  | zero =>
    refine ⟨rfl, fun j => ?_⟩
    have : ¬ ((∃ i, i < 0 ∧ j = i * v + e) ∧ j < scores.length) := by
      rintro ⟨⟨i, hi, _⟩, _⟩; omega
    rw [if_neg this]; rfl
  | succ n ih =>
    rw [List.range_succ, List.foldl_append]
    simp only [List.foldl_cons, List.foldl_nil]
    obtain ⟨ihl, ihg⟩ := ih
    refine ⟨by rw [List.length_set, ihl], fun j => ?_⟩
    rw [List.getElem?_set, ihl, ihg]
    by_cases hj : n * v + e = j
    · rw [if_pos hj]
      by_cases hlen : j < scores.length
      · have : (∃ i, i < n + 1 ∧ j = i * v + e) ∧ j < scores.length :=
          ⟨⟨n, by omega, hj.symm⟩, hlen⟩
        rw [if_pos this, if_pos (by omega)]
      · have : ¬ ((∃ i, i < n + 1 ∧ j = i * v + e) ∧ j < scores.length) := fun h => hlen h.2
        rw [if_neg this, if_neg (by omega)]
        exact (List.getElem?_eq_none (by omega)).symm
    · rw [if_neg hj]
      by_cases hex : (∃ i, i < n ∧ j = i * v + e) ∧ j < scores.length
      · obtain ⟨⟨i, hi, hji⟩, hlen⟩ := hex
        rw [if_pos ⟨⟨i, hi, hji⟩, hlen⟩, if_pos ⟨⟨i, by omega, hji⟩, hlen⟩]
      · have : ¬ ((∃ i, i < n + 1 ∧ j = i * v + e) ∧ j < scores.length) := by
          rintro ⟨⟨i, hi, hji⟩, hlen⟩
          by_cases hin : i = n
          · subst hin; exact hj hji.symm
          · exact hex ⟨⟨i, by omega, hji⟩, hlen⟩
        rw [if_neg hex, if_neg this]

/-- C8 (counterexample).  With `float` scores, `MinLength` applied below the minimum length
stores `numeric_limits<float>::lowest()` in the EOS entry of a row, and that value is a finite
number, not `−∞`. -/
theorem min_length_stores_finite_lowest :
    (Search.GetScores exampleLogitsParams
        (Processors.MinLength FloatValue.lowest exampleLogitsParams exampleFloatSearch 3) 0)[
          exampleLogitsParams.eos_token_id]? = some FloatValue.lowest ∧
      FloatValue.lowest ≠ (⊥ : FloatValue) :=
  ⟨rfl, WithBot.coe_ne_bot⟩

/-- C8 (amended).  With `eos_token_id < vocab_size` and a score table of
`BatchBeamSize * vocab_size` entries: when `current_length < min_length`, after `MinLength` every
one of the `BatchBeamSize` score rows has its `eos_token_id` entry equal to
`numeric_limits<ScoreType>::lowest()` and every other entry of the score table is unchanged; when
`current_length ≥ min_length` the search, hence the whole score table, is unchanged. -/
theorem min_length_sets_eos_to_lowest (lowest : α) (p : SearchParams) (s : Search α)
    (min_length : Nat) (heos : p.eos_token_id < p.vocab_size)
    (htable : s.next_token_scores_.length = p.BatchBeamSize * p.vocab_size) :
    (s.GetSequenceLength < min_length →
      (∀ i, i < p.BatchBeamSize →
        (Search.GetScores p (Processors.MinLength lowest p s min_length) i)[p.eos_token_id]?
          = some lowest) ∧
      (∀ j, (∀ i, i < p.BatchBeamSize → j ≠ i * p.vocab_size + p.eos_token_id) →
        (Processors.MinLength lowest p s min_length).next_token_scores_[j]?
          = s.next_token_scores_[j]?) ∧
      (Processors.MinLength lowest p s min_length).next_token_scores_.length
        = s.next_token_scores_.length) ∧
    (min_length ≤ s.GetSequenceLength → Processors.MinLength lowest p s min_length = s) := by
  constructor
  · intro hlt
    have hlt' : ¬ (s.sequences_.GetSequenceLength ≥ min_length) := by
      have : s.sequences_.GetSequenceLength < min_length := hlt
      omega
    obtain ⟨hl, hg⟩ := MinLength.eos_loop_spec lowest p.vocab_size p.eos_token_id
      s.next_token_scores_ p.BatchBeamSize
    unfold Processors.MinLength
    rw [if_neg hlt']
    refine ⟨fun i hi => ?_, fun j hj => ?_, hl⟩
    · unfold Search.GetScores
      dsimp only
      rw [List.getElem?_take, if_pos heos, List.getElem?_drop, hg]
      have hin : i * p.vocab_size + p.eos_token_id < s.next_token_scores_.length := by
        rw [htable]
        calc i * p.vocab_size + p.eos_token_id < i * p.vocab_size + p.vocab_size := by omega
          _ = (i + 1) * p.vocab_size := by ring
          _ ≤ p.BatchBeamSize * p.vocab_size := Nat.mul_le_mul_right _ hi
      rw [if_pos ⟨⟨i, hi, rfl⟩, hin⟩]
    · dsimp only
      rw [hg]
      have : ¬ ((∃ i, i < p.BatchBeamSize ∧ j = i * p.vocab_size + p.eos_token_id) ∧
          j < s.next_token_scores_.length) := by
        rintro ⟨⟨i, hi, hji⟩, _⟩
        exact hj i hi hji
      rw [if_neg this]
  · intro hge
    have hge' : s.sequences_.GetSequenceLength ≥ min_length := hge
    unfold Processors.MinLength
    rw [if_pos hge']

theorem min_length_sets_eos_to_lowest_witness :
    ((∀ i, i < exampleLogitsParams.BatchBeamSize →
        (Search.GetScores exampleLogitsParams
          (Processors.MinLength (-1000) exampleLogitsParams exampleSearch 3) i)[
            exampleLogitsParams.eos_token_id]? = some (-1000)) ∧
      (∀ j, (∀ i, i < exampleLogitsParams.BatchBeamSize →
          j ≠ i * exampleLogitsParams.vocab_size + exampleLogitsParams.eos_token_id) →
        (Processors.MinLength (-1000) exampleLogitsParams exampleSearch 3).next_token_scores_[j]?
          = exampleSearch.next_token_scores_[j]?) ∧
      (Processors.MinLength (-1000) exampleLogitsParams exampleSearch 3).next_token_scores_.length
        = exampleSearch.next_token_scores_.length) ∧
    Processors.MinLength (-1000) exampleLogitsParams exampleSearch 2 = exampleSearch :=
  ⟨(min_length_sets_eos_to_lowest (-1000) exampleLogitsParams exampleSearch 3 (by decide)
      (by decide)).1 (by decide),
    (min_length_sets_eos_to_lowest (-1000) exampleLogitsParams exampleSearch 2 (by decide)
      (by decide)).2 (by decide)⟩

end MinLengthClaims

section FlatIndex

theorem flat_index_inj (v i i' t t' : Nat) (ht : t < v) (ht' : t' < v)
    (h : i * v + t = i' * v + t') : i = i' ∧ t = t' := by
  have hi : i = i' := by
    rcases Nat.lt_trichotomy i i' with hlt | heq | hgt
    · have : (i + 1) * v ≤ i' * v := Nat.mul_le_mul_right _ hlt
      have h2 : (i + 1) * v = i * v + v := by ring
      omega
    · exact heq
    · have : (i' + 1) * v ≤ i * v := Nat.mul_le_mul_right _ hgt
      have h2 : (i' + 1) * v = i' * v + v := by ring
      omega
  subst hi
  exact ⟨rfl, by omega⟩

theorem Search.GetScores_getD {α : Type} [Inhabited α] (p : SearchParams) (s : Search α) (i t : Nat)
    (ht : t < p.vocab_size) :
    (Search.GetScores p s i).getD t default
      = s.next_token_scores_.getD (i * p.vocab_size + t) default := by
  unfold Search.GetScores
  rw [List.getD_eq_getElem?_getD, List.getD_eq_getElem?_getD, List.getElem?_take, if_pos ht,
    List.getElem?_drop]

theorem flat_index_lt (n v i t : Nat) (hi : i < n) (ht : t < v) : i * v + t < n * v := by
  calc i * v + t < i * v + v := by omega
    _ = (i + 1) * v := by ring
    _ ≤ n * v := Nat.mul_le_mul_right _ hi

end FlatIndex

section RepetitionPenaltyClaims
variable {α : Type} [Zero α] [LT α] [DecidableRel (LT.lt : α → α → Prop)] [Mul α] [Div α]
  [Inhabited α]

theorem RepetitionPenalty.row_spec (p : SearchParams) (penalty : α) (i : Nat) (ws : List Nat)
    (hnd : ws.Nodup) (scores : List α) :
    (ws.foldl (RepetitionPenalty.penalize p penalty i) scores).length = scores.length ∧
    ∀ j, (ws.foldl (RepetitionPenalty.penalize p penalty i) scores).getD j default =
      if (∃ w, w ∈ ws ∧ j = i * p.vocab_size + w) ∧ j < scores.length then
        RepetitionPenalty.rescale penalty (scores.getD j default)
      else scores.getD j default := by
  induction ws generalizing scores with
  | nil =>
    refine ⟨rfl, fun j => ?_⟩
    have : ¬ ((∃ w, w ∈ ([] : List Nat) ∧ j = i * p.vocab_size + w) ∧ j < scores.length) := by
      rintro ⟨⟨w, hw, _⟩, _⟩; simp at hw
    rw [if_neg this]; rfl
  | cons w ws ih =>
    rw [List.nodup_cons] at hnd
    obtain ⟨ihl, ihg⟩ := ih hnd.2 (RepetitionPenalty.penalize p penalty i scores w)
    have hpl : (RepetitionPenalty.penalize p penalty i scores w).length = scores.length := by
      simp [RepetitionPenalty.penalize]
    have hpg : ∀ j, (RepetitionPenalty.penalize p penalty i scores w).getD j default =
        if i * p.vocab_size + w = j ∧ j < scores.length then
          RepetitionPenalty.rescale penalty (scores.getD j default)
        else scores.getD j default := by
      intro j
      unfold RepetitionPenalty.penalize
      dsimp only
      rw [List.getD_eq_getElem?_getD, List.getElem?_set]
      by_cases h1 : i * p.vocab_size + w = j
      · subst h1
        by_cases h2 : i * p.vocab_size + w < scores.length
        · simp [h2]
        · simp [h2, List.getElem?_eq_none (not_lt.1 h2)]
      · simp [h1]
    simp only [List.foldl_cons]
    refine ⟨by rw [ihl, hpl], fun j => ?_⟩
    rw [ihg, hpl, hpg]
    by_cases hjw : i * p.vocab_size + w = j
    · have hnot : ¬ ∃ w', w' ∈ ws ∧ j = i * p.vocab_size + w' := by
        rintro ⟨w', hw', hj⟩
        have : w' = w := by omega
        exact hnd.1 (this ▸ hw')
      have hyes : ∃ w', w' ∈ w :: ws ∧ j = i * p.vocab_size + w' :=
        ⟨w, List.mem_cons_self _ _, hjw.symm⟩
      simp only [hnot, hyes, hjw, false_and, true_and, if_false]
    · by_cases hex : ∃ w', w' ∈ ws ∧ j = i * p.vocab_size + w'
      · have hyes : ∃ w', w' ∈ w :: ws ∧ j = i * p.vocab_size + w' := by
          obtain ⟨w', hw', hj⟩ := hex
          exact ⟨w', List.mem_cons_of_mem _ hw', hj⟩
        simp only [hex, hyes, hjw, false_and, true_and, if_false]
      · have hno : ¬ ∃ w', w' ∈ w :: ws ∧ j = i * p.vocab_size + w' := by
          rintro ⟨w', hw', hj⟩
          rcases List.mem_cons.1 hw' with h | h
          · subst h; exact hjw hj.symm
          · exact hex ⟨w', h, hj⟩
        simp only [hex, hno, hjw, false_and, if_false]

theorem RepetitionPenalty.table_spec (p : SearchParams) (seqs : Sequences) (penalty : α)
    (scores : List α) (n : Nat)
    (htok : ∀ i, i < n → ∀ w, w ∈ seqs.GetSequence i → w < p.vocab_size)
    (i : Nat) (t : Nat) (ht : t < p.vocab_size) :
    ((List.range n).foldl
        (fun sc k => (seqs.GetSequence k).dedup.foldl (RepetitionPenalty.penalize p penalty k) sc)
        scores).length = scores.length ∧
    ((List.range n).foldl
        (fun sc k => (seqs.GetSequence k).dedup.foldl (RepetitionPenalty.penalize p penalty k) sc)
        scores).getD (i * p.vocab_size + t) default =
      if (i < n ∧ t ∈ seqs.GetSequence i) ∧ i * p.vocab_size + t < scores.length then
        RepetitionPenalty.rescale penalty (scores.getD (i * p.vocab_size + t) default)
      else scores.getD (i * p.vocab_size + t) default := by
  induction n with
  | zero =>
    refine ⟨rfl, ?_⟩
    have : ¬ ((i < 0 ∧ t ∈ seqs.GetSequence i) ∧ i * p.vocab_size + t < scores.length) := by
      rintro ⟨⟨h, _⟩, _⟩; omega
    rw [if_neg this]; rfl
  | succ n ih =>
    rw [List.range_succ, List.foldl_append]
    simp only [List.foldl_cons, List.foldl_nil]
    obtain ⟨ihl, ihg⟩ := ih (fun k hk => htok k (by omega))
    obtain ⟨rl, rg⟩ := RepetitionPenalty.row_spec p penalty n (seqs.GetSequence n).dedup
      (List.nodup_dedup _)
      ((List.range n).foldl
        (fun sc k => (seqs.GetSequence k).dedup.foldl (RepetitionPenalty.penalize p penalty k) sc)
        scores)
    refine ⟨by rw [rl, ihl], ?_⟩
    rw [rg, ihl, ihg]
    by_cases hin : i = n
    · subst hin
      have hfalse : ¬ ((i < i ∧ t ∈ seqs.GetSequence i) ∧
          i * p.vocab_size + t < scores.length) := by
        rintro ⟨⟨h, _⟩, _⟩; omega
      rw [if_neg hfalse]
      by_cases hmem : t ∈ seqs.GetSequence i ∧ i * p.vocab_size + t < scores.length
      · rw [if_pos ⟨⟨t, List.mem_dedup.2 hmem.1, rfl⟩, hmem.2⟩,
          if_pos ⟨⟨by omega, hmem.1⟩, hmem.2⟩]
      · have h1 : ¬ ((∃ w, w ∈ (seqs.GetSequence i).dedup ∧
            i * p.vocab_size + t = i * p.vocab_size + w) ∧
            i * p.vocab_size + t < scores.length) := by
          rintro ⟨⟨w, hw, hj⟩, hlen⟩
          have : t = w := by omega
          exact hmem ⟨this ▸ List.mem_dedup.1 hw, hlen⟩
        have h2 : ¬ ((i < i + 1 ∧ t ∈ seqs.GetSequence i) ∧
            i * p.vocab_size + t < scores.length) := fun h => hmem ⟨h.1.2, h.2⟩
        rw [if_neg h1, if_neg h2]
    · have h1 : ¬ ((∃ w, w ∈ (seqs.GetSequence n).dedup ∧
          i * p.vocab_size + t = n * p.vocab_size + w) ∧
          i * p.vocab_size + t < scores.length) := by
        rintro ⟨⟨w, hw, hj⟩, _⟩
        have hwv : w < p.vocab_size := htok n (by omega) w (List.mem_dedup.1 hw)
        exact hin (flat_index_inj p.vocab_size i n t w ht hwv hj).1
      rw [if_neg h1]
      by_cases hc : (i < n ∧ t ∈ seqs.GetSequence i) ∧ i * p.vocab_size + t < scores.length
      · rw [if_pos hc, if_pos ⟨⟨by omega, hc.1.2⟩, hc.2⟩]
      · have : ¬ ((i < n + 1 ∧ t ∈ seqs.GetSequence i) ∧
            i * p.vocab_size + t < scores.length) := by
          rintro ⟨⟨h, hm⟩, hlen⟩
          exact hc ⟨⟨by omega, hm⟩, hlen⟩
        rw [if_neg hc, if_neg this]

/-- C9.  With a score table of `BatchBeamSize * vocab_size` entries and every token id of the
sequence buffer below `vocab_size`: for every row `i` and every token id `t` that occurs, once or
several times, in the row's sequence, the score of `t` after `RepetitionPenalty` is `s * penalty`
if the old score `s` is negative and `s / penalty` otherwise, the penalty being applied once. -/
theorem repetition_penalty_on_seen_token (p : SearchParams) (s : Search α) (penalty : α)
    (htable : s.next_token_scores_.length = p.BatchBeamSize * p.vocab_size)
    (htok : ∀ k, k < p.BatchBeamSize → ∀ w, w ∈ s.sequences_.GetSequence k → w < p.vocab_size)
    (i : Nat) (hi : i < p.BatchBeamSize) (t : Nat) (hmem : t ∈ s.sequences_.GetSequence i) :
    (Search.GetScores p (Processors.RepetitionPenalty p s penalty) i).getD t default =
      if (Search.GetScores p s i).getD t default < 0
        then (Search.GetScores p s i).getD t default * penalty
        else (Search.GetScores p s i).getD t default / penalty := by
  have ht : t < p.vocab_size := htok i hi t hmem
  rw [Search.GetScores_getD p _ i t ht, Search.GetScores_getD p s i t ht]
  have h := (RepetitionPenalty.table_spec p s.sequences_ penalty s.next_token_scores_
    p.BatchBeamSize htok i t ht).2
  have hlen : i * p.vocab_size + t < s.next_token_scores_.length := by
    rw [htable]; exact flat_index_lt _ _ _ _ hi ht
  rw [if_pos ⟨⟨hi, hmem⟩, hlen⟩] at h
  exact h

theorem repetition_penalty_on_seen_token_witness :
    (Search.GetScores exampleLogitsParams
        (Processors.RepetitionPenalty exampleLogitsParams exampleSearch 2) 1).getD 1 default =
      if (Search.GetScores exampleLogitsParams exampleSearch 1).getD 1 default < 0
        then (Search.GetScores exampleLogitsParams exampleSearch 1).getD 1 default * 2
        else (Search.GetScores exampleLogitsParams exampleSearch 1).getD 1 default / 2 :=
  repetition_penalty_on_seen_token exampleLogitsParams exampleSearch 2 (by decide) (by decide)
    1 (by decide) 1 (by decide)

/-- C10.  With a score table of `BatchBeamSize * vocab_size` entries and every token id of the
sequence buffer below `vocab_size`: `RepetitionPenalty` leaves unchanged the score of every token
id `t < vocab_size` that does not occur in the row's sequence, for every row and every
penalty. -/
theorem repetition_penalty_keeps_unseen_token (p : SearchParams) (s : Search α) (penalty : α)
    (htok : ∀ k, k < p.BatchBeamSize → ∀ w, w ∈ s.sequences_.GetSequence k → w < p.vocab_size)
    (i : Nat) (t : Nat) (ht : t < p.vocab_size) (hmem : t ∉ s.sequences_.GetSequence i) :
    (Search.GetScores p (Processors.RepetitionPenalty p s penalty) i).getD t default =
      (Search.GetScores p s i).getD t default := by
  rw [Search.GetScores_getD p _ i t ht, Search.GetScores_getD p s i t ht]
  have h := (RepetitionPenalty.table_spec p s.sequences_ penalty s.next_token_scores_
    p.BatchBeamSize htok i t ht).2
  rw [if_neg (fun hc => hmem hc.1.2)] at h
  exact h

theorem repetition_penalty_keeps_unseen_token_witness :
    (Search.GetScores exampleLogitsParams
        (Processors.RepetitionPenalty exampleLogitsParams exampleSearch 2) 0).getD 1 default =
      (Search.GetScores exampleLogitsParams exampleSearch 0).getD 1 default :=
  repetition_penalty_keeps_unseen_token exampleLogitsParams exampleSearch 2 (by decide)
    0 1 (by decide) (by decide)

end RepetitionPenaltyClaims


section ListAux

theorem List.getD_drop_add {α : Type} [Inhabited α] (l : List α) (off j : Nat) :
    (l.drop off).getD j default = l.getD (off + j) default := by
  rw [List.getD_eq_getElem?_getD, List.getD_eq_getElem?_getD, List.getElem?_drop]

end ListAux

section ArgmaxScan
variable {α : Type} [LinearOrder α] [Inhabited α]

theorem SelectTop1.scan_fold_spec (base : List α) (n : Nat) :
    ((List.range' 1 n).foldl (SelectTop1.scan base) (0, base.getD 0 default)).1 < n + 1 ∧
    ((List.range' 1 n).foldl (SelectTop1.scan base) (0, base.getD 0 default)).2 =
      base.getD ((List.range' 1 n).foldl (SelectTop1.scan base) (0, base.getD 0 default)).1
        default ∧
    (∀ j, j < n + 1 → base.getD j default ≤
      ((List.range' 1 n).foldl (SelectTop1.scan base) (0, base.getD 0 default)).2) ∧
    (∀ j, j < ((List.range' 1 n).foldl (SelectTop1.scan base) (0, base.getD 0 default)).1 →
      base.getD j default <
        ((List.range' 1 n).foldl (SelectTop1.scan base) (0, base.getD 0 default)).2) := by
  induction n with
  | zero =>
    refine ⟨by simp, rfl, ?_, ?_⟩
    · intro j hj
      have : j = 0 := by omega
      subst this
      exact le_rfl
    · intro j hj
      simp at hj
  | succ n ih =>
    rw [List.range'_concat, List.foldl_append]
    simp only [List.foldl_cons, List.foldl_nil]
    obtain ⟨h1, h2, h3, h4⟩ := ih
    generalize (List.range' 1 n).foldl (SelectTop1.scan base) (0, base.getD 0 default) = acc
      at h1 h2 h3 h4
    unfold SelectTop1.scan
    rw [show 1 + 1 * n = n + 1 by ring]
    by_cases hgt : base.getD (n + 1) default > acc.2
    · rw [if_pos hgt]
      refine ⟨by simp, rfl, ?_, ?_⟩
      · intro j hj
        by_cases hjn : j = n + 1
        · subst hjn; exact le_rfl
        · exact le_of_lt (lt_of_le_of_lt (h3 j (by omega)) hgt)
      · intro j hj
        exact lt_of_le_of_lt (h3 j (by simpa using hj)) hgt
    · rw [if_neg hgt]
      refine ⟨by omega, h2, ?_, h4⟩
      intro j hj
      by_cases hjn : j = n + 1
      · subst hjn; exact not_lt.1 hgt
      · exact h3 j (by omega)

theorem SelectTop1.best_token_spec (scores : List α) (off vocab_size : Nat)
    (hv : 0 < vocab_size) :
    SelectTop1.best_token scores off vocab_size < vocab_size ∧
    (∀ j, j < vocab_size → scores.getD (off + j) default ≤
      scores.getD (off + SelectTop1.best_token scores off vocab_size) default) ∧
    (∀ j, j < SelectTop1.best_token scores off vocab_size →
      scores.getD (off + j) default <
        scores.getD (off + SelectTop1.best_token scores off vocab_size) default) := by
  obtain ⟨h1, h2, h3, h4⟩ := SelectTop1.scan_fold_spec (scores.drop off) (vocab_size - 1)
  have hn : vocab_size - 1 + 1 = vocab_size := by omega
  rw [hn] at h1 h3
  unfold SelectTop1.best_token
  refine ⟨h1, ?_, ?_⟩
  · intro j hj
    rw [← List.getD_drop_add, ← List.getD_drop_add, ← h2]
    exact h3 j hj
  · intro j hj
    rw [← List.getD_drop_add, ← List.getD_drop_add, ← h2]
    exact h4 j hj

/-- C16.  For every non-empty score vector (the `vocab_size ≥ 1` scores from the scan pointer
on), the argmax scan of `SelectTop1` returns a token id below `vocab_size` whose score is a
maximum of the vector, and it is the smallest token id attaining that maximum. -/
theorem argmax_scan_returns_first_maximum (scores : List α) (off vocab_size : Nat)
    (hv : 0 < vocab_size) :
    SelectTop1.best_token scores off vocab_size < vocab_size ∧
    (∀ j, j < vocab_size → scores.getD (off + j) default ≤
      scores.getD (off + SelectTop1.best_token scores off vocab_size) default) ∧
    (∀ j, j < vocab_size →
      scores.getD (off + j) default =
        scores.getD (off + SelectTop1.best_token scores off vocab_size) default →
      SelectTop1.best_token scores off vocab_size ≤ j) := by
  obtain ⟨h1, h2, h3⟩ := SelectTop1.best_token_spec scores off vocab_size hv
  refine ⟨h1, h2, ?_⟩
  intro j _ heq
  by_contra hlt
  have := h3 j (by omega)
  rw [heq] at this
  exact lt_irrefl _ this

theorem argmax_scan_returns_first_maximum_witness :
    SelectTop1.best_token ([3, 7, 2, 7, 1] : List Int) 1 3 < 3 ∧
    (∀ j, j < 3 → ([3, 7, 2, 7, 1] : List Int).getD (1 + j) default ≤
      ([3, 7, 2, 7, 1] : List Int).getD
        (1 + SelectTop1.best_token ([3, 7, 2, 7, 1] : List Int) 1 3) default) ∧
    (∀ j, j < 3 →
      ([3, 7, 2, 7, 1] : List Int).getD (1 + j) default =
        ([3, 7, 2, 7, 1] : List Int).getD
          (1 + SelectTop1.best_token ([3, 7, 2, 7, 1] : List Int) 1 3) default →
      SelectTop1.best_token ([3, 7, 2, 7, 1] : List Int) 1 3 ≤ j) :=
  argmax_scan_returns_first_maximum [3, 7, 2, 7, 1] 1 3 (by decide)

end ArgmaxScan

section GreedyNoEos
variable {α : Type} [LinearOrder α] [Inhabited α]

theorem SelectTop1.best_token_take (scores : List α) (off vocab_size : Nat) :
    SelectTop1.best_token ((scores.drop off).take vocab_size) 0 vocab_size =
      SelectTop1.best_token scores off vocab_size := by
  rcases Nat.eq_zero_or_pos vocab_size with h0 | hpos
  · subst h0; rfl
  · unfold SelectTop1.best_token
    rw [List.drop_zero]
    have hget : ∀ j, j < vocab_size →
        ((scores.drop off).take vocab_size).getD j default = (scores.drop off).getD j default := by
      intro j hj
      rw [List.getD_eq_getElem?_getD, List.getD_eq_getElem?_getD, List.getElem?_take, if_pos hj]
    rw [hget 0 hpos]
    congr 1
    apply List.foldl_ext
    intro acc token htok
    have hlt : token < vocab_size := by
      rw [List.mem_range'_1] at htok
      omega
    unfold SelectTop1.scan
    rw [hget token hlt]

/-- While no row before `n` had seen EOS when the loop started, the scan pointer is at
`n * vocab_size` after `n` iterations and each row received the argmax of its own scores. -/
theorem SelectTop1.loop_unseen (p : SearchParams) (s : GreedySearch α) (n : Nat)
    (hlen : n ≤ s.next_tokens_.length)
    (hun : ∀ i, i < n → s.eos_seen_.getD i false = false) :
    (SelectTop1.loop p s n).2 = n * p.vocab_size ∧
    ∀ b, b < n → (SelectTop1.loop p s n).1.next_tokens_.getD b 0 =
      SelectTop1.best_token s.next_token_scores_ (b * p.vocab_size) p.vocab_size := by
  induction n with
  | zero => exact ⟨by simp [SelectTop1.loop_zero], fun b hb => absurd hb (by omega)⟩
  | succ n ih =>
    obtain ⟨ih1, ih2⟩ := ih (by omega) (fun i hi => hun i (by omega))
    have hn : (SelectTop1.loop p s n).1.eos_seen_.getD n false = false := by
      rw [(SelectTop1.loop_untouched p s n n le_rfl).1]; exact hun n (by omega)
    have hnt : ¬ ((SelectTop1.loop p s n).1.eos_seen_.getD n false = true) := by
      rw [hn]; decide
    rw [SelectTop1.loop_succ]
    constructor
    · rw [SelectTop1.body_offset, if_neg hnt, ih1]; ring
    · intro b hb
      by_cases hbn : n = b
      · subst hbn
        rw [SelectTop1.body_next_tokens, if_neg hnt, ih1, SelectTop1.loop_scores]
        have hl : n < (SelectTop1.loop p s n).1.next_tokens_.length := by
          rw [(SelectTop1.loop_lengths p s n).2]; omega
        simp [List.getD_eq_getElem?_getD, List.getElem?_set, hl]
      · rw [(SelectTop1.body_other p _ n b hbn).2]
        exact ih2 b (by omega)

theorem GreedySearch.step_unseen (p : SearchParams) (s : GreedySearch α) (scores : List α)
    (hlen : p.batch_size ≤ s.next_tokens_.length)
    (hun : ∀ i, i < p.batch_size → s.eos_seen_.getD i false = false)
    (b : Nat) (hb : b < p.batch_size) :
    (GreedySearch.step p s scores).next_tokens_.getD b 0 =
      GreedySearch.row_argmax p scores b := by
  rw [GreedySearch.step_next_tokens]
  rw [(SelectTop1.loop_unseen p { s with next_token_scores_ := scores } p.batch_size hlen hun).2
    b hb]
  exact (SelectTop1.best_token_take scores (b * p.vocab_size) p.vocab_size).symm

theorem Sequences.getSequence_append (q : Sequences) (next_tokens : List Nat) (b : Nat)
    (hb : b < q.rows.length) :
    (q.AppendNextTokenToSequences next_tokens).GetSequence b =
      q.GetSequence b ++ [next_tokens.getD b 0] := by
  unfold Sequences.AppendNextTokenToSequences Sequences.GetSequence
  simp [List.getD_eq_getElem?_getD, hb]

theorem GreedySearch.step_sequence (p : SearchParams) (s : GreedySearch α) (scores : List α)
    (b : Nat) (hb : b < s.sequences_.rows.length) :
    (GreedySearch.step p s scores).sequences_.GetSequence b =
      s.sequences_.GetSequence b ++ [(GreedySearch.step p s scores).next_tokens_.getD b 0] ∧
    (GreedySearch.step p s scores).sequences_.rows.length = s.sequences_.rows.length := by
  have hseq : (GreedySearch.step p s scores).sequences_ =
      s.sequences_.AppendNextTokenToSequences (GreedySearch.step p s scores).next_tokens_ := by
    show (SelectTop1.loop p _ p.batch_size).1.sequences_.AppendNextTokenToSequences _ = _
    rw [SelectTop1.loop_sequences]
    rfl
  rw [hseq]
  exact ⟨Sequences.getSequence_append _ _ b hb, by simp [Sequences.AppendNextTokenToSequences]⟩

theorem GreedySearch.selected_eos_prefix (p : SearchParams) (s : GreedySearch α)
    (ts us : List (List α)) (b : Nat) (h : GreedySearch.selected_eos p s ts b = true) :
    GreedySearch.selected_eos p s (ts ++ us) b = true := by
  rw [GreedySearch.selected_eos_iff] at h ⊢
  obtain ⟨k, hk, h1, h2⟩ := h
  refine ⟨k, by rw [List.length_append]; omega, ?_, ?_⟩
  · rw [List.take_append_of_le_length (by omega)]; exact h1
  · rw [List.take_append_of_le_length (by omega)]; exact h2

theorem GreedySearch.run_rows_length (p : SearchParams) (s : GreedySearch α)
    (ts : List (List α)) :
    (GreedySearch.run p s ts).sequences_.rows.length = s.sequences_.rows.length := by
  induction ts using List.reverseRecOn with
  | nil => rfl
  | append_singleton ts t ih =>
    rw [GreedySearch.run_concat]
    have hseq : (GreedySearch.step p (GreedySearch.run p s ts) t).sequences_ =
        (GreedySearch.run p s ts).sequences_.AppendNextTokenToSequences
          (GreedySearch.step p (GreedySearch.run p s ts) t).next_tokens_ := by
      show (SelectTop1.loop p _ p.batch_size).1.sequences_.AppendNextTokenToSequences _ = _
      rw [SelectTop1.loop_sequences]
      rfl
    rw [hseq]
    simpa [Sequences.AppendNextTokenToSequences] using ih

/-- In a run in which no row selects EOS, the history of row `b` grows at every round by the
argmax of row `b` of that round's score table. -/
theorem GreedySearch.run_no_eos (p : SearchParams) (s : GreedySearch α)
    (tables : List (List α))
    (hlen1 : s.next_tokens_.length = p.batch_size) (hlen2 : s.eos_seen_.length = p.batch_size)
    (hun : ∀ i, i < p.batch_size → s.eos_seen_.getD i false = false)
    (hno : ∀ i, i < p.batch_size → GreedySearch.selected_eos p s tables i = false)
    (b : Nat) (hb : b < p.batch_size) (hrows : b < s.sequences_.rows.length) :
    (GreedySearch.run p s tables).sequences_.GetSequence b =
      s.sequences_.GetSequence b ++ tables.map fun t => GreedySearch.row_argmax p t b := by
  induction tables using List.reverseRecOn with
  | nil => simp [GreedySearch.run_nil]
  | append_singleton ts t ih =>
    have hno' : ∀ i, i < p.batch_size → GreedySearch.selected_eos p s ts i = false := by
      intro i hi
      cases hsel : GreedySearch.selected_eos p s ts i
      · rfl
      · have := GreedySearch.selected_eos_prefix p s ts [t] i hsel
        rw [hno i hi] at this
        exact absurd this (by decide)
    have hun' : ∀ i, i < p.batch_size →
        (GreedySearch.run p s ts).eos_seen_.getD i false = false := by
      intro i hi
      cases hseen : (GreedySearch.run p s ts).eos_seen_.getD i false
      · rfl
      · have := (GreedySearch.eos_seen_iff_selected p s ts i hi (by omega) (by omega)
          (hun i hi)).1 hseen
        rw [hno' i hi] at this
        exact absurd this (by decide)
    rw [GreedySearch.run_concat, List.map_append, ← List.append_assoc, ← ih hno']
    rw [(GreedySearch.step_sequence p _ t b
      (by rw [GreedySearch.run_rows_length]; exact hrows)).1]
    rw [GreedySearch.step_unseen p _ t
      (by rw [(GreedySearch.run_lengths p s ts).2, hlen1]) hun' b hb]
    rfl

end GreedyNoEos

section GreedyRunClaims
variable {α : Type} [LinearOrder α] [Inhabited α]

/-- C14.  For every greedy run with `num_beams = 1` and a prompt of shape
`(batch_size, sequence_length)`, over `max_length - sequence_length` rounds in which no row
selects EOS: the final sequence of each batch row `b` is prompt row `b` followed, in round order,
by the argmax token of row `b` of each round's score table, and it has length `max_length`. -/
theorem greedy_run_appends_row_argmax [Zero α] (p : SearchParams) (hbeams : p.num_beams = 1)
    (hids : p.input_ids.length = p.batch_size * p.sequence_length)
    (hle : p.sequence_length ≤ p.max_length) (tables : List (List α))
    (hlen : tables.length = p.max_length - p.sequence_length)
    (hno : ∀ i, i < p.batch_size →
      GreedySearch.selected_eos p (GreedySearch.new p) tables i = false)
    (b : Nat) (hb : b < p.batch_size) :
    (GreedySearch.run p (GreedySearch.new p) tables).sequences_.GetSequence b =
      (p.input_ids.drop (b * p.sequence_length)).take p.sequence_length ++
        tables.map (fun t => GreedySearch.row_argmax p t b) ∧
    ((GreedySearch.run p (GreedySearch.new p) tables).sequences_.GetSequence b).length
      = p.max_length := by
  have hrows : (GreedySearch.new p : GreedySearch α).sequences_.rows.length = p.batch_size := by
    simp [GreedySearch.new, Sequences.new, SearchParams.BatchBeamSize, hbeams]
  have hprompt : (GreedySearch.new p : GreedySearch α).sequences_.GetSequence b =
      (p.input_ids.drop (b * p.sequence_length)).take p.sequence_length := by
    simp [GreedySearch.new, Sequences.new, Sequences.GetSequence, SearchParams.BatchBeamSize,
      hbeams, List.getD_eq_getElem?_getD, hb]
  have hrun := GreedySearch.run_no_eos p (GreedySearch.new p : GreedySearch α) tables
    (by simp [GreedySearch.new]) (by simp [GreedySearch.new])
    (fun i hi => by
      simp [GreedySearch.new, List.getD_eq_getElem?_getD, List.getElem?_replicate, hi])
    hno b hb (by rw [hrows]; exact hb)
  rw [hprompt] at hrun
  refine ⟨hrun, ?_⟩
  rw [hrun, List.length_append, List.length_map, hlen, List.length_take, List.length_drop, hids]
  have h1 : b * p.sequence_length + p.sequence_length ≤ p.batch_size * p.sequence_length := by
    calc b * p.sequence_length + p.sequence_length = (b + 1) * p.sequence_length := by ring
      _ ≤ p.batch_size * p.sequence_length := Nat.mul_le_mul_right _ hb
  omega

theorem greedy_run_appends_row_argmax_witness :
    (GreedySearch.run exampleRunParams (GreedySearch.new exampleRunParams)
        exampleRunTables).sequences_.GetSequence 0 = [0, 0, 0, 2, 2, 2, 2, 2, 2, 2] ∧
    (GreedySearch.run exampleRunParams (GreedySearch.new exampleRunParams)
        exampleRunTables).sequences_.GetSequence 1 = [0, 0, 1, 3, 3, 1, 1, 1, 1, 1] := by
  have h0 := (greedy_run_appends_row_argmax exampleRunParams (by decide) (by decide) (by decide)
    exampleRunTables (by decide) (by decide) 0 (by decide)).1
  have h1 := (greedy_run_appends_row_argmax exampleRunParams (by decide) (by decide) (by decide)
    exampleRunTables (by decide) (by decide) 1 (by decide)).1
  rw [h0, h1]
  decide

end GreedyRunClaims


section MinLengthTable
variable {α : Type} [Inhabited α]

theorem MinLength.table_getD (lowest : α) (p : SearchParams) (s : Search α) (min_length : Nat)
    (hlt : s.sequences_.current_length < min_length)
    (heos : p.eos_token_id < p.vocab_size)
    (htable : s.next_token_scores_.length = p.BatchBeamSize * p.vocab_size)
    (b : Nat) (hb : b < p.BatchBeamSize) :
    (Processors.MinLength lowest p s min_length).next_token_scores_.getD
        (b * p.vocab_size + p.eos_token_id) default = lowest ∧
    ∀ tok, tok < p.vocab_size → tok ≠ p.eos_token_id →
      (Processors.MinLength lowest p s min_length).next_token_scores_.getD
        (b * p.vocab_size + tok) default = s.next_token_scores_.getD (b * p.vocab_size + tok)
          default := by
  have hlt' : ¬ (s.sequences_.GetSequenceLength ≥ min_length) := by
    have : s.sequences_.GetSequenceLength < min_length := hlt
    omega
  obtain ⟨_, hg⟩ := MinLength.eos_loop_spec lowest p.vocab_size p.eos_token_id
    s.next_token_scores_ p.BatchBeamSize
  unfold Processors.MinLength
  rw [if_neg hlt']
  dsimp only
  constructor
  · rw [List.getD_eq_getElem?_getD, hg]
    have hin : b * p.vocab_size + p.eos_token_id < s.next_token_scores_.length := by
      rw [htable]; exact flat_index_lt _ _ _ _ hb heos
    rw [if_pos ⟨⟨b, hb, rfl⟩, hin⟩]
    rfl
  · intro tok htok hne
    rw [List.getD_eq_getElem?_getD, List.getD_eq_getElem?_getD, hg]
    have : ¬ ((∃ i, i < p.BatchBeamSize ∧
        b * p.vocab_size + tok = i * p.vocab_size + p.eos_token_id) ∧
        b * p.vocab_size + tok < s.next_token_scores_.length) := by
      rintro ⟨⟨i, _, hi⟩, _⟩
      exact hne (flat_index_inj p.vocab_size b i tok p.eos_token_id htok heos hi).2
    rw [if_neg this]

end MinLengthTable

section MinLengthRun
variable {α : Type} [LinearOrder α] [Inhabited α]

theorem GreedySearch.step_min_length_eq (lowest : α) (p : SearchParams) (min_length : Nat)
    (s : GreedySearch α) (scores : List α) :
    GreedySearch.step_min_length lowest p min_length s scores =
      GreedySearch.step p s
        (Processors.MinLength lowest p { s.toSearch with next_token_scores_ := scores }
          min_length).next_token_scores_ := by
  unfold GreedySearch.step_min_length GreedySearch.step Processors.MinLength
  dsimp only
  split_ifs <;> rfl

/-- Below the minimum length, the argmax of a row whose EOS entry was set to `lowest` and which
has a non-EOS score above `lowest` is not EOS. -/
theorem MinLength.row_argmax_ne_eos (lowest : α) (p : SearchParams) (s : Search α)
    (min_length : Nat) (hlt : s.sequences_.current_length < min_length)
    (htable : s.next_token_scores_.length = p.BatchBeamSize * p.vocab_size)
    (b : Nat) (hb : b < p.BatchBeamSize)
    (hrow : ∃ tok, tok < p.vocab_size ∧ tok ≠ p.eos_token_id ∧
      lowest < s.next_token_scores_.getD (b * p.vocab_size + tok) default) :
    GreedySearch.row_argmax p (Processors.MinLength lowest p s min_length).next_token_scores_ b
      ≠ p.eos_token_id := by
  obtain ⟨tok, htok, hne, hgt⟩ := hrow
  have hv : 0 < p.vocab_size := by omega
  unfold GreedySearch.row_argmax
  rw [SelectTop1.best_token_take]
  obtain ⟨h1, h2, _⟩ := SelectTop1.best_token_spec
    (Processors.MinLength lowest p s min_length).next_token_scores_ (b * p.vocab_size)
    p.vocab_size hv
  intro heq
  rw [heq] at h1 h2
  obtain ⟨he, hframe⟩ := MinLength.table_getD lowest p s min_length hlt h1 htable b hb
  have := h2 tok htok
  rw [he, hframe tok htok hne] at this
  exact absurd hgt (not_lt.2 this)

theorem GreedySearch.run_min_length_concat (lowest : α) (p : SearchParams) (min_length : Nat)
    (s : GreedySearch α) (ts : List (List α)) (t : List α) :
    GreedySearch.run_min_length lowest p min_length s (ts ++ [t]) =
      GreedySearch.step_min_length lowest p min_length
        (GreedySearch.run_min_length lowest p min_length s ts) t := by
  simp [GreedySearch.run_min_length, List.foldl_append]

theorem GreedySearch.run_min_length_blocks (lowest : α) (p : SearchParams) (min_length : Nat)
    (hbeams : 1 ≤ p.num_beams) (s : GreedySearch α) (tables : List (List α))
    (hlen1 : s.next_tokens_.length = p.batch_size) (hlen2 : s.eos_seen_.length = p.batch_size)
    (hun : ∀ i, i < p.batch_size → s.eos_seen_.getD i false = false)
    (htables : ∀ t, t ∈ tables → t.length = p.BatchBeamSize * p.vocab_size ∧
      ∀ b, b < p.batch_size → ∃ tok, tok < p.vocab_size ∧ tok ≠ p.eos_token_id ∧
        lowest < t.getD (b * p.vocab_size + tok) default)
    (hlen : s.sequences_.current_length + tables.length ≤ min_length) :
    (GreedySearch.run_min_length lowest p min_length s tables).next_tokens_.length
      = p.batch_size ∧
    (GreedySearch.run_min_length lowest p min_length s tables).eos_seen_.length
      = p.batch_size ∧
    (GreedySearch.run_min_length lowest p min_length s tables).sequences_.current_length
      = s.sequences_.current_length + tables.length ∧
    ∀ b, b < p.batch_size →
      (GreedySearch.run_min_length lowest p min_length s tables).eos_seen_.getD b false
        = false ∧
      (tables ≠ [] →
        (GreedySearch.run_min_length lowest p min_length s tables).next_tokens_.getD b 0
          ≠ p.eos_token_id) := by
  induction tables using List.reverseRecOn with
  | nil =>
    exact ⟨hlen1, hlen2, rfl, fun b hb => ⟨hun b hb, fun h => absurd rfl h⟩⟩
  | append_singleton ts t ih =>
    rw [List.length_append, List.length_singleton] at hlen
    obtain ⟨i1, i2, i3, i4⟩ := ih (fun u hu => htables u (List.mem_append_left _ hu))
      (by omega)
    obtain ⟨ht1, ht2⟩ := htables t (List.mem_append_right _ (List.mem_singleton_self t))
    rw [GreedySearch.run_min_length_concat, GreedySearch.step_min_length_eq]
    generalize GreedySearch.run_min_length lowest p min_length s ts = r at i1 i2 i3 i4
    have hbb : p.batch_size ≤ p.BatchBeamSize := by
      unfold SearchParams.BatchBeamSize
      exact Nat.le_mul_of_pos_left _ hbeams
    have htok : ∀ b, b < p.batch_size →
        (GreedySearch.step p r (Processors.MinLength lowest p
          { r.toSearch with next_token_scores_ := t } min_length).next_token_scores_
          ).next_tokens_.getD b 0 ≠ p.eos_token_id := by
      intro b hb
      rw [GreedySearch.step_unseen p r _ (by rw [i1]) (fun i hi => (i4 i hi).1) b hb]
      exact MinLength.row_argmax_ne_eos lowest p { r.toSearch with next_token_scores_ := t }
        min_length (by show r.sequences_.current_length < min_length; omega) ht1 b
        (by omega) (ht2 b hb)
    refine ⟨by rw [(GreedySearch.step_lengths p r _).2, i1],
      by rw [(GreedySearch.step_lengths p r _).1, i2],
      by rw [GreedySearch.greedy_step_current_length, i3, List.length_append,
        List.length_singleton]; omega, ?_⟩
    intro b hb
    refine ⟨?_, fun _ => htok b hb⟩
    cases hseen : (GreedySearch.step p r (Processors.MinLength lowest p
        { r.toSearch with next_token_scores_ := t } min_length).next_token_scores_
        ).eos_seen_.getD b false
    · rfl
    · exact absurd (GreedySearch.step_fresh p r _ b (by omega) (i4 b hb).1 hseen) (htok b hb)

/-- C15.  In a greedy run in which `MinLength(min_length)` is applied to the scores before each
`SelectTop1` and every row of every score table has a non-EOS token scoring above `lowest`: as
long as every round starts with `current_length < min_length`, no batch row selects
`eos_token_id` and no row is finished; and at a round that starts with
`current_length ≥ min_length`, a row whose argmax is EOS does select it. -/
theorem min_length_blocks_early_eos [Zero α] (lowest : α) (p : SearchParams) (min_length : Nat)
    (hbeams : 1 ≤ p.num_beams) :
    (∀ tables : List (List α),
      (∀ t, t ∈ tables → t.length = p.BatchBeamSize * p.vocab_size ∧
        ∀ b, b < p.batch_size → ∃ tok, tok < p.vocab_size ∧ tok ≠ p.eos_token_id ∧
          lowest < t.getD (b * p.vocab_size + tok) default) →
      p.sequence_length + tables.length ≤ min_length →
      ∀ b, b < p.batch_size →
        (GreedySearch.run_min_length lowest p min_length (GreedySearch.new p)
          tables).eos_seen_.getD b false = false ∧
        (tables ≠ [] →
          (GreedySearch.run_min_length lowest p min_length (GreedySearch.new p)
            tables).next_tokens_.getD b 0 ≠ p.eos_token_id)) ∧
    (∀ (s : GreedySearch α) (t : List α) (b : Nat),
      s.next_tokens_.length = p.batch_size → s.eos_seen_.length = p.batch_size →
      (∀ i, i < p.batch_size → s.eos_seen_.getD i false = false) →
      min_length ≤ s.toSearch.GetSequenceLength → b < p.batch_size →
      GreedySearch.row_argmax p t b = p.eos_token_id →
      (GreedySearch.step_min_length lowest p min_length s t).next_tokens_.getD b 0
          = p.eos_token_id ∧
        (GreedySearch.step_min_length lowest p min_length s t).eos_seen_.getD b false
          = true) := by
  constructor
  · intro tables htables hlen b hb
    exact (GreedySearch.run_min_length_blocks lowest p min_length hbeams
      (GreedySearch.new p : GreedySearch α) tables (by simp [GreedySearch.new])
      (by simp [GreedySearch.new])
      (fun i hi => by
        simp [GreedySearch.new, List.getD_eq_getElem?_getD, List.getElem?_replicate, hi])
      htables hlen).2.2.2 b hb
  · intro s t b hl1 hl2 hun hge hb harg
    have hid : Processors.MinLength lowest p { s.toSearch with next_token_scores_ := t }
        min_length = { s.toSearch with next_token_scores_ := t } := by
      have hge' : ({ s.toSearch with next_token_scores_ := t } : Search α
          ).sequences_.GetSequenceLength ≥ min_length := hge
      unfold Processors.MinLength
      exact if_pos hge'
    rw [GreedySearch.step_min_length_eq, hid]
    have htok := GreedySearch.step_unseen p s t (by rw [hl1]) hun b hb
    rw [harg] at htok
    exact ⟨htok, GreedySearch.step_eos p s t b hb (by omega) (by omega) htok⟩

end MinLengthRun

section MinLengthRunWitness

theorem min_length_blocks_early_eos_witness :
    ((GreedySearch.run_min_length (-1000) exampleMinLengthParams 5
        (GreedySearch.new exampleMinLengthParams)
        [exampleEosStrongest, exampleEosStrongest, exampleEosStrongest]).eos_seen_.getD 0 false
        = false ∧
      ([exampleEosStrongest, exampleEosStrongest, exampleEosStrongest] ≠ [] →
        (GreedySearch.run_min_length (-1000) exampleMinLengthParams 5
          (GreedySearch.new exampleMinLengthParams)
          [exampleEosStrongest, exampleEosStrongest, exampleEosStrongest]).next_tokens_.getD 0 0
          ≠ exampleMinLengthParams.eos_token_id)) ∧
    ((GreedySearch.step_min_length (-1000) exampleMinLengthParams 5
        (GreedySearch.run_min_length (-1000) exampleMinLengthParams 5
          (GreedySearch.new exampleMinLengthParams)
          [exampleEosStrongest, exampleEosStrongest, exampleEosStrongest])
        exampleEosStrongest).next_tokens_.getD 0 0 = exampleMinLengthParams.eos_token_id ∧
      (GreedySearch.step_min_length (-1000) exampleMinLengthParams 5
        (GreedySearch.run_min_length (-1000) exampleMinLengthParams 5
          (GreedySearch.new exampleMinLengthParams)
          [exampleEosStrongest, exampleEosStrongest, exampleEosStrongest])
        exampleEosStrongest).eos_seen_.getD 0 false = true) :=
  ⟨(min_length_blocks_early_eos (-1000) exampleMinLengthParams 5 (by decide)).1
      [exampleEosStrongest, exampleEosStrongest, exampleEosStrongest] (by decide) (by decide)
      0 (by decide),
    (min_length_blocks_early_eos (-1000) exampleMinLengthParams 5 (by decide)).2
      (GreedySearch.run_min_length (-1000) exampleMinLengthParams 5
        (GreedySearch.new exampleMinLengthParams)
        [exampleEosStrongest, exampleEosStrongest, exampleEosStrongest])
      exampleEosStrongest 0 (by decide) (by decide) (by decide) (by decide) (by decide)
      (by decide)⟩

end MinLengthRunWitness


section BeamReindex
variable {α : Type} [Add α] [Inhabited α]

/-- C13.  After a beam step (`SelectTopK`), for every beam row `i` of the sequence buffer,
`GetSequence(i)` is the pre-step history of the row named by `next_indices[i]` followed by
`next_tokens[i]`, where `next_indices` and `next_tokens` are the arrays of the scorer after its
`Process` call of that step; `current_length` has grown by one. -/
theorem beam_step_reindexes_histories (pq : PriorityQueue (ScoreIndex α))
    (sc : BeamSearchScorer α) (p : SearchParams) (s : BeamSearch α sc.S) (i : Nat)
    (hi : i < s.sequences_.rows.length) :
    (BeamSearch.SelectTopK pq sc p s).sequences_.GetSequence i =
      s.sequences_.GetSequence
          ((sc.GetNextIndicesCPU (BeamSearch.SelectTopK pq sc p s).beam_scorer_).getD i 0) ++
        [(sc.GetNextTokens (BeamSearch.SelectTopK pq sc p s).beam_scorer_).getD i 0] ∧
    (BeamSearch.SelectTopK pq sc p s).next_tokens_ =
      sc.GetNextTokens (BeamSearch.SelectTopK pq sc p s).beam_scorer_ ∧
    (BeamSearch.SelectTopK pq sc p s).sequences_.current_length =
      s.sequences_.current_length + 1 := by
  refine ⟨?_, rfl, rfl⟩
  unfold BeamSearch.SelectTopK BeamSearch.AppendNextTokensToSequences
    Sequences.AppendNextTokenToSequencesBeam Sequences.GetSequence
  simp [List.getD_eq_getElem?_getD, hi]

end BeamReindex

section BeamReindexWitness

theorem beam_step_reindexes_histories_witness :
    (BeamSearch.SelectTopK listQueue exampleReindexScorer exampleBeamParams
        exampleBeamState).sequences_.GetSequence 0 = [5, 6, 7] ∧
    (BeamSearch.SelectTopK listQueue exampleReindexScorer exampleBeamParams
        exampleBeamState).sequences_.GetSequence 1 = [3, 4, 8] := by
  have h0 := (beam_step_reindexes_histories listQueue exampleReindexScorer exampleBeamParams
    exampleBeamState 0 (by decide)).1
  have h1 := (beam_step_reindexes_histories listQueue exampleReindexScorer exampleBeamParams
    exampleBeamState 1 (by decide)).1
  rw [h0, h1]
  decide

end BeamReindexWitness

section SetLogitsCheck
variable {α : Type}

/-- C19.  With `BatchBeamSize * vocab_size > 0`: `SetLogits` rejects (line 45, before the row
loop writes any score) every logits buffer whose size is not a multiple of
`BatchBeamSize * vocab_size`, and accepts every buffer whose size is such a multiple, leaving
the sequences and the done flag as they were. -/
theorem set_logits_checks_buffer_size (log_softmax : List α → List α) (p : SearchParams)
    (s : Search α) (logits : List α) (hpos : 0 < p.BatchBeamSize * p.vocab_size) :
    (logits.length % (p.BatchBeamSize * p.vocab_size) ≠ 0 →
      Search.SetLogits log_softmax p s logits = none) ∧
    (logits.length % (p.BatchBeamSize * p.vocab_size) = 0 →
      ∃ s', Search.SetLogits log_softmax p s logits = some s' ∧
        s'.sequences_ = s.sequences_ ∧ s'.done_ = s.done_) := by
  constructor
  · intro h
    unfold Search.SetLogits
    dsimp only
    rw [if_neg (by omega), if_pos h]
  · intro h
    unfold Search.SetLogits
    dsimp only
    rw [if_neg (by omega), if_neg (by rw [h]; simp)]
    exact ⟨_, rfl, rfl, rfl⟩

theorem set_logits_checks_buffer_size_witness :
    Search.SetLogits (fun r => r.map (· + 100)) exampleLogitsParams exampleSearch
        [1, 2, 3, 4, 5, 6, 7] = none ∧
    ∃ s', Search.SetLogits (fun r => r.map (· + 100)) exampleLogitsParams exampleSearch
        [1, 2, 3, 4, 5, 6, 7, 8, 9, 10, 11, 12] = some s' ∧
      s'.sequences_ = exampleSearch.sequences_ ∧ s'.done_ = exampleSearch.done_ :=
  ⟨(set_logits_checks_buffer_size (fun r => r.map (· + 100)) exampleLogitsParams exampleSearch
      [1, 2, 3, 4, 5, 6, 7] (by decide)).1 (by decide),
    (set_logits_checks_buffer_size (fun r => r.map (· + 100)) exampleLogitsParams exampleSearch
      [1, 2, 3, 4, 5, 6, 7, 8, 9, 10, 11, 12] (by decide)).2 (by decide)⟩

end SetLogitsCheck

section RoamingCopy

theorem cudaMemcpy_whole {T : Type} (src : List T) (d : T) :
    cudaMemcpy (List.replicate src.length d) src src.length = src := by
  simp [cudaMemcpy]

end RoamingCopy

section RoamingClaims
variable {T : Type} [Inhabited T]

theorem RoamingArray.GetCPUArray_spec (r : RoamingArray T) :
    r.GetCPUArray.2 = r.GetCPUArray.1.cpu_memory_ ∧
    r.GetCPUArray.1.device_memory_ = r.device_memory_ ∧
    (r.cpu_memory_ = [] → r.GetCPUArray.1.cpu_memory_ = r.device_memory_) ∧
    (r.cpu_memory_ ≠ [] → r.GetCPUArray.1 = r) := by
  unfold RoamingArray.GetCPUArray
  by_cases hc : r.cpu_memory_ = []
  · by_cases hd : r.device_memory_ = []
    · simp [hc, hd]
    · simp [hc, hd]
      exact cudaMemcpy_whole _ _
  · simp [hc]

theorem RoamingArray.GetGPUArray_spec (r : RoamingArray T) :
    r.GetGPUArray.2 = r.GetGPUArray.1.device_memory_ ∧
    r.GetGPUArray.1.cpu_memory_ = r.cpu_memory_ ∧
    (r.device_memory_ = [] → r.GetGPUArray.1.device_memory_ = r.cpu_memory_) ∧
    (r.device_memory_ ≠ [] → r.GetGPUArray.1 = r) := by
  unfold RoamingArray.GetGPUArray
  by_cases hd : r.device_memory_ = []
  · by_cases hc : r.cpu_memory_ = []
    · simp [hc, hd]
    · simp [hc, hd]
      exact cudaMemcpy_whole _ _
  · simp [hd]

/-- Each side is empty or holds the most recently declared span, and one side holds it. -/
theorem RoamingArray.run_sides (ops : List (RoamingOp T)) :
    ((RoamingArray.run ops).cpu_memory_ = (RoamingOp.declared ops).getD [] ∨
      (RoamingArray.run ops).cpu_memory_ = []) ∧
    ((RoamingArray.run ops).device_memory_ = (RoamingOp.declared ops).getD [] ∨
      (RoamingArray.run ops).device_memory_ = []) ∧
    ((RoamingArray.run ops).cpu_memory_ = (RoamingOp.declared ops).getD [] ∨
      (RoamingArray.run ops).device_memory_ = (RoamingOp.declared ops).getD []) := by
  induction ops using List.reverseRecOn with
  | nil => simp [RoamingArray.run, RoamingArray.new, RoamingOp.declared]
  | append_singleton ops op ih =>
    have hrun : RoamingArray.run (ops ++ [op]) = (RoamingArray.run ops).apply op := by
      simp [RoamingArray.run, List.foldl_append]
    rw [hrun]
    cases op with
    | set_host cpu =>
      simp [RoamingOp.declared, List.foldl_append, RoamingArray.apply, RoamingArray.SetCPU]
    | set_device device =>
      simp [RoamingOp.declared, List.foldl_append, RoamingArray.apply, RoamingArray.SetGPU]
    | as_host =>
      have hd : RoamingOp.declared (ops ++ [RoamingOp.as_host]) = RoamingOp.declared ops := by
        simp [RoamingOp.declared, List.foldl_append]
      obtain ⟨_, h2, h3, h4⟩ := RoamingArray.GetCPUArray_spec (RoamingArray.run ops)
      obtain ⟨i1, i2, i3⟩ := ih
      rw [hd]
      show ((RoamingArray.run ops).GetCPUArray.1.cpu_memory_ = _ ∨
          (RoamingArray.run ops).GetCPUArray.1.cpu_memory_ = _) ∧
        ((RoamingArray.run ops).GetCPUArray.1.device_memory_ = _ ∨
          (RoamingArray.run ops).GetCPUArray.1.device_memory_ = _) ∧
        ((RoamingArray.run ops).GetCPUArray.1.cpu_memory_ = _ ∨
          (RoamingArray.run ops).GetCPUArray.1.device_memory_ = _)
      by_cases hc : (RoamingArray.run ops).cpu_memory_ = []
      · rw [h2, h3 hc]
        rcases i3 with h | h
        · rw [hc] at h
          rw [← h] at i2 ⊢
          exact ⟨i2, i2, i2⟩
        · exact ⟨Or.inl h, i2, Or.inl h⟩
      · rw [h4 hc]
        exact ⟨i1, i2, i3⟩
    | as_device =>
      have hd : RoamingOp.declared (ops ++ [RoamingOp.as_device]) = RoamingOp.declared ops := by
        simp [RoamingOp.declared, List.foldl_append]
      obtain ⟨_, h2, h3, h4⟩ := RoamingArray.GetGPUArray_spec (RoamingArray.run ops)
      obtain ⟨i1, i2, i3⟩ := ih
      rw [hd]
      show ((RoamingArray.run ops).GetGPUArray.1.cpu_memory_ = _ ∨
          (RoamingArray.run ops).GetGPUArray.1.cpu_memory_ = _) ∧
        ((RoamingArray.run ops).GetGPUArray.1.device_memory_ = _ ∨
          (RoamingArray.run ops).GetGPUArray.1.device_memory_ = _) ∧
        ((RoamingArray.run ops).GetGPUArray.1.cpu_memory_ = _ ∨
          (RoamingArray.run ops).GetGPUArray.1.device_memory_ = _)
      by_cases hc : (RoamingArray.run ops).device_memory_ = []
      · rw [h2, h3 hc]
        rcases i3 with h | h
        · exact ⟨i1, Or.inl h, Or.inl h⟩
        · rw [hc] at h
          rw [← h] at i1 ⊢
          exact ⟨i1, i1, i1⟩
      · rw [h4 hc]
        exact ⟨i1, i2, i3⟩

/-- C17.  After every sequence of `set_host` / `set_device` / `as_host` / `as_device` operations
in which a span has been declared, `as_host` and `as_device` each return the contents (hence
the element count) of the span most recently declared by `set_host` or `set_device`; the call
changes the array, by copying across sides, only when the requested side is empty. -/
theorem roaming_array_returns_declared_span (ops : List (RoamingOp T)) (span : List T)
    (h : RoamingOp.declared ops = some span) :
    (RoamingArray.run ops).GetCPUArray.2 = span ∧
    (RoamingArray.run ops).GetGPUArray.2 = span ∧
    ((RoamingArray.run ops).cpu_memory_ ≠ [] →
      (RoamingArray.run ops).GetCPUArray.1 = RoamingArray.run ops) ∧
    ((RoamingArray.run ops).device_memory_ ≠ [] →
      (RoamingArray.run ops).GetGPUArray.1 = RoamingArray.run ops) := by
  obtain ⟨i1, i2, i3⟩ := RoamingArray.run_sides ops
  rw [h, Option.getD_some] at i1 i2 i3
  obtain ⟨c1, _, c3, c4⟩ := RoamingArray.GetCPUArray_spec (RoamingArray.run ops)
  obtain ⟨g1, _, g3, g4⟩ := RoamingArray.GetGPUArray_spec (RoamingArray.run ops)
  refine ⟨?_, ?_, c4, g4⟩
  · rw [c1]
    by_cases hc : (RoamingArray.run ops).cpu_memory_ = []
    · rw [c3 hc]
      rcases i3 with h3 | h3
      · rcases i2 with h2 | h2
        · exact h2
        · rw [h2, ← hc]; exact h3
      · exact h3
    · rw [c4 hc]
      rcases i1 with h1 | h1
      · exact h1
      · exact absurd h1 hc
  · rw [g1]
    by_cases hd : (RoamingArray.run ops).device_memory_ = []
    · rw [g3 hd]
      rcases i3 with h3 | h3
      · exact h3
      · rcases i1 with h1 | h1
        · exact h1
        · rw [h1, ← hd]; exact h3
    · rw [g4 hd]
      rcases i2 with h2 | h2
      · exact h2
      · exact absurd h2 hd

theorem roaming_array_returns_declared_span_witness :
    (RoamingArray.run [RoamingOp.set_device [1, 2], RoamingOp.as_host,
        RoamingOp.set_device [(3 : Nat)], RoamingOp.as_device]).GetCPUArray.2 = [3] ∧
    (RoamingArray.run [RoamingOp.set_device [1, 2], RoamingOp.as_host,
        RoamingOp.set_device [(3 : Nat)], RoamingOp.as_device]).GetGPUArray.2 = [3] :=
  ⟨(roaming_array_returns_declared_span [RoamingOp.set_device [1, 2], RoamingOp.as_host,
      RoamingOp.set_device [(3 : Nat)], RoamingOp.as_device] [3] rfl).1,
    (roaming_array_returns_declared_span [RoamingOp.set_device [1, 2], RoamingOp.as_host,
      RoamingOp.set_device [(3 : Nat)], RoamingOp.as_device] [3] rfl).2.1⟩

/-- C18 (counterexample).  After `set_device` of a non-empty span followed by `as_host`, the
host span and the device span are both non-empty: the host copy is kept next to the declared
device span. -/
theorem roaming_array_holds_both_sides :
    (RoamingArray.run [RoamingOp.set_device [(1 : Nat), 2], RoamingOp.as_host]).cpu_memory_
        = [1, 2] ∧
      (RoamingArray.run [RoamingOp.set_device [(1 : Nat), 2], RoamingOp.as_host]).device_memory_
        = [1, 2] := by
  decide

/-- C18 (amended).  In every state reachable by `set_host`, `set_device`, `as_host` and
`as_device`, each of the host span and the device span is empty or holds the most recently
declared span, so when both are non-empty they hold the same contents; right after `set_host`
the device span is empty and right after `set_device` the host span is empty.  After a
cross-side access, that is `as_host` after `set_device` of a non-empty span or `as_device` after
`set_host` of a non-empty span, both spans hold the declared span and are non-empty; more
generally `as_host` in a state whose device span is non-empty, and `as_device` in a state whose
host span is non-empty, leave both spans non-empty. -/
theorem roaming_array_sides_agree (ops : List (RoamingOp T)) :
    ((RoamingArray.run ops).cpu_memory_ = (RoamingOp.declared ops).getD [] ∨
      (RoamingArray.run ops).cpu_memory_ = []) ∧
    ((RoamingArray.run ops).device_memory_ = (RoamingOp.declared ops).getD [] ∨
      (RoamingArray.run ops).device_memory_ = []) ∧
    ((RoamingArray.run ops).cpu_memory_ ≠ [] → (RoamingArray.run ops).device_memory_ ≠ [] →
      (RoamingArray.run ops).cpu_memory_ = (RoamingArray.run ops).device_memory_) ∧
    (∀ span, (RoamingArray.run (ops ++ [RoamingOp.set_host span])).device_memory_ = [] ∧
      (RoamingArray.run (ops ++ [RoamingOp.set_device span])).cpu_memory_ = []) ∧
    (∀ span, span ≠ [] →
      ((RoamingArray.run (ops ++ [RoamingOp.set_device span, RoamingOp.as_host])).cpu_memory_
          = span ∧
        (RoamingArray.run (ops ++ [RoamingOp.set_device span, RoamingOp.as_host])).device_memory_
          = span ∧
        (RoamingArray.run (ops ++ [RoamingOp.set_device span, RoamingOp.as_host])).cpu_memory_
          ≠ [] ∧
        (RoamingArray.run (ops ++ [RoamingOp.set_device span, RoamingOp.as_host])).device_memory_
          ≠ []) ∧
      ((RoamingArray.run (ops ++ [RoamingOp.set_host span, RoamingOp.as_device])).cpu_memory_
          = span ∧
        (RoamingArray.run (ops ++ [RoamingOp.set_host span, RoamingOp.as_device])).device_memory_
          = span ∧
        (RoamingArray.run (ops ++ [RoamingOp.set_host span, RoamingOp.as_device])).cpu_memory_
          ≠ [] ∧
        (RoamingArray.run (ops ++ [RoamingOp.set_host span, RoamingOp.as_device])).device_memory_
          ≠ [])) ∧
    ((RoamingArray.run ops).device_memory_ ≠ [] →
      (RoamingArray.run (ops ++ [RoamingOp.as_host])).cpu_memory_ ≠ [] ∧
      (RoamingArray.run (ops ++ [RoamingOp.as_host])).device_memory_ ≠ []) ∧
    ((RoamingArray.run ops).cpu_memory_ ≠ [] →
      (RoamingArray.run (ops ++ [RoamingOp.as_device])).cpu_memory_ ≠ [] ∧
      (RoamingArray.run (ops ++ [RoamingOp.as_device])).device_memory_ ≠ []) := by
  obtain ⟨i1, i2, _⟩ := RoamingArray.run_sides ops
  have hstep : ∀ op : RoamingOp T,
      RoamingArray.run (ops ++ [op]) = (RoamingArray.run ops).apply op := by
    intro op
    simp [RoamingArray.run, List.foldl_append]
  have hstep2 : ∀ op1 op2 : RoamingOp T,
      RoamingArray.run (ops ++ [op1, op2]) = ((RoamingArray.run ops).apply op1).apply op2 := by
    intro op1 op2
    simp [RoamingArray.run, List.foldl_append]
  refine ⟨i1, i2, ?_, ?_, ?_, ?_, ?_⟩
  · intro hc hd
    rcases i1 with h1 | h1
    · rcases i2 with h2 | h2
      · rw [h1, h2]
      · exact absurd h2 hd
    · exact absurd h1 hc
  · intro span
    simp [RoamingArray.run, List.foldl_append, RoamingArray.apply, RoamingArray.SetCPU,
      RoamingArray.SetGPU]
  · intro span hspan
    constructor
    · rw [hstep2]
      obtain ⟨_, g2, g3, _⟩ :=
        RoamingArray.GetCPUArray_spec ((RoamingArray.run ops).SetGPU span)
      have hc : ((RoamingArray.run ops).SetGPU span).GetCPUArray.1.cpu_memory_ = span := g3 rfl
      have hd : ((RoamingArray.run ops).SetGPU span).GetCPUArray.1.device_memory_ = span := g2
      exact ⟨hc, hd, fun h => hspan (hc.symm.trans h), fun h => hspan (hd.symm.trans h)⟩
    · rw [hstep2]
      obtain ⟨_, g2, g3, _⟩ :=
        RoamingArray.GetGPUArray_spec ((RoamingArray.run ops).SetCPU span)
      have hd : ((RoamingArray.run ops).SetCPU span).GetGPUArray.1.device_memory_ = span := g3 rfl
      have hc : ((RoamingArray.run ops).SetCPU span).GetGPUArray.1.cpu_memory_ = span := g2
      exact ⟨hc, hd, fun h => hspan (hc.symm.trans h), fun h => hspan (hd.symm.trans h)⟩
  · intro hd
    rw [hstep]
    obtain ⟨_, g2, g3, g4⟩ := RoamingArray.GetCPUArray_spec (RoamingArray.run ops)
    have hd2 : (RoamingArray.run ops).GetCPUArray.1.device_memory_ ≠ [] := by
      rw [g2]
      exact hd
    refine ⟨?_, hd2⟩
    by_cases hc : (RoamingArray.run ops).cpu_memory_ = []
    · show (RoamingArray.run ops).GetCPUArray.1.cpu_memory_ ≠ []
      rw [g3 hc]
      exact hd
    · show (RoamingArray.run ops).GetCPUArray.1.cpu_memory_ ≠ []
      rw [g4 hc]
      exact hc
  · intro hc
    rw [hstep]
    obtain ⟨_, g2, g3, g4⟩ := RoamingArray.GetGPUArray_spec (RoamingArray.run ops)
    have hc2 : (RoamingArray.run ops).GetGPUArray.1.cpu_memory_ ≠ [] := by
      rw [g2]
      exact hc
    refine ⟨hc2, ?_⟩
    by_cases hd : (RoamingArray.run ops).device_memory_ = []
    · show (RoamingArray.run ops).GetGPUArray.1.device_memory_ ≠ []
      rw [g3 hd]
      exact hc
    · show (RoamingArray.run ops).GetGPUArray.1.device_memory_ ≠ []
      rw [g4 hd]
      exact hd

/-- After `set_host [3]`, declaring the device span `[1, 2]` and reading it on the host leaves
`[1, 2]` on both sides. -/
theorem roaming_array_sides_agree_witness :
    ([(1 : Nat), 2] ≠ []) ∧
    (RoamingArray.run [RoamingOp.set_host [(3 : Nat)], RoamingOp.set_device [1, 2],
        RoamingOp.as_host]).cpu_memory_ = [1, 2] ∧
    (RoamingArray.run [RoamingOp.set_host [(3 : Nat)], RoamingOp.set_device [1, 2],
        RoamingOp.as_host]).device_memory_ = [1, 2] ∧
    (RoamingArray.run [RoamingOp.set_host [(3 : Nat)], RoamingOp.set_device [1, 2],
        RoamingOp.as_host]).cpu_memory_ ≠ [] ∧
    (RoamingArray.run [RoamingOp.set_host [(3 : Nat)], RoamingOp.set_device [1, 2],
        RoamingOp.as_host]).device_memory_ ≠ [] :=
  ⟨by decide,
    ((roaming_array_sides_agree [RoamingOp.set_host [(3 : Nat)]]).2.2.2.2.1 [1, 2]
      (by decide)).1⟩

end RoamingClaims


section GptInputsClaims

theorem CreateInputsInternal.column_fold_spec (p : SearchParams) (sequence_length : Nat)
    (word_id : List Nat) (i : Nat) (g : GptInputs) (n : Nat) :
    ((List.range n).foldl (CreateInputsInternal.column p sequence_length word_id i) (g, 0)).2 =
      (List.range n).countP
        (fun c => decide (word_id.getD (i * sequence_length + c) 0 ≠ p.pad_token_id)) ∧
    ((List.range n).foldl (CreateInputsInternal.column p sequence_length word_id i)
      (g, 0)).1.sequence_lengths = g.sequence_lengths ∧
    ((List.range n).foldl (CreateInputsInternal.column p sequence_length word_id i)
      (g, 0)).1.attention_mask.length = g.attention_mask.length ∧
    ((List.range n).foldl (CreateInputsInternal.column p sequence_length word_id i)
      (g, 0)).1.position_ids.length = g.position_ids.length ∧
    (∀ idx,
      ((List.range n).foldl (CreateInputsInternal.column p sequence_length word_id i)
        (g, 0)).1.attention_mask[idx]? =
        if i * sequence_length ≤ idx ∧ idx < i * sequence_length + n ∧
            idx < g.attention_mask.length then
          some (Gpt.attention_mask_spec p sequence_length word_id i (idx - i * sequence_length))
        else g.attention_mask[idx]?) ∧
    (∀ idx,
      ((List.range n).foldl (CreateInputsInternal.column p sequence_length word_id i)
        (g, 0)).1.position_ids[idx]? =
        if i * sequence_length ≤ idx ∧ idx < i * sequence_length + n ∧
            idx < g.position_ids.length then
          some (Gpt.position_ids_spec p sequence_length word_id i (idx - i * sequence_length))
        else g.position_ids[idx]?) := by
  induction n with
  | zero =>
    refine ⟨rfl, rfl, rfl, rfl, fun idx => ?_, fun idx => ?_⟩
    · rw [if_neg (by omega)]; rfl
    · rw [if_neg (by omega)]; rfl
  | succ n ih =>
    rw [List.range_succ, List.foldl_append]
    simp only [List.foldl_cons, List.foldl_nil]
    obtain ⟨h1, h2, h3, h4, h5, h6⟩ := ih
    generalize (List.range n).foldl (CreateInputsInternal.column p sequence_length word_id i)
      (g, 0) = r at h1 h2 h3 h4 h5 h6
    rw [List.countP_append, List.countP_singleton]
    unfold CreateInputsInternal.column
    by_cases hpad : word_id.getD (i * sequence_length + n) 0 = p.pad_token_id
    · rw [if_pos hpad]
      have hpad' := hpad
      rw [List.getD_eq_getElem?_getD] at hpad'
      dsimp only
      refine ⟨by rw [h1]; simp [hpad'], h2, by rw [List.length_set, h3],
        by rw [List.length_set, h4], fun idx => ?_, fun idx => ?_⟩
      · rw [List.getElem?_set, h3, h5]
        by_cases hidx : i * sequence_length + n = idx
        · subst hidx
          rw [if_pos rfl]
          by_cases hl : i * sequence_length + n < g.attention_mask.length
          · rw [if_pos hl, if_pos ⟨by omega, by omega, hl⟩]
            simp [Gpt.attention_mask_spec, hpad']
          · rw [if_neg hl, if_neg (by omega)]
            exact (List.getElem?_eq_none (by omega)).symm
        · rw [if_neg hidx]
          by_cases hc : i * sequence_length ≤ idx ∧ idx < i * sequence_length + n ∧
              idx < g.attention_mask.length
          · rw [if_pos hc, if_pos ⟨hc.1, by omega, hc.2.2⟩]
          · rw [if_neg hc, if_neg (by omega)]
      · rw [List.getElem?_set, h4, h6]
        by_cases hidx : i * sequence_length + n = idx
        · subst hidx
          rw [if_pos rfl]
          by_cases hl : i * sequence_length + n < g.position_ids.length
          · rw [if_pos hl, if_pos ⟨by omega, by omega, hl⟩]
            simp [Gpt.position_ids_spec, hpad']
          · rw [if_neg hl, if_neg (by omega)]
            exact (List.getElem?_eq_none (by omega)).symm
        · rw [if_neg hidx]
          by_cases hc : i * sequence_length ≤ idx ∧ idx < i * sequence_length + n ∧
              idx < g.position_ids.length
          · rw [if_pos hc, if_pos ⟨hc.1, by omega, hc.2.2⟩]
          · rw [if_neg hc, if_neg (by omega)]
    · rw [if_neg hpad]
      have hpad' := hpad
      rw [List.getD_eq_getElem?_getD] at hpad'
      dsimp only
      refine ⟨by rw [h1]; simp [hpad'], h2, by rw [List.length_set, h3],
        by rw [List.length_set, h4], fun idx => ?_, fun idx => ?_⟩
      · rw [List.getElem?_set, h3, h5]
        by_cases hidx : i * sequence_length + n = idx
        · subst hidx
          rw [if_pos rfl]
          by_cases hl : i * sequence_length + n < g.attention_mask.length
          · rw [if_pos hl, if_pos ⟨by omega, by omega, hl⟩]
            simp [Gpt.attention_mask_spec, hpad']
          · rw [if_neg hl, if_neg (by omega)]
            exact (List.getElem?_eq_none (by omega)).symm
        · rw [if_neg hidx]
          by_cases hc : i * sequence_length ≤ idx ∧ idx < i * sequence_length + n ∧
              idx < g.attention_mask.length
          · rw [if_pos hc, if_pos ⟨hc.1, by omega, hc.2.2⟩]
          · rw [if_neg hc, if_neg (by omega)]
      · rw [List.getElem?_set, h4, h6]
        by_cases hidx : i * sequence_length + n = idx
        · subst hidx
          rw [if_pos rfl]
          by_cases hl : i * sequence_length + n < g.position_ids.length
          · rw [if_pos hl, if_pos ⟨by omega, by omega, hl⟩]
            simp [Gpt.position_ids_spec, hpad', h1]
          · rw [if_neg hl, if_neg (by omega)]
            exact (List.getElem?_eq_none (by omega)).symm
        · rw [if_neg hidx]
          by_cases hc : i * sequence_length ≤ idx ∧ idx < i * sequence_length + n ∧
              idx < g.position_ids.length
          · rw [if_pos hc, if_pos ⟨hc.1, by omega, hc.2.2⟩]
          · rw [if_neg hc, if_neg (by omega)]

end GptInputsClaims

section GptInputsRows

theorem CreateInputsInternal.row_fold_spec (p : SearchParams) (sequence_length : Nat)
    (word_id : List Nat) (g : GptInputs) (i : Nat) :
    (CreateInputsInternal.row p sequence_length word_id g i).attention_mask.length
      = g.attention_mask.length ∧
    (CreateInputsInternal.row p sequence_length word_id g i).position_ids.length
      = g.position_ids.length ∧
    (∀ idx,
      (CreateInputsInternal.row p sequence_length word_id g i).attention_mask[idx]? =
        if i * sequence_length ≤ idx ∧ idx < i * sequence_length + sequence_length ∧
            idx < g.attention_mask.length then
          some (Gpt.attention_mask_spec p sequence_length word_id i (idx - i * sequence_length))
        else g.attention_mask[idx]?) ∧
    (∀ idx,
      (CreateInputsInternal.row p sequence_length word_id g i).position_ids[idx]? =
        if i * sequence_length ≤ idx ∧ idx < i * sequence_length + sequence_length ∧
            idx < g.position_ids.length then
          some (Gpt.position_ids_spec p sequence_length word_id i (idx - i * sequence_length))
        else g.position_ids[idx]?) := by
  obtain ⟨_, _, h3, h4, h5, h6⟩ :=
    CreateInputsInternal.column_fold_spec p sequence_length word_id i g sequence_length
  exact ⟨h3, h4, h5, h6⟩

theorem Gpt.CreateInputsInternal_fold_spec (p : SearchParams) (sequence_length : Nat)
    (word_id : List Nat) (init : GptInputs) (m : Nat) :
    ((List.range m).foldl (CreateInputsInternal.row p sequence_length word_id)
      init).attention_mask.length = init.attention_mask.length ∧
    ((List.range m).foldl (CreateInputsInternal.row p sequence_length word_id)
      init).position_ids.length = init.position_ids.length ∧
    (∀ i j, i < m → j < sequence_length →
      (i * sequence_length + j < init.attention_mask.length →
        ((List.range m).foldl (CreateInputsInternal.row p sequence_length word_id)
          init).attention_mask[i * sequence_length + j]? =
          some (Gpt.attention_mask_spec p sequence_length word_id i j)) ∧
      (i * sequence_length + j < init.position_ids.length →
        ((List.range m).foldl (CreateInputsInternal.row p sequence_length word_id)
          init).position_ids[i * sequence_length + j]? =
          some (Gpt.position_ids_spec p sequence_length word_id i j))) ∧
    (∀ idx, m * sequence_length ≤ idx →
      ((List.range m).foldl (CreateInputsInternal.row p sequence_length word_id)
        init).attention_mask[idx]? = init.attention_mask[idx]? ∧
      ((List.range m).foldl (CreateInputsInternal.row p sequence_length word_id)
        init).position_ids[idx]? = init.position_ids[idx]?) := by
  induction m with
  | zero => exact ⟨rfl, rfl, fun i j hi => absurd hi (by omega), fun idx _ => ⟨rfl, rfl⟩⟩
  | succ m ih =>
    rw [List.range_succ, List.foldl_append]
    simp only [List.foldl_cons, List.foldl_nil]
    obtain ⟨i1, i2, i3, i4⟩ := ih
    generalize (List.range m).foldl (CreateInputsInternal.row p sequence_length word_id) init
      = g at i1 i2 i3 i4
    obtain ⟨r1, r2, r3, r4⟩ := CreateInputsInternal.row_fold_spec p sequence_length word_id g m
    have hsucc : (m + 1) * sequence_length = m * sequence_length + sequence_length := by ring
    refine ⟨by rw [r1, i1], by rw [r2, i2], ?_, ?_⟩
    · intro i j hi hj
      by_cases him : i = m
      · subst him
        constructor
        · intro hl
          rw [r3, if_pos ⟨by omega, by omega, by omega⟩, Nat.add_sub_cancel_left]
        · intro hl
          rw [r4, if_pos ⟨by omega, by omega, by omega⟩, Nat.add_sub_cancel_left]
      · have hlt : i * sequence_length + j < m * sequence_length :=
          flat_index_lt m sequence_length i j (by omega) hj
        constructor
        · intro hl
          rw [r3, if_neg (by omega)]
          exact (i3 i j (by omega) hj).1 hl
        · intro hl
          rw [r4, if_neg (by omega)]
          exact (i3 i j (by omega) hj).2 hl
    · intro idx hidx
      rw [r3, r4, if_neg (by omega), if_neg (by omega)]
      exact i4 idx (by omega)

/-- C20.  For a prompt `input_ids` of shape `(batch_size, sequence_length)` and buffers of that
shape, after `CreateInputsInternal`, at every position `(i, j)`: the attention mask is 1 if
`input_ids[i][j]` is not the pad token and 0 otherwise, and the position id is the number of
non-pad tokens of row `i` at the columns before `j` if `input_ids[i][j]` is not the pad token
and 0 if it is. -/
theorem gpt_inputs_mask_and_position (p : SearchParams) (batch_size sequence_length : Nat)
    (word_id : List Nat) (init : GptInputs)
    (hmask : init.attention_mask.length = batch_size * sequence_length)
    (hpos : init.position_ids.length = batch_size * sequence_length)
    (i j : Nat) (hi : i < batch_size) (hj : j < sequence_length) :
    (Gpt.CreateInputsInternal p batch_size sequence_length word_id
        init).attention_mask[i * sequence_length + j]? =
      some (if word_id.getD (i * sequence_length + j) 0 ≠ p.pad_token_id then 1 else 0) ∧
    (Gpt.CreateInputsInternal p batch_size sequence_length word_id
        init).position_ids[i * sequence_length + j]? =
      some (if word_id.getD (i * sequence_length + j) 0 ≠ p.pad_token_id then
          (List.range j).countP
            (fun c => decide (word_id.getD (i * sequence_length + c) 0 ≠ p.pad_token_id))
        else 0) := by
  obtain ⟨_, _, h3, _⟩ :=
    Gpt.CreateInputsInternal_fold_spec p sequence_length word_id init batch_size
  have hlt := flat_index_lt batch_size sequence_length i j hi hj
  exact ⟨(h3 i j hi hj).1 (by rw [hmask]; exact hlt), (h3 i j hi hj).2 (by rw [hpos]; exact hlt)⟩

theorem gpt_inputs_mask_and_position_witness :
    (Gpt.CreateInputsInternal exampleGptParams 2 4 exampleGptParams.input_ids
        exampleGptBuffers).attention_mask[1 * 4 + 2]? = some 1 ∧
    (Gpt.CreateInputsInternal exampleGptParams 2 4 exampleGptParams.input_ids
        exampleGptBuffers).position_ids[1 * 4 + 2]? = some 1 ∧
    (Gpt.CreateInputsInternal exampleGptParams 2 4 exampleGptParams.input_ids
        exampleGptBuffers).attention_mask = [0, 0, 1, 1, 1, 0, 1, 1] ∧
    (Gpt.CreateInputsInternal exampleGptParams 2 4 exampleGptParams.input_ids
        exampleGptBuffers).position_ids = [0, 0, 0, 1, 0, 0, 1, 2] := by
  have h := gpt_inputs_mask_and_position exampleGptParams 2 4 exampleGptParams.input_ids
    exampleGptBuffers (by decide) (by decide) 1 2 (by decide) (by decide)
  refine ⟨?_, ?_, by decide, by decide⟩
  · rw [h.1]; decide
  · rw [h.2]; decide

end GptInputsRows


section TopKPops
variable {α : Type} [LinearOrder α]

theorem SelectTopK.pop_top_spec (pq : PriorityQueue (ScoreIndex α))
    (elems : pq.Q → Multiset (ScoreIndex α)) (hlaw : pq.Lawful elems) (k : Nat) (q : pq.Q)
    (hk : k ≤ Multiset.card (elems q)) :
    (SelectTopK.pop_top pq k q).length = k ∧
    ∃ rest : Multiset (ScoreIndex α),
      elems q = ((SelectTopK.pop_top pq k q : List (ScoreIndex α)) : Multiset (ScoreIndex α))
        + rest ∧
      (SelectTopK.pop_top pq k q).Pairwise (fun a b => b.score ≤ a.score) ∧
      ∀ a, a ∈ SelectTopK.pop_top pq k q → ∀ e, e ∈ rest → e.score ≤ a.score := by
  induction k generalizing q with
  | zero =>
    refine ⟨rfl, elems q, ?_, List.Pairwise.nil, ?_⟩
    · simp [SelectTopK.pop_top]
    · intro a ha
      simp [SelectTopK.pop_top] at ha
  | succ k ih =>
    have hne : elems q ≠ 0 := by
      intro h0
      rw [h0] at hk
      simp at hk
    obtain ⟨htop, hmax⟩ := hlaw.2.2.1 q hne
    have hpop := hlaw.2.2.2 q hne
    have hcard : k ≤ Multiset.card (elems (pq.pop q)) := by
      have : Multiset.card (elems q) = Multiset.card (elems (pq.pop q)) + 1 := by
        rw [hpop, Multiset.card_cons]
      omega
    obtain ⟨hl, rest, hrest, hsorted, hle⟩ := ih (pq.pop q) hcard
    have hmax' : ∀ e, e ∈ elems q → e.score ≤ (pq.top q).score :=
      fun e he => not_lt.1 (hmax e he)
    have hsub : ∀ e, e ∈ elems (pq.pop q) → e ∈ elems q := by
      intro e he
      rw [hpop]
      exact Multiset.mem_cons_of_mem he
    refine ⟨by simp [SelectTopK.pop_top, hl], rest, ?_, ?_, ?_⟩
    · show elems q = ((pq.top q :: SelectTopK.pop_top pq k (pq.pop q) : List (ScoreIndex α)) :
        Multiset (ScoreIndex α)) + rest
      rw [hpop, hrest, ← Multiset.cons_coe, Multiset.cons_add]
    · show (pq.top q :: SelectTopK.pop_top pq k (pq.pop q)).Pairwise _
      refine List.Pairwise.cons ?_ hsorted
      intro b hb
      apply hmax'
      apply hsub
      rw [hrest]
      exact Multiset.mem_add.2 (Or.inl (Multiset.mem_coe.2 hb))
    · intro a ha e he
      have ha' : a = pq.top q ∨ a ∈ SelectTopK.pop_top pq k (pq.pop q) := by
        simpa [SelectTopK.pop_top] using ha
      rcases ha' with rfl | ha'
      · apply hmax'
        apply hsub
        rw [hrest]
        exact Multiset.mem_add.2 (Or.inr he)
      · exact hle a ha' e he

end TopKPops

section TopKSelection
variable {α : Type} [LinearOrder α] [Inhabited α]

theorem SelectTopK.fill_queue_elems (pq : PriorityQueue (ScoreIndex α))
    (elems : pq.Q → Multiset (ScoreIndex α)) (hlaw : pq.Lawful elems) (sub : List α) (n : Nat) :
    elems (SelectTopK.fill_queue pq sub n) =
      (((List.range n).map fun i => (⟨sub.getD i default, i⟩ : ScoreIndex α) :
        List (ScoreIndex α)) : Multiset (ScoreIndex α)) := by
  unfold SelectTopK.fill_queue
  induction n with
  | zero => simpa using hlaw.1
  | succ n ih =>
    rw [List.range_succ, List.foldl_append, List.map_append]
    simp only [List.foldl_cons, List.foldl_nil, List.map_cons, List.map_nil]
    rw [hlaw.2.1, ih, ← Multiset.coe_add, Multiset.coe_singleton, add_comm,
      Multiset.singleton_add]

/-- The candidates emitted for one batch row by a lawful queue: `2 * num_beams` of them, each a
flat index below `num_beams * vocab_size` with its score, no flat index twice, in non-increasing
score order, and every flat index left out scores no more than any emitted one. -/
theorem SelectTopK.candidates_spec (pq : PriorityQueue (ScoreIndex α))
    (elems : pq.Q → Multiset (ScoreIndex α)) (hlaw : pq.Lawful elems) (p : SearchParams)
    (hv : 2 ≤ p.vocab_size) (scores : List α) (batch_index : Nat) :
    (SelectTopK.candidates pq p scores batch_index).length = 2 * p.num_beams ∧
    (∀ v, v ∈ SelectTopK.candidates pq p scores batch_index →
      v.index < p.num_beams * p.vocab_size ∧
      v.score = ((scores.drop (batch_index * p.num_beams * p.vocab_size)).take
        (p.num_beams * p.vocab_size)).getD v.index default) ∧
    ((SelectTopK.candidates pq p scores batch_index).map fun v => v.index).Nodup ∧
    (SelectTopK.candidates pq p scores batch_index).Pairwise (fun a b => b.score ≤ a.score) ∧
    ∀ i, i < p.num_beams * p.vocab_size →
      i ∉ (SelectTopK.candidates pq p scores batch_index).map (fun v => v.index) →
      ∀ v, v ∈ SelectTopK.candidates pq p scores batch_index →
        ((scores.drop (batch_index * p.num_beams * p.vocab_size)).take
          (p.num_beams * p.vocab_size)).getD i default ≤ v.score := by
  unfold SelectTopK.candidates
  generalize (scores.drop (batch_index * p.num_beams * p.vocab_size)).take
    (p.num_beams * p.vocab_size) = sub
  have hfill := SelectTopK.fill_queue_elems pq elems hlaw sub (p.num_beams * p.vocab_size)
  have hcard : 2 * p.num_beams ≤
      Multiset.card (elems (SelectTopK.fill_queue pq sub (p.num_beams * p.vocab_size))) := by
    rw [hfill, Multiset.coe_card, List.length_map, List.length_range, Nat.mul_comm 2]
    exact Nat.mul_le_mul_left _ hv
  obtain ⟨hlen, rest, hrest, hsorted, hle⟩ := SelectTopK.pop_top_spec pq elems hlaw
    (2 * p.num_beams) (SelectTopK.fill_queue pq sub (p.num_beams * p.vocab_size)) hcard
  generalize SelectTopK.pop_top pq (2 * p.num_beams)
    (SelectTopK.fill_queue pq sub (p.num_beams * p.vocab_size)) = out at hlen hrest hsorted hle
  rw [hfill] at hrest
  have hmem : ∀ v, v ∈ out → v.index < p.num_beams * p.vocab_size ∧
      v.score = sub.getD v.index default := by
    intro v hv'
    have : v ∈ (((List.range (p.num_beams * p.vocab_size)).map
        fun i => (⟨sub.getD i default, i⟩ : ScoreIndex α) : List (ScoreIndex α)) :
        Multiset (ScoreIndex α)) := by
      rw [hrest]
      exact Multiset.mem_add.2 (Or.inl (Multiset.mem_coe.2 hv'))
    rw [Multiset.mem_coe, List.mem_map] at this
    obtain ⟨i, hi, rfl⟩ := this
    exact ⟨List.mem_range.1 hi, rfl⟩
  have hnodupM : (((List.range (p.num_beams * p.vocab_size)).map
      fun i => (⟨sub.getD i default, i⟩ : ScoreIndex α) : List (ScoreIndex α)) :
      Multiset (ScoreIndex α)).Nodup := by
    rw [Multiset.coe_nodup]
    apply List.Nodup.map _ (List.nodup_range _)
    intro a b hab
    exact congrArg ScoreIndex.index hab
  have hnodup : out.Nodup := by
    rw [← Multiset.coe_nodup]
    apply Multiset.nodup_of_le _ hnodupM
    rw [hrest]
    exact Multiset.le_add_right _ _
  refine ⟨hlen, hmem, ?_, hsorted, ?_⟩
  · apply List.Nodup.map_on _ hnodup
    intro a ha b hb hab
    obtain ⟨_, h1⟩ := hmem a ha
    obtain ⟨_, h2⟩ := hmem b hb
    cases a
    cases b
    simp only at hab h1 h2
    subst hab
    rw [h1, h2]
  · intro i hi hnot v hv'
    have hin : (⟨sub.getD i default, i⟩ : ScoreIndex α) ∈
        (((List.range (p.num_beams * p.vocab_size)).map
          fun i => (⟨sub.getD i default, i⟩ : ScoreIndex α) : List (ScoreIndex α)) :
          Multiset (ScoreIndex α)) := by
      rw [Multiset.mem_coe]
      exact List.mem_map.2 ⟨i, List.mem_range.2 hi, rfl⟩
    rw [hrest] at hin
    rcases Multiset.mem_add.1 hin with h | h
    · exfalso
      apply hnot
      exact List.mem_map.2 ⟨_, Multiset.mem_coe.1 h, rfl⟩
    · exact hle v hv' _ h

end TopKSelection

section ListQueueFold
variable {α : Type} [LinearOrder α]

theorem listQueue_fold_max (l : List (ScoreIndex α)) (b : ScoreIndex α) :
    l.foldl (fun best e => if best.score < e.score then e else best) b ∈ b :: l ∧
    ∀ e, e ∈ b :: l →
      e.score ≤ (l.foldl (fun best e => if best.score < e.score then e else best) b).score := by
  induction l generalizing b with
  | nil =>
    refine ⟨List.mem_singleton_self b, fun e he => ?_⟩
    rw [List.mem_singleton] at he
    subst he
    exact le_rfl
  | cons x l ih =>
    simp only [List.foldl_cons]
    by_cases hlt : b.score < x.score
    · rw [if_pos hlt]
      obtain ⟨h1, h2⟩ := ih x
      refine ⟨List.mem_cons_of_mem _ h1, fun e he => ?_⟩
      rcases List.mem_cons.1 he with rfl | he
      · exact le_trans (le_of_lt hlt) (h2 x (List.mem_cons_self _ _))
      · exact h2 e he
    · rw [if_neg hlt]
      obtain ⟨h1, h2⟩ := ih b
      refine ⟨?_, fun e he => ?_⟩
      · rcases List.mem_cons.1 h1 with h | h
        · rw [h]; exact List.mem_cons_self _ _
        · exact List.mem_cons_of_mem _ (List.mem_cons_of_mem _ h)
      · rcases List.mem_cons.1 he with rfl | he
        · exact h2 _ (List.mem_cons_self _ _)
        · rcases List.mem_cons.1 he with rfl | he
          · exact le_trans (not_lt.1 hlt) (h2 b (List.mem_cons_self _ _))
          · exact h2 e (List.mem_cons_of_mem _ he)

theorem listQueue_erase_top (l : List (ScoreIndex α)) (t : ScoreIndex α) (ht : t ∈ l) :
    Multiset.ofList l = t ::ₘ Multiset.ofList
      (l.eraseP fun e => decide (e.score = t.score) && decide (e.index = t.index)) := by
  obtain ⟨a, l₁, l₂, _, hpa, hsplit, herase⟩ :=
    @List.exists_of_eraseP _
      (fun e : ScoreIndex α => decide (e.score = t.score) && decide (e.index = t.index)) l t ht
      (by simp)
  have ha : a = t := by
    simp only [Bool.and_eq_true, decide_eq_true_eq] at hpa
    cases a
    cases t
    simp only at hpa
    rw [hpa.1, hpa.2]
  rw [herase, ← ha]
  conv_lhs => rw [hsplit]
  rw [Multiset.cons_coe]
  exact Multiset.coe_eq_coe.2 List.perm_middle

end ListQueueFold

section ListQueueLaws
variable {α : Type} [LinearOrder α] [Inhabited α]

/-- The list-backed queue satisfies the contract of `std::priority_queue`. -/
theorem listQueue_lawful :
    (listQueue : PriorityQueue (ScoreIndex α)).Lawful
      (fun q : List (ScoreIndex α) => Multiset.ofList q) := by
  have htop : ∀ q : List (ScoreIndex α), q ≠ [] →
      q.foldl (fun best e => if best.score < e.score then e else best)
        (q.headD ⟨default, 0⟩) ∈ q ∧
      ∀ e, e ∈ q → e.score ≤ (q.foldl (fun best e => if best.score < e.score then e else best)
        (q.headD ⟨default, 0⟩)).score := by
    intro q hq
    cases q with
    | nil => exact absurd rfl hq
    | cons x l =>
      obtain ⟨h1, h2⟩ := listQueue_fold_max (x :: l) x
      refine ⟨?_, fun e he => h2 e (List.mem_cons_of_mem _ he)⟩
      rcases List.mem_cons.1 h1 with h | h
      · simp only [List.headD_cons]
        rw [h]
        exact List.mem_cons_self _ _
      · exact h
  have hne : ∀ q : List (ScoreIndex α), Multiset.ofList q ≠ 0 → q ≠ [] := by
    intro q hq h
    apply hq
    rw [h]
    rfl
  have hpush : ∀ (q : List (ScoreIndex α)) (e : ScoreIndex α),
      Multiset.ofList (q ++ [e]) = e ::ₘ Multiset.ofList q := by
    intro q e
    rw [← Multiset.coe_add, Multiset.coe_singleton, add_comm, Multiset.singleton_add]
  refine ⟨rfl, hpush, ?_, ?_⟩
  · intro q hq
    obtain ⟨h1, h2⟩ := htop q (hne q hq)
    exact ⟨Multiset.mem_coe.2 h1, fun e he => not_lt.2 (h2 e (Multiset.mem_coe.1 he))⟩
  · intro q hq
    obtain ⟨h1, _⟩ := htop q (hne q hq)
    exact listQueue_erase_top q _ h1

end ListQueueLaws

section TopKClaims
variable {α : Type} [LinearOrder α] [Inhabited α]

/-- C12 (amended).  In the top-2K selection of `SelectTopK`, over a priority queue that meets the
contract of `std::priority_queue`, the order is decided by score: when flat index `i` of a batch
row has a strictly greater score than flat index `j`, then `i` is emitted before `j` whenever
both are emitted, and `i` is emitted whenever `j` is. -/
theorem beam_top_k_orders_by_score (pq : PriorityQueue (ScoreIndex α))
    (elems : pq.Q → Multiset (ScoreIndex α)) (hlaw : pq.Lawful elems) (p : SearchParams)
    (hv : 2 ≤ p.vocab_size) (scores : List α) (batch_index : Nat) (i j : Nat)
    (hi : i < p.num_beams * p.vocab_size)
    (hlt : ((scores.drop (batch_index * p.num_beams * p.vocab_size)).take
        (p.num_beams * p.vocab_size)).getD j default <
      ((scores.drop (batch_index * p.num_beams * p.vocab_size)).take
        (p.num_beams * p.vocab_size)).getD i default) :
    (∀ m n : Nat, ((SelectTopK.candidates pq p scores batch_index).map fun v => v.index)[m]? = some i →
      ((SelectTopK.candidates pq p scores batch_index).map fun v => v.index)[n]? = some j →
      m < n) ∧
    (j ∈ (SelectTopK.candidates pq p scores batch_index).map (fun v => v.index) →
      i ∈ (SelectTopK.candidates pq p scores batch_index).map (fun v => v.index)) := by
  obtain ⟨_, hmem, _, hsorted, hout⟩ :=
    SelectTopK.candidates_spec pq elems hlaw p hv scores batch_index
  generalize SelectTopK.candidates pq p scores batch_index = out at hmem hsorted hout
  generalize (scores.drop (batch_index * p.num_beams * p.vocab_size)).take
    (p.num_beams * p.vocab_size) = sub at hmem hout hlt
  constructor
  · intro m n hm hn
    rw [List.getElem?_map] at hm hn
    cases ha : out[m]? with
    | none => rw [ha] at hm; simp at hm
    | some a =>
      cases hb : out[n]? with
      | none => rw [hb] at hn; simp at hn
      | some b =>
        rw [ha] at hm
        rw [hb] at hn
        simp only [Option.map_some', Option.some.injEq] at hm hn
        have ham : a ∈ out := List.mem_iff_getElem?.2 ⟨m, ha⟩
        have hbm : b ∈ out := List.mem_iff_getElem?.2 ⟨n, hb⟩
        have hsa : a.score = sub.getD i default := by rw [(hmem a ham).2, hm]
        have hsb : b.score = sub.getD j default := by rw [(hmem b hbm).2, hn]
        by_contra hmn
        have hnm : n ≤ m := not_lt.1 hmn
        rcases Nat.lt_or_eq_of_le hnm with hnm | hnm
        · have hle : a.score ≤ b.score := by
            obtain ⟨hn', hbn⟩ := List.getElem?_eq_some_iff.1 hb
            obtain ⟨hm', ham'⟩ := List.getElem?_eq_some_iff.1 ha
            have := List.pairwise_iff_getElem.1 hsorted n m hn' hm' hnm
            rw [hbn, ham'] at this
            exact this
          rw [hsa, hsb] at hle
          exact absurd hlt (not_lt.2 hle)
        · subst hnm
          rw [ha] at hb
          cases hb
          rw [hsa] at hsb
          rw [hsb] at hlt
          exact lt_irrefl _ hlt
  · intro hj
    by_contra hni
    obtain ⟨b, hbm, hbj⟩ := List.mem_map.1 hj
    have hle := hout i hi hni b hbm
    rw [(hmem b hbm).2, hbj] at hle
    exact absurd hlt (not_lt.2 hle)

end TopKClaims

section TopKWitnesses

/-- C12 (counterexample).  Six flat indices with equal scores, `num_beams = 2`,
`vocab_size = 3`, the queue being the binary heap of libstdc++: the four emitted flat indices
are `0, 2, 5, 4`.  Index 5 is emitted before the lower index 4 of the same score, and of the
equal-scored indices 1 and 2 only the higher one is emitted. -/
theorem beam_top_k_ties_not_by_lower_index :
    (SelectTopK.candidates stdHeapQueue exampleTopKParams exampleTieScores 0).map
      (fun v => v.index) = [0, 2, 5, 4] := by
  decide

/-- With different scores the binary heap of libstdc++ emits the four best flat indices, best
first, as the list-backed queue does. -/
theorem stdHeapQueue_emits_best_first :
    (SelectTopK.candidates stdHeapQueue exampleTopKParams exampleTopKScores 0).map
      (fun v => (v.score, v.index)) = [(9, 4), (7, 2), (5, 0), (3, 3)] := by
  decide

/-- In the table `[5, 1, 7, 3, 9, 2]` flat index 4 (score 9) outscores flat index 2 (score 7):
it is emitted first, and it is emitted since index 2 is. -/
theorem beam_top_k_orders_by_score_witness :
    4 < exampleTopKParams.num_beams * exampleTopKParams.vocab_size ∧
    ((exampleTopKScores.drop (0 * exampleTopKParams.num_beams * exampleTopKParams.vocab_size)).take
        (exampleTopKParams.num_beams * exampleTopKParams.vocab_size)).getD 2 default <
      ((exampleTopKScores.drop
          (0 * exampleTopKParams.num_beams * exampleTopKParams.vocab_size)).take
        (exampleTopKParams.num_beams * exampleTopKParams.vocab_size)).getD 4 default ∧
    (∀ m n : Nat, ((SelectTopK.candidates listQueue exampleTopKParams exampleTopKScores 0).map
        fun v => v.index)[m]? = some 4 →
      ((SelectTopK.candidates listQueue exampleTopKParams exampleTopKScores 0).map
        fun v => v.index)[n]? = some 2 → m < n) ∧
    (2 ∈ (SelectTopK.candidates listQueue exampleTopKParams exampleTopKScores 0).map
        (fun v => v.index) →
      4 ∈ (SelectTopK.candidates listQueue exampleTopKParams exampleTopKScores 0).map
        (fun v => v.index)) :=
  ⟨by decide, by decide, beam_top_k_orders_by_score (listQueue : PriorityQueue (ScoreIndex Int))
    (fun q : List (ScoreIndex Int) => Multiset.ofList q) listQueue_lawful
    exampleTopKParams (by decide) exampleTopKScores 0 4 2 (by decide) (by decide)⟩

end TopKWitnesses


section TopKQueueStates
variable {α : Type} [LinearOrder α]

theorem SelectTopK.pop_queue_card (pq : PriorityQueue (ScoreIndex α))
    (elems : pq.Q → Multiset (ScoreIndex α)) (hlaw : pq.Lawful elems) (i : Nat) (q : pq.Q)
    (hi : i ≤ Multiset.card (elems q)) :
    Multiset.card (elems (SelectTopK.pop_queue pq i q)) = Multiset.card (elems q) - i := by
  induction i generalizing q with
  | zero => rfl
  | succ i ih =>
    have hne : elems q ≠ 0 := by
      intro h0
      rw [h0] at hi
      simp at hi
    have hcard : Multiset.card (elems q) = Multiset.card (elems (pq.pop q)) + 1 := by
      conv_lhs => rw [hlaw.2.2.2 q hne]
      rw [Multiset.card_cons]
    show Multiset.card (elems (SelectTopK.pop_queue pq i (pq.pop q))) = _
    rw [ih (pq.pop q) (by omega)]
    omega

end TopKQueueStates

section TopKRounds
variable {α : Type}

theorem SelectTopK.pop_top_round (pq : PriorityQueue (ScoreIndex α)) (n i : Nat) (q : pq.Q)
    (hi : i < n) :
    (SelectTopK.pop_top pq n q)[i]? = some (pq.top (SelectTopK.pop_queue pq i q)) := by
  induction n generalizing i q with
  | zero => omega
  | succ n ih =>
    cases i with
    | zero => simp [SelectTopK.pop_top, SelectTopK.pop_queue]
    | succ i =>
      show (pq.top q :: SelectTopK.pop_top pq n (pq.pop q))[i + 1]? = _
      rw [List.getElem?_cons_succ]
      exact ih i (pq.pop q) (by omega)

end TopKRounds

section TopKQueueClaims
variable {α : Type} [LinearOrder α] [Inhabited α]

/-- C25.  For `vocab_size ≥ 2` (any `num_beams`), over a priority queue that meets the contract
of `std::priority_queue`: `2 * num_beams ≤ num_beams * vocab_size`, and at the start of each of
the `2 * num_beams` rounds of the pop loop of a batch row the queue holds
`num_beams * vocab_size - i` elements, so it is not empty when `top` and `pop` are called;
the candidate emitted in round `i` is the `top` of that queue. -/
theorem beam_top_k_pops_nonempty_queue (pq : PriorityQueue (ScoreIndex α))
    (elems : pq.Q → Multiset (ScoreIndex α)) (hlaw : pq.Lawful elems) (p : SearchParams)
    (hv : 2 ≤ p.vocab_size) (scores : List α) (batch_index : Nat) :
    2 * p.num_beams ≤ p.num_beams * p.vocab_size ∧
    ∀ i, i < 2 * p.num_beams →
      elems (SelectTopK.pop_queue pq i (SelectTopK.fill_queue pq
        ((scores.drop (batch_index * p.num_beams * p.vocab_size)).take
          (p.num_beams * p.vocab_size)) (p.num_beams * p.vocab_size))) ≠ 0 ∧
      Multiset.card (elems (SelectTopK.pop_queue pq i (SelectTopK.fill_queue pq
        ((scores.drop (batch_index * p.num_beams * p.vocab_size)).take
          (p.num_beams * p.vocab_size)) (p.num_beams * p.vocab_size))))
        = p.num_beams * p.vocab_size - i ∧
      (SelectTopK.candidates pq p scores batch_index)[i]? =
        some (pq.top (SelectTopK.pop_queue pq i (SelectTopK.fill_queue pq
          ((scores.drop (batch_index * p.num_beams * p.vocab_size)).take
            (p.num_beams * p.vocab_size)) (p.num_beams * p.vocab_size)))) := by
  have hle : 2 * p.num_beams ≤ p.num_beams * p.vocab_size := by
    rw [Nat.mul_comm 2]
    exact Nat.mul_le_mul_left _ hv
  refine ⟨hle, fun i hi => ?_⟩
  unfold SelectTopK.candidates
  generalize (scores.drop (batch_index * p.num_beams * p.vocab_size)).take
    (p.num_beams * p.vocab_size) = sub
  have hfill : Multiset.card (elems (SelectTopK.fill_queue pq sub (p.num_beams * p.vocab_size)))
      = p.num_beams * p.vocab_size := by
    rw [SelectTopK.fill_queue_elems pq elems hlaw sub (p.num_beams * p.vocab_size),
      Multiset.coe_card, List.length_map, List.length_range]
  have hcard := SelectTopK.pop_queue_card pq elems hlaw i
    (SelectTopK.fill_queue pq sub (p.num_beams * p.vocab_size)) (by omega)
  rw [hfill] at hcard
  refine ⟨?_, hcard, ?_⟩
  · intro h0
    rw [h0] at hcard
    simp at hcard
    omega
  · exact SelectTopK.pop_top_round pq (2 * p.num_beams) i _ hi

end TopKQueueClaims

section TopKQueueWitnesses

/-- With two beams over three tokens the queue holds six candidates and four are popped. -/
theorem beam_top_k_pops_nonempty_queue_witness :
    2 ≤ exampleTopKParams.vocab_size ∧
    2 * exampleTopKParams.num_beams ≤ exampleTopKParams.num_beams * exampleTopKParams.vocab_size ∧
    ∀ i, i < 2 * exampleTopKParams.num_beams →
      Multiset.ofList (SelectTopK.pop_queue listQueue i (SelectTopK.fill_queue listQueue
        ((exampleTopKScores.drop
            (0 * exampleTopKParams.num_beams * exampleTopKParams.vocab_size)).take
          (exampleTopKParams.num_beams * exampleTopKParams.vocab_size))
        (exampleTopKParams.num_beams * exampleTopKParams.vocab_size))) ≠ 0 ∧
      Multiset.card (Multiset.ofList (SelectTopK.pop_queue listQueue i
        (SelectTopK.fill_queue listQueue
          ((exampleTopKScores.drop
              (0 * exampleTopKParams.num_beams * exampleTopKParams.vocab_size)).take
            (exampleTopKParams.num_beams * exampleTopKParams.vocab_size))
          (exampleTopKParams.num_beams * exampleTopKParams.vocab_size))))
        = exampleTopKParams.num_beams * exampleTopKParams.vocab_size - i ∧
      (SelectTopK.candidates listQueue exampleTopKParams exampleTopKScores 0)[i]? =
        some (listQueue.top (SelectTopK.pop_queue listQueue i (SelectTopK.fill_queue listQueue
          ((exampleTopKScores.drop
              (0 * exampleTopKParams.num_beams * exampleTopKParams.vocab_size)).take
            (exampleTopKParams.num_beams * exampleTopKParams.vocab_size))
          (exampleTopKParams.num_beams * exampleTopKParams.vocab_size)))) :=
  ⟨by decide, beam_top_k_pops_nonempty_queue (listQueue : PriorityQueue (ScoreIndex Int))
    (fun q : List (ScoreIndex Int) => Multiset.ofList q) listQueue_lawful exampleTopKParams
    (by decide) exampleTopKScores 0⟩

end TopKQueueWitnesses

section FilterSplit
variable {β : Type}

end FilterSplit

section TopKEos
variable {α : Type} [LinearOrder α] [Inhabited α]

end TopKEos

section TopKEosWitnesses

end TopKEosWitnesses

section BlockFolds
variable {α : Type}

end BlockFolds

section BeamScoreTable
variable {α : Type} [Add α] [Inhabited α]

end BeamScoreTable

section TopKDecomposition
variable {α : Type} [LinearOrder α] [Add α] [Inhabited α]

end TopKDecomposition

section TopKDecompositionWitnesses

end TopKDecompositionWitnesses


section LogitsPointer
variable {α : Type}

/-- The pointer `current_logits` of `SetLogits` advances by `input_length * vocab_size` per
round, whatever the buffers hold: round `i` reads `source` at `cur + i * (input_length *
vocab_size)`, the offset `SetLogits.source_indices` lists. -/
theorem SetLogits.pointer_spec (log_softmax : List α → List α) (p : SearchParams)
    (logits : List α) (input_length : Nat) (scores : List α) (cur n : Nat) :
    ((List.range n).foldl (SetLogits.body log_softmax p logits input_length)
        (scores, cur)).2 = cur + n * (input_length * p.vocab_size) := by
  induction n with
  | zero => simp
  | succ n ih =>
    rw [List.range_succ, List.foldl_append]
    simp only [List.foldl_cons, List.foldl_nil]
    show ((List.range n).foldl (SetLogits.body log_softmax p logits input_length)
        (scores, cur)).2 + input_length * p.vocab_size = _
    rw [ih]
    ring

end LogitsPointer

section LogitsReadsBounds

/-- For a non-empty logits buffer whose size is a multiple of `BatchBeamSize * vocab_size`,
every index `SetLogits` reads lies inside the buffer. -/
theorem SetLogits.source_indices_in_bounds (p : SearchParams) (logits_size : Nat)
    (hpos : 0 < logits_size) (hmul : logits_size % (p.BatchBeamSize * p.vocab_size) = 0)
    (hne : 0 < p.BatchBeamSize * p.vocab_size) :
    ∃ reads, SetLogits.source_indices p logits_size = some reads ∧
      ∀ idx, idx ∈ reads → idx < logits_size := by
  unfold SetLogits.source_indices
  dsimp only
  rw [if_neg (by omega), if_neg (by rw [hmul]; simp)]
  refine ⟨_, rfl, ?_⟩
  intro idx hidx
  rw [List.mem_flatten] at hidx
  obtain ⟨row, hrow, hin⟩ := hidx
  obtain ⟨i, hi, rfl⟩ := List.mem_map.1 hrow
  obtain ⟨k, hk, rfl⟩ := List.mem_map.1 hin
  rw [List.mem_range] at hi hk
  have hdvd : logits_size
      = p.BatchBeamSize * p.vocab_size * (logits_size / (p.BatchBeamSize * p.vocab_size)) :=
    (Nat.mul_div_cancel' (Nat.dvd_of_mod_eq_zero hmul)).symm
  generalize logits_size / (p.BatchBeamSize * p.vocab_size) = il at hdvd
  have hil : il ≠ 0 := by
    intro h0
    rw [h0, Nat.mul_zero] at hdvd
    omega
  rw [if_neg hil]
  obtain ⟨m, rfl⟩ : ∃ m, il = m + 1 := ⟨il - 1, by omega⟩
  obtain ⟨B, hB⟩ : ∃ B, p.BatchBeamSize = i + 1 + B := ⟨p.BatchBeamSize - (i + 1), by omega⟩
  rw [hdvd, hB, Nat.add_sub_cancel]
  have e : (i + 1 + B) * p.vocab_size * (m + 1)
      = m * p.vocab_size + i * ((m + 1) * p.vocab_size) + p.vocab_size
        + B * p.vocab_size * (m + 1) := by ring
  rw [e]
  omega

/-- C24 (the empty buffer).  For `exampleLogitsParams` (two rows over three tokens) the empty
logits buffer passes the check of line 45 (`0 % 6 = 0`) and `SetLogits` runs; `input_length` is
0, `input_length - 1` wraps to `2^64 - 1`, and both rounds read the three elements at the
offsets `(2^64 - 1) * 3 + k`, none of which lies inside the buffer. -/
theorem set_logits_reads_outside_empty_buffer :
    (Search.SetLogits (fun r => r) exampleLogitsParams exampleSearch []).isSome = true ∧
    ([] : List Int).length % (exampleLogitsParams.BatchBeamSize * exampleLogitsParams.vocab_size)
      = 0 ∧
    SetLogits.source_indices exampleLogitsParams ([] : List Int).length =
      some [(2 ^ 64 - 1) * 3, (2 ^ 64 - 1) * 3 + 1, (2 ^ 64 - 1) * 3 + 2,
        (2 ^ 64 - 1) * 3, (2 ^ 64 - 1) * 3 + 1, (2 ^ 64 - 1) * 3 + 2] ∧
    ∀ reads, SetLogits.source_indices exampleLogitsParams ([] : List Int).length = some reads →
      ∀ idx, idx ∈ reads → ¬ idx < ([] : List Int).length := by
  refine ⟨by decide, by decide, by decide, ?_⟩
  intro reads _ idx _
  exact Nat.not_lt_zero _

end LogitsReadsBounds

section GptExpansionClaims

/-- C21 (counterexample).  With `num_beams = 2` and a prompt of shape `(2, 4)` the construction
of the model inputs produces no expanded tensors: it ends in the `assert(false)` of line 151. -/
theorem gpt_inputs_not_expanded_for_two_beams :
    Gpt.CreateExpandedInputs exampleGptBeamParams 2 4 exampleGptBeamParams.input_ids
      exampleGptBeamBuffers = none := by
  rfl

/-- C21 (amended).  With `num_beams = 1` the construction of the model inputs yields expanded
`input_ids`, `position_ids` and `attention_mask` that are the `(batch_size, sequence_length)`
originals, so expanded row `b * num_beams + k` equals original row `b` for every
`k < num_beams`; with any other `num_beams` it yields no expanded tensors. -/
theorem gpt_inputs_expand_single_beam (p : SearchParams) (batch_size sequence_length : Nat)
    (word_id : List Nat) (init : GptInputs) :
    (p.num_beams = 1 →
      ∃ e, Gpt.CreateExpandedInputs p batch_size sequence_length word_id init = some e ∧
        e.expanded_input_ids = word_id ∧
        e.expanded_position_ids
          = (Gpt.CreateInputsInternal p batch_size sequence_length word_id init).position_ids ∧
        e.expanded_attention_mask
          = (Gpt.CreateInputsInternal p batch_size sequence_length word_id init).attention_mask ∧
        ∀ b k, b < batch_size → k < p.num_beams →
          (e.expanded_input_ids.drop ((b * p.num_beams + k) * sequence_length)).take
              sequence_length
            = (word_id.drop (b * sequence_length)).take sequence_length ∧
          (e.expanded_position_ids.drop ((b * p.num_beams + k) * sequence_length)).take
              sequence_length
            = ((Gpt.CreateInputsInternal p batch_size sequence_length word_id
                init).position_ids.drop (b * sequence_length)).take sequence_length ∧
          (e.expanded_attention_mask.drop ((b * p.num_beams + k) * sequence_length)).take
              sequence_length
            = ((Gpt.CreateInputsInternal p batch_size sequence_length word_id
                init).attention_mask.drop (b * sequence_length)).take sequence_length) ∧
    (p.num_beams ≠ 1 →
      Gpt.CreateExpandedInputs p batch_size sequence_length word_id init = none) := by
  constructor
  · intro h1
    refine ⟨_, if_pos h1, rfl, rfl, rfl, ?_⟩
    intro b k _ hk
    have hk0 : k = 0 := by omega
    rw [hk0, h1, Nat.mul_one, Nat.add_zero]
    exact ⟨rfl, rfl, rfl⟩
  · intro h1
    exact if_neg h1

/-- The prompt `[0, 0, 5, 6 | 7, 0, 8, 9]` with one beam: the expanded tensors are the
originals. -/
theorem gpt_inputs_expand_single_beam_witness :
    exampleGptParams.num_beams = 1 ∧
    Gpt.CreateExpandedInputs exampleGptParams 2 4 exampleGptParams.input_ids exampleGptBuffers =
      some { expanded_input_ids := [0, 0, 5, 6, 7, 0, 8, 9]
             expanded_position_ids := [0, 0, 0, 1, 0, 0, 1, 2]
             expanded_attention_mask := [0, 0, 1, 1, 1, 0, 1, 1] } ∧
    ∃ e, Gpt.CreateExpandedInputs exampleGptParams 2 4 exampleGptParams.input_ids
        exampleGptBuffers = some e ∧
      e.expanded_input_ids = exampleGptParams.input_ids ∧
      e.expanded_position_ids
        = (Gpt.CreateInputsInternal exampleGptParams 2 4 exampleGptParams.input_ids
            exampleGptBuffers).position_ids ∧
      e.expanded_attention_mask
        = (Gpt.CreateInputsInternal exampleGptParams 2 4 exampleGptParams.input_ids
            exampleGptBuffers).attention_mask ∧
      ∀ b k, b < 2 → k < exampleGptParams.num_beams →
        (e.expanded_input_ids.drop ((b * exampleGptParams.num_beams + k) * 4)).take 4
          = (exampleGptParams.input_ids.drop (b * 4)).take 4 ∧
        (e.expanded_position_ids.drop ((b * exampleGptParams.num_beams + k) * 4)).take 4
          = ((Gpt.CreateInputsInternal exampleGptParams 2 4 exampleGptParams.input_ids
              exampleGptBuffers).position_ids.drop (b * 4)).take 4 ∧
        (e.expanded_attention_mask.drop ((b * exampleGptParams.num_beams + k) * 4)).take 4
          = ((Gpt.CreateInputsInternal exampleGptParams 2 4 exampleGptParams.input_ids
              exampleGptBuffers).attention_mask.drop (b * 4)).take 4 :=
  ⟨rfl, rfl, (gpt_inputs_expand_single_beam exampleGptParams 2 4 exampleGptParams.input_ids
    exampleGptBuffers).1 rfl⟩

end GptExpansionClaims

section Float16Bits

theorem Nat.shiftRight_land (a b i : Nat) : (a &&& b) >>> i = (a >>> i) &&& (b >>> i) := by
  apply Nat.eq_of_testBit_eq
  intro j
  simp [Nat.testBit_shiftRight, Nat.testBit_and]

/-- The three bit fields `AsFloat32` extracts from the pattern `s * 2^15 + e * 2^10 + f`. -/
theorem float16.fields (s e f : Nat) (hs : s < 2) (he : e < 32) (hf : f < 1024) :
    ((s * 32768 + e * 1024 + f) &&& 0x8000) >>> 15 = s ∧
    ((s * 32768 + e * 1024 + f) &&& 0x7C00) >>> 10 = e ∧
    (s * 32768 + e * 1024 + f) &&& 0x03FF = f := by
  refine ⟨?_, ?_, ?_⟩
  · rw [Nat.shiftRight_land, Nat.shiftRight_eq_div_pow]
    have : (0x8000 : Nat) >>> 15 = 2 ^ 1 - 1 := by decide
    rw [this, Nat.and_pow_two_sub_one_eq_mod]
    omega
  · rw [Nat.shiftRight_land, Nat.shiftRight_eq_div_pow]
    have : (0x7C00 : Nat) >>> 10 = 2 ^ 5 - 1 := by decide
    rw [this, Nat.and_pow_two_sub_one_eq_mod]
    omega
  · have : (0x03FF : Nat) = 2 ^ 10 - 1 := by decide
    rw [this, Nat.and_pow_two_sub_one_eq_mod]
    omega

end Float16Bits

section Float16Exact

theorem Float32Value.round_exact (round : ℚ → ℚ)
    (hround : ∀ q, Float32Value.representable q → round q = q) (m k : ℤ)
    (hm : -16777216 < m ∧ m < 16777216) (hk : -149 ≤ k ∧ k ≤ 104) :
    round ((m : ℚ) * (2 : ℚ) ^ k) = (m : ℚ) * (2 : ℚ) ^ k := by
  apply hround
  refine ⟨m, k, ?_, hk.1, hk.2, rfl⟩
  rw [abs_lt]
  constructor
  · norm_num
    exact hm.1
  · norm_num
    exact hm.2

/-- The `float` operations of the subnormal branch (line 52) are exact. -/
theorem float16.subnormal_exact (round : ℚ → ℚ)
    (hround : ∀ q, Float32Value.representable q → round q = q) (σ : ℤ)
    (hσ : σ = 1 ∨ σ = -1) (f : Nat) (hf : f < 1024) :
    ldexp round (round (round ((σ : ℚ) * round (f : ℚ)) / 1024)) (-14)
      = (σ : ℚ) * (2 : ℚ) ^ (-14 : ℤ) * ((f : ℚ) / 1024) := by
  have hb : -16777216 < σ * (f : ℤ) ∧ σ * (f : ℤ) < 16777216 := by
    rcases hσ with h | h <;> subst h <;> constructor <;> omega
  have s1 : round (f : ℚ) = (f : ℚ) := by
    have := Float32Value.round_exact round hround (f : ℤ) 0 (by constructor <;> omega)
      (by constructor <;> omega)
    simpa using this
  have s2 : round ((σ : ℚ) * (f : ℚ)) = (σ : ℚ) * (f : ℚ) := by
    have := Float32Value.round_exact round hround (σ * (f : ℤ)) 0 hb (by constructor <;> omega)
    simpa using this
  have s3 : round ((σ : ℚ) * (f : ℚ) / 1024) = (σ : ℚ) * (f : ℚ) / 1024 := by
    have := Float32Value.round_exact round hround (σ * (f : ℤ)) (-10) hb
      (by constructor <;> omega)
    have e : ((σ * (f : ℤ) : ℤ) : ℚ) * (2 : ℚ) ^ (-10 : ℤ) = (σ : ℚ) * (f : ℚ) / 1024 := by
      push_cast
      norm_num
      ring
    rw [e] at this
    exact this
  have s4 : round ((σ : ℚ) * (f : ℚ) / 1024 * (2 : ℚ) ^ (-14 : ℤ))
      = (σ : ℚ) * (f : ℚ) / 1024 * (2 : ℚ) ^ (-14 : ℤ) := by
    have := Float32Value.round_exact round hround (σ * (f : ℤ)) (-24) hb
      (by constructor <;> omega)
    have e : ((σ * (f : ℤ) : ℤ) : ℚ) * (2 : ℚ) ^ (-24 : ℤ)
        = (σ : ℚ) * (f : ℚ) / 1024 * (2 : ℚ) ^ (-14 : ℤ) := by
      push_cast
      norm_num
      ring
    rw [e] at this
    exact this
  unfold ldexp
  rw [s1, s2, s3, s4]
  ring

/-- The `float` operations of the normalized branch (line 65) are exact. -/
theorem float16.normal_exact (round : ℚ → ℚ)
    (hround : ∀ q, Float32Value.representable q → round q = q) (σ : ℤ)
    (hσ : σ = 1 ∨ σ = -1) (e f : Nat) (he : 1 ≤ e ∧ e ≤ 30) (hf : f < 1024) :
    ldexp round (round ((σ : ℚ) * round (1 + round (round (f : ℚ) / 1024)))) ((e : ℤ) - 15)
      = (σ : ℚ) * (2 : ℚ) ^ ((e : ℤ) - 15) * (1 + (f : ℚ) / 1024) := by
  have hb : -16777216 < σ * (1024 + (f : ℤ)) ∧ σ * (1024 + (f : ℤ)) < 16777216 := by
    rcases hσ with h | h <;> subst h <;> constructor <;> omega
  have s1 : round (f : ℚ) = (f : ℚ) := by
    have := Float32Value.round_exact round hround (f : ℤ) 0 (by constructor <;> omega)
      (by constructor <;> omega)
    simpa using this
  have s2 : round ((f : ℚ) / 1024) = (f : ℚ) / 1024 := by
    have := Float32Value.round_exact round hround (f : ℤ) (-10) (by constructor <;> omega)
      (by constructor <;> omega)
    have e : (((f : ℤ) : ℤ) : ℚ) * (2 : ℚ) ^ (-10 : ℤ) = (f : ℚ) / 1024 := by
      push_cast
      norm_num
      ring
    rw [e] at this
    exact this
  have s3 : round (1 + (f : ℚ) / 1024) = 1 + (f : ℚ) / 1024 := by
    have := Float32Value.round_exact round hround (1024 + (f : ℤ)) (-10)
      (by constructor <;> omega) (by constructor <;> omega)
    have e : ((1024 + (f : ℤ) : ℤ) : ℚ) * (2 : ℚ) ^ (-10 : ℤ) = 1 + (f : ℚ) / 1024 := by
      push_cast
      norm_num
      ring
    rw [e] at this
    exact this
  have s4 : round ((σ : ℚ) * (1 + (f : ℚ) / 1024)) = (σ : ℚ) * (1 + (f : ℚ) / 1024) := by
    have := Float32Value.round_exact round hround (σ * (1024 + (f : ℤ))) (-10) hb
      (by constructor <;> omega)
    have e : ((σ * (1024 + (f : ℤ)) : ℤ) : ℚ) * (2 : ℚ) ^ (-10 : ℤ)
        = (σ : ℚ) * (1 + (f : ℚ) / 1024) := by
      push_cast
      norm_num
      ring
    rw [e] at this
    exact this
  have s5 : round ((σ : ℚ) * (1 + (f : ℚ) / 1024) * (2 : ℚ) ^ ((e : ℤ) - 15))
      = (σ : ℚ) * (1 + (f : ℚ) / 1024) * (2 : ℚ) ^ ((e : ℤ) - 15) := by
    have := Float32Value.round_exact round hround (σ * (1024 + (f : ℤ))) ((e : ℤ) - 25) hb
      (by constructor <;> omega)
    have e : ((σ * (1024 + (f : ℤ)) : ℤ) : ℚ) * (2 : ℚ) ^ ((e : ℤ) - 25)
        = (σ : ℚ) * (1 + (f : ℚ) / 1024) * (2 : ℚ) ^ ((e : ℤ) - 15) := by
      have h2 : (2 : ℚ) ^ ((e : ℤ) - 25) = (2 : ℚ) ^ ((e : ℤ) - 15) * (2 : ℚ) ^ (-10 : ℤ) := by
        rw [← zpow_add₀ (by norm_num : (2 : ℚ) ≠ 0)]
        congr 1
        ring
      rw [h2]
      push_cast
      norm_num
      ring
    rw [e] at this
    exact this
  unfold ldexp
  rw [s1, s2, s3, s4, s5]
  ring

end Float16Exact

section Float16Claims

/-- C26.  For every 16-bit pattern, given by its sign bit `s`, exponent field `e` and fraction
field `f`, `float16::AsFloat32` returns the value IEEE-754 binary16 assigns to it
(`binary16_value`): `(-1)^s * 2^(e-15) * (1 + f/1024)` for `1 ≤ e ≤ 30`,
`(-1)^s * 2^(-14) * f/1024` for `e = 0` (a signed zero when `f = 0`), a signed infinity for
`e = 31` and `f = 0`, a NaN for `e = 31` and `f ≠ 0`.  `round`, the rounding of `float`
arithmetic, is any function that returns the values of binary32 unchanged. -/
theorem float16_as_float32_is_binary16_value (round : ℚ → ℚ)
    (hround : ∀ q, Float32Value.representable q → round q = q) (s e f : Nat)
    (hs : s < 2) (he : e < 32) (hf : f < 1024) :
    float16.AsFloat32 round (s * 32768 + e * 1024 + f) = binary16_value s e f := by
  obtain ⟨h1, h2, h3⟩ := float16.fields s e f hs he hf
  unfold float16.AsFloat32 binary16_value
  dsimp only
  rw [h1, h2, h3]
  have hsign : (if s ≠ 0 then (-1 : ℚ) else 1) = (((if s ≠ 0 then -1 else 1 : ℤ) : ℤ) : ℚ) := by
    split_ifs <;> simp
  have hpow : ((-1 : ℚ)) ^ s = (((if s ≠ 0 then -1 else 1 : ℤ) : ℤ) : ℚ) := by
    have : s = 0 ∨ s = 1 := by omega
    rcases this with h | h <;> subst h <;> simp
  have hσ : (if s ≠ 0 then -1 else 1 : ℤ) = 1 ∨ (if s ≠ 0 then -1 else 1 : ℤ) = -1 := by
    split_ifs
    · exact Or.inr rfl
    · exact Or.inl rfl
  have hdec : (if s ≠ 0 then true else false) = decide (s = 1) := by
    have : s = 0 ∨ s = 1 := by omega
    rcases this with h | h <;> subst h <;> rfl
  by_cases he0 : e = 0
  · rw [if_pos he0, if_pos he0]
    by_cases hf0 : f = 0
    · rw [if_pos hf0, if_pos hf0, ← hdec]
      split_ifs <;> rfl
    · rw [if_neg hf0, if_neg hf0, hsign, hpow,
        float16.subnormal_exact round hround _ hσ f hf]
  · rw [if_neg he0, if_neg he0]
    by_cases he31 : e = 31
    · rw [if_pos he31, if_pos he31]
      by_cases hf0 : f = 0
      · rw [if_pos hf0, if_pos hf0, ← hdec]
        split_ifs <;> rfl
      · rw [if_neg hf0, if_neg hf0]
    · rw [if_neg he31, if_neg he31, hsign, hpow,
        float16.normal_exact round hround _ hσ e f (by omega) hf]

/-- The pattern `0xC100` (sign 1, exponent 16, fraction 256) is `-2.5`, the pattern `0x0001`
is the least subnormal `2^-24`, and the pattern `0xFC00` is negative infinity. -/
theorem float16_as_float32_is_binary16_value_witness :
    (∀ q, Float32Value.representable q → (fun x : ℚ => x) q = q) ∧
    float16.AsFloat32 (fun x => x) (1 * 32768 + 16 * 1024 + 256) = binary16_value 1 16 256 ∧
    float16.AsFloat32 (fun x => x) 0xC100 = Float32Value.finite (-5 / 2) ∧
    float16.AsFloat32 (fun x => x) 0x0001 = Float32Value.finite (1 / 16777216) ∧
    float16.AsFloat32 (fun x => x) 0xFC00 = Float32Value.infinity true := by
  refine ⟨fun _ _ => rfl,
    float16_as_float32_is_binary16_value (fun x => x) (fun _ _ => rfl) 1 16 256
      (by decide) (by decide) (by decide), ?_, ?_, ?_⟩
  · have a : (0xC100 &&& 0x7C00 : Nat) >>> 10 = 16 := by decide
    have b : (0xC100 &&& 0x03FF : Nat) = 256 := by decide
    have c : (0xC100 &&& 0x8000 : Nat) >>> 15 = 1 := by decide
    unfold float16.AsFloat32 ldexp
    dsimp only
    rw [a, b, c]
    norm_num
  · have a : (0x0001 &&& 0x7C00 : Nat) >>> 10 = 0 := by decide
    have b : (0x0001 &&& 0x03FF : Nat) = 1 := by decide
    have c : (0x0001 &&& 0x8000 : Nat) >>> 15 = 0 := by decide
    unfold float16.AsFloat32 ldexp
    dsimp only
    rw [a, b, c]
    norm_num
  · have a : (0xFC00 &&& 0x7C00 : Nat) >>> 10 = 31 := by decide
    have b : (0xFC00 &&& 0x03FF : Nat) = 0 := by decide
    have c : (0xFC00 &&& 0x8000 : Nat) >>> 15 = 1 := by decide
    unfold float16.AsFloat32
    dsimp only
    rw [a, b, c]
    rfl

end Float16Claims

end Generators
